import Mathlib

/-!
# infinibox-csi-driver: node-side iSCSI engine

A shallow embedding of the volume-handle validation, the sidecar store and the
node service of the driver (`src/storage/storagehelper.go`,
`src/storage/iscsinode.go`, `src/service/controller.go`), followed by the
theorems that settle the listed claims about them.

Go strings are embedded as `String`; the functions of package `strings` the
driver calls are defined on the underlying character lists.
-/

namespace Infinibox

/-! ## Package `strings` -/

/-- Characters of the separator of a volume handle, the literal `$$`. -/
def sepChars : List Char := ['$', '$']

/-- The function `strings.Contains` on character lists: `sub` starts at some
position of the first argument. -/
def containsChars : List Char → List Char → Bool
  | [], sub => sub.isEmpty
  | c :: cs, sub => sub.isPrefixOf (c :: cs) || containsChars cs sub

/-- The function `strings.Contains(s, substr)`. -/
def strContains (s substr : String) : Bool := containsChars s.data substr.data

/-- The loop of `strings.Split` for a non-empty separator: `skip` counts the
characters of a separator just matched that are still to be stepped over, `cur`
holds the piece being collected, latest character first. The leftmost match
is cut first and the search resumes behind it, as `genSplit` does with
`strings.Index`. -/
def splitLoop (sep : List Char) : Nat → List Char → List Char → List (List Char)
  | _, [], cur => [cur.reverse]
  | skip + 1, _ :: cs, cur => splitLoop sep skip cs cur
  | 0, c :: cs, cur =>
    if sep.isPrefixOf (c :: cs) then cur.reverse :: splitLoop sep (sep.length - 1) cs []
    else splitLoop sep 0 cs (c :: cur)

/-- The function `strings.Split` on character lists; an empty separator
explodes the string into its characters. -/
def splitChars (s sep : List Char) : List (List Char) :=
  if sep.isEmpty then s.map fun c => [c] else splitLoop sep 0 s []

/-- The function `strings.Split(s, sep)`. -/
def strSplit (s sep : String) : List String := (splitChars s.data sep.data).map String.mk

/-- The function `strings.HasSuffix(s, suffix)`. -/
def strHasSuffix (s suffix : String) : Bool := suffix.data.isSuffixOf s.data

/-- The function `strings.HasPrefix(s, prefix)`. -/
def strHasPrefix (s pre : String) : Bool := pre.data.isPrefixOf s.data

/-- The function `strings.TrimSuffix(s, suffix)`. -/
def strTrimSuffix (s suffix : String) : String :=
  if suffix.data.isSuffixOf s.data then String.mk (s.data.take (s.data.length - suffix.data.length))
  else s

/-- Replacing the first occurrence of `old` in a character list by `new`. -/
def replaceFirstChars (old new : List Char) : List Char → List Char
  | [] => if old.isEmpty then new else []
  | c :: cs =>
    if old.isPrefixOf (c :: cs) then new ++ (c :: cs).drop old.length
    else c :: replaceFirstChars old new cs

/-- The call `strings.Replace(s, old, new, 1)`. -/
def strReplaceFirst (s old new : String) : String :=
  String.mk (replaceFirstChars old.data new.data s.data)

/-- The white space of `unicode.IsSpace`. -/
def isSpace (c : Char) : Bool :=
  c = ' ' || c = '\t' || c = '\n' || c = '\r' || c.toNat = 11 || c.toNat = 12
    || c.toNat = 0x85 || c.toNat = 0xA0 || c.toNat = 0x1680
    || (0x2000 ≤ c.toNat && c.toNat ≤ 0x200a) || c.toNat = 0x2028 || c.toNat = 0x2029
    || c.toNat = 0x202f || c.toNat = 0x205f || c.toNat = 0x3000

/-- The loop of `strings.Fields`: `cur` holds the field being collected, latest
character first. -/
def fieldsLoop : List Char → List Char → List (List Char)
  | [], cur => if cur.isEmpty then [] else [cur.reverse]
  | c :: cs, cur =>
    if isSpace c then
      if cur.isEmpty then fieldsLoop cs [] else cur.reverse :: fieldsLoop cs []
    else fieldsLoop cs (c :: cur)

/-- The function `strings.Fields(s)`. -/
def strFields (s : String) : List String := (fieldsLoop s.data []).map String.mk

/-- The verb `%q` of `fmt.Sprintf` on a string: the string in double quotes,
with backslash, double quote, newline, tab and carriage return escaped. -/
def quote (s : String) : String :=
  "\"" ++ String.mk (s.data.flatMap fun c =>
    if c = '\\' then ['\\', '\\'] else if c = '"' then ['\\', '"']
    else if c = '\n' then ['\\', 'n'] else if c = '\t' then ['\\', 't']
    else if c = '\r' then ['\\', 'r'] else [c]) ++ "\""

/-- The string `sub` starts at position `i` of `s`. -/
def occursAt (sub s : String) (i : Nat) : Bool :=
  sub.data.isPrefixOf (s.data.drop i)

/-! ## Errors -/

/-- The gRPC status codes the driver uses (`google.golang.org/grpc/codes`). -/
inductive Code
  | OK
  | Unknown
  | InvalidArgument
  | NotFound
  | AlreadyExists
  | Internal
  | Unimplemented
  deriving DecidableEq, Repr

/-- A Go `error` value: a plain error made by `errors.New` or `fmt.Errorf`, a
gRPC status error made by `status.Error`, or the error of a file operation `op`
on a path that does not exist (`os.ErrNotExist`). -/
inductive GoError
  | plain (msg : String)
  | status (code : Code) (desc : String)
  | notExist (op path : String)
  deriving DecidableEq, Repr

/-- The name `Code.String()` prints. -/
def Code.name : Code → String
  | .OK => "OK"
  | .Unknown => "Unknown"
  | .InvalidArgument => "InvalidArgument"
  | .NotFound => "NotFound"
  | .AlreadyExists => "AlreadyExists"
  | .Internal => "Internal"
  | .Unimplemented => "Unimplemented"

/-- The method `err.Error()`. -/
def GoError.Error : GoError → String
  | .plain msg => msg
  | .status code desc => "rpc error: code = " ++ code.name ++ " desc = " ++ desc
  | .notExist op path => op ++ " " ++ path ++ ": no such file or directory"

/-- The verb `%v` of `fmt.Sprintf` on an error value. -/
def errText : Option GoError → String
  | none => "<nil>"
  | some e => GoError.Error e

/-- The function `os.IsNotExist(err)`, which is also what
`errors.Is(err, os.ErrNotExist)` decides. -/
def isNotExist : Option GoError → Bool
  | some (.notExist _ _) => true
  | _ => false

/-- The function `status.Code(err)`: `OK` for a nil error, the code of a status
error, `Unknown` for any other error. -/
def statusCode : Option GoError → Code
  | none => .OK
  | some (.plain _) => .Unknown
  | some (.notExist _ _) => .Unknown
  | some (.status code _) => code

/-! ## Volume handles (`storagehelper.go`) -/

/-- The type `api.VolumeProtocolConfig`, as far as `validateVolumeID` fills it. -/
structure VolumeProtocolConfig where
  VolumeID : String
  StorageType : String
  deriving DecidableEq, Repr

/-- The function `validateVolumeID` of `storagehelper.go`: the returned
configuration and the error. -/
def validateVolumeID (str : String) : VolumeProtocolConfig × Option GoError :=
  match strSplit str "$$" with
  | [v, p] => (⟨v, p⟩, none)
  | _ => (⟨"", ""⟩, some (.plain "volume Id and other details not found"))

/-! ## Package `path` -/

/-- One step of `path.Clean` over the elements of a path: `stack` holds the
elements kept so far, last one first. Empty elements and `.` are dropped, `..`
removes the element before it, is dropped at the root and is kept at the start
of a relative path. -/
def cleanStep (rooted : Bool) (stack : List (List Char)) (elem : List Char) :
    List (List Char) :=
  if elem = [] ∨ elem = ['.'] then stack
  else if elem = ['.', '.'] then
    match stack with
    | [] => if rooted then [] else [elem]
    | top :: rest => if top = ['.', '.'] then elem :: stack else rest
  else elem :: stack

/-- The function `path.Clean` on character lists. -/
def cleanChars (p : List Char) : List Char :=
  let rooted := p.head? = some '/'
  let elems := ((splitChars p ['/']).foldl (cleanStep rooted) []).reverse
  let body := List.intercalate ['/'] elems
  if rooted then '/' :: body else if body = [] then ['.'] else body

/-- The function `path.Clean(p)`. -/
def pathClean (p : String) : String := String.mk (cleanChars p.data)

/-- The function `path.Join(elem...)` (and `filepath.Join` on Linux): the
non-empty elements joined by `/` and cleaned; the empty string when there is
none. -/
def pathJoin (elems : List String) : String :=
  match elems.filter fun e => e ≠ "" with
  | [] => ""
  | es => pathClean (String.intercalate "/" es)

/-- The part of a path up to and including its last slash. -/
def dirChars (p : List Char) : List Char :=
  (p.reverse.dropWhile fun c => c ≠ '/').reverse

/-- The function `filepath.Dir(p)` on Linux: the path without its last
element, cleaned. -/
def pathDir (p : String) : String := String.mk (cleanChars (dirChars p.data))

/-! ## The sidecar document (`encoding/json`) -/

/-- A JSON value as `encoding/json` sees it when it fills a field of type
`string` or `[]string`: `null`, a string, an array of strings, or a value of
any other shape. -/
inductive JVal
  | null
  | str (s : String)
  | strs (xs : List String)
  | other
  deriving DecidableEq, Repr

/-- A JSON object: its members in the order they are written. -/
abbrev Doc := List (String × JVal)

/-- A Go `map[string]string`: the nil map is the empty list; a key's value is
that of its first entry. -/
abbrev GoMap := List (String × String)

/-- The map index expression `m[k]` with the comma-ok form. -/
def GoMap.get? (m : GoMap) (k : String) : Option String :=
  (m.find? fun e => e.1 = k).map fun e => e.2

/-- The map index expression `m[k]`: the empty string for an absent key. -/
def GoMap.get (m : GoMap) (k : String) : String := (GoMap.get? m k).getD ""

/-- The assignment `m[k] = v`. -/
def GoMap.set (m : GoMap) (k v : String) : GoMap :=
  if m.any fun e => e.1 = k then m.map fun e => if e.1 = k then (k, v) else e
  else m ++ [(k, v)]

/-- The struct `iscsiDisk` of `iscsinode.go`, its fields in the order of the
source. The fields `lun`, `chap_discovery`, `chap_session`, `secret` and
`isBlock` are unexported. -/
structure iscsiDisk where
  Portals : List String
  Iqn : String
  lun : String
  Iface : String
  chap_discovery : Bool
  chap_session : Bool
  secret : GoMap
  InitiatorName : String
  VolName : String
  isBlock : Bool
  MpathDevice : String
  deriving DecidableEq, Repr

/-- The zero value of `iscsiDisk` with the given `VolName`, as
`getISCSIDiskUnmounter` builds it. -/
def iscsiDisk.named (volName : String) : iscsiDisk :=
  ⟨[], "", "", "", false, false, [], "", volName, false, ""⟩

/-- What `json.Encoder.Encode` writes for an `iscsiDisk`: the exported fields,
in the order of the struct; unexported fields are left out by `encoding/json`.
The nil slice, written as `null`, and the empty slice are both the empty list
and are read back as such. -/
def encodeDisk (conf : iscsiDisk) : Doc :=
  [("Portals", .strs conf.Portals), ("Iqn", .str conf.Iqn), ("Iface", .str conf.Iface),
   ("InitiatorName", .str conf.InitiatorName), ("VolName", .str conf.VolName),
   ("MpathDevice", .str conf.MpathDevice)]

/-- The exported fields of `iscsiDisk`, the only ones `encoding/json` fills. -/
inductive DiskField
  | Portals
  | Iqn
  | Iface
  | InitiatorName
  | VolName
  | MpathDevice
  deriving DecidableEq, Repr

/-- The name of an exported field. -/
def DiskField.name : DiskField → String
  | .Portals => "Portals"
  | .Iqn => "Iqn"
  | .Iface => "Iface"
  | .InitiatorName => "InitiatorName"
  | .VolName => "VolName"
  | .MpathDevice => "MpathDevice"

/-- All exported fields, in the order of the struct. -/
def DiskField.all : List DiskField :=
  [.Portals, .Iqn, .Iface, .InitiatorName, .VolName, .MpathDevice]

/-- The case folding under which `encoding/json` compares a member key with a
field name made of ASCII letters: letters in lower case, the Kelvin sign as `k`
and the long s as `s`. -/
def foldName (name : String) : String :=
  String.mk (name.data.map fun c =>
    if c.toNat = 0x212A then 'k' else if c.toNat = 0x17F then 's' else c.toLower)

/-- The field a member key is decoded into: the field of exactly that name,
else the first field whose name equals the key up to letter case; a key that
matches none is skipped. -/
def fieldOfKey (key : String) : Option DiskField :=
  match DiskField.all.find? fun f => f.name = key with
  | some f => some f
  | none => DiskField.all.find? fun f => foldName f.name = foldName key

/-- Decoding one member into the disk: `null` leaves the field as it is, a
value of the field's type is stored, a value of another shape is a type error
and leaves the field as it is. -/
def decodeMember (conf : iscsiDisk) (f : DiskField) (v : JVal) : iscsiDisk × Bool :=
  match f, v with
  | _, .null => (conf, true)
  | .Portals, .strs xs => ({ conf with Portals := xs }, true)
  | .Iqn, .str s => ({ conf with Iqn := s }, true)
  | .Iface, .str s => ({ conf with Iface := s }, true)
  | .InitiatorName, .str s => ({ conf with InitiatorName := s }, true)
  | .VolName, .str s => ({ conf with VolName := s }, true)
  | .MpathDevice, .str s => ({ conf with MpathDevice := s }, true)
  | _, _ => (conf, false)

/-- What `json.Decoder.Decode` does with an object: the members are decoded in
order; after a type error decoding goes on and the first such error is
returned at the end. -/
def decodeDisk : Doc → iscsiDisk → iscsiDisk × Option GoError
  | [], conf => (conf, none)
  | (key, v) :: rest, conf =>
    match fieldOfKey key with
    | none => decodeDisk rest conf
    | some f =>
      let (conf1, ok) := decodeMember conf f v
      let (conf2, err) := decodeDisk rest conf1
      (conf2, if ok then err
        else some (.plain ("json: cannot unmarshal value into Go struct field iscsiDisk."
          ++ f.name)))

/-! ## The file system of the container -/

/-- An entry of the file system: a directory, a regular file with its content
(a JSON object, or `none` for content that is not one, such as that of a file
just created), or an entry that cannot be examined (every operation on it
fails with an error other than not-exist). -/
inductive Node
  | dir
  | file (doc : Option Doc)
  | denied
  deriving DecidableEq, Repr

/-- The file system: the paths that exist, in cleaned form, each with its
entry. The first entry of a path is the one that counts. -/
abbrev FS := List (String × Node)

/-- The entry at a path, if the path exists. -/
def FS.lookup (fs : FS) (p : String) : Option Node :=
  (fs.find? fun e => e.1 = p).map fun e => e.2

/-- The file system without the path `p`. -/
def FS.erase (fs : FS) (p : String) : FS := fs.filter fun e => e.1 ≠ p

/-- The file system with `p` set to the entry `n`. -/
def FS.write (fs : FS) (p : String) (n : Node) : FS := (p, n) :: FS.erase fs p

/-- The path `p` lies below the directory `dir`. -/
def under (dir p : String) : Bool :=
  (if dir.data.getLast? = some '/' then dir.data else dir.data ++ ['/']).isPrefixOf p.data
    && p ≠ dir

/-- The path `q` is `p` or lies below it. -/
def within (p q : String) : Bool := q = p || under p q

/-- The function `os.Stat`: whether the path is a directory, and the error.
Like every file operation it looks the path up in its cleaned form. -/
def osStat (fs : FS) (p : String) : Bool × Option GoError :=
  match FS.lookup fs (pathClean p) with
  | none => (false, some (.notExist "stat" p))
  | some .dir => (true, none)
  | some (.file _) => (false, none)
  | some .denied => (false, some (.plain ("stat " ++ p ++ ": permission denied")))

/-- The function `os.Create`: it needs the parent directory, fails on a
directory and leaves a file without content. -/
def osCreate (fs : FS) (p : String) : Option GoError × FS :=
  match FS.lookup fs (pathDir p) with
  | none => (some (.notExist "open" p), fs)
  | some .dir =>
    match FS.lookup fs (pathClean p) with
    | some .dir => (some (.plain ("open " ++ p ++ ": is a directory")), fs)
    | some .denied => (some (.plain ("open " ++ p ++ ": permission denied")), fs)
    | _ => (none, FS.write fs (pathClean p) (.file none))
  | some (.file _) => (some (.plain ("open " ++ p ++ ": not a directory")), fs)
  | some .denied => (some (.plain ("open " ++ p ++ ": permission denied")), fs)

/-- The function `os.Open`: the error, if the path cannot be opened. -/
def osOpen (fs : FS) (p : String) : Option GoError :=
  match FS.lookup fs (pathClean p) with
  | none => some (.notExist "open" p)
  | some .denied => some (.plain ("open " ++ p ++ ": permission denied"))
  | _ => none

/-- The function `os.Remove`: a file or an empty directory is removed. -/
def osRemove (fs : FS) (p : String) : Option GoError × FS :=
  match FS.lookup fs (pathClean p) with
  | none => (some (.notExist "remove" p), fs)
  | some .denied => (some (.plain ("remove " ++ p ++ ": permission denied")), fs)
  | some (.file _) => (none, FS.erase fs (pathClean p))
  | some .dir =>
    if fs.any fun e => under (pathClean p) e.1 then
      (some (.plain ("remove " ++ p ++ ": directory not empty")), fs)
    else (none, FS.erase fs (pathClean p))

/-- The path `q` is, or has below it, an entry that cannot be examined. -/
def blocked (fs : FS) (q : String) : Bool :=
  fs.any fun e => e.2 = Node.denied && within q e.1

/-- The function `os.RemoveAll`: the path and everything below it is removed,
except what holds an entry that cannot be examined; a path that does not exist
is no error. -/
def osRemoveAll (fs : FS) (p : String) : Option GoError × FS :=
  (if blocked fs (pathClean p) then some (.plain ("unlinkat " ++ p ++ ": permission denied"))
    else none,
   fs.filter fun e => !(within (pathClean p) e.1) || blocked fs e.1)

/-! ## The host -/

/-- The steps of a publish, by which every call the engine makes is labelled at
its call site; `other` labels the calls outside the pipeline (iface lookup and
cloning, the mount-point check, creating the mount point, debugging aids). -/
inductive Step
  | other
  | discovery
  | chapUpdate
  | login
  | rescan
  | pathWait
  | multipath
  | mount
  | sidecar
  deriving DecidableEq, Repr

/-- The calls that leave the code under `src/`: external commands run through
`helper.ExecScsi` or `os/exec`, `helper.CheckMultipath`, the mount library,
device-mapper, the helpers `waitForDeviceState`, `waitForMultipath` and
`detachMpathDevice`, the array client, the OS helper, and the operating
system. How the calls of the first groups end is a parameter, the host; the
file operations from `osStat` on are answered by the file-system model. -/
inductive Call
  | checkMultipath
  | command (cmd args : String)
  | exec (name : String) (args : List String)
  | isLikelyNotMountPoint (file : String)
  | mount (source target fstype : String) (options : List String)
  | formatAndMount (source target fstype : String) (options : List String)
  | unmount (target : String)
  | mountList
  | dmsetupInfo (devicePath : String)
  | waitForDeviceState (host lun state : String)
  | waitForMultipath (host lun : String)
  | detachMpathDevice (mpath protocol : String)
  | glob (pattern : String)
  | sleep
  | evalSymlinks (path : String)
  | readDir (dir : String)
  | lstat (path : String)
  | addPortForHost (hostID : Int) (portType address : String)
  | addChapSecurityForHost (hostID : Int) (creds : GoMap)
  | chownVolume (uid gid target : String)
  | chmodVolume (perm target : String)
  | pathExists (path : String)
  | osStat (path : String)
  | osCreate (path : String)
  | osOpen (path : String)
  | encode (path : String) (doc : Doc)
  | decode (path : String)
  | osRemove (path : String)
  | osRemoveAll (path : String)
  | readdirnames (path : String)
  | walk (path : String)
  deriving DecidableEq, Repr

/-- What a call returns: an output string, a list of names, a boolean and an
error; each call uses the components its Go signature has. -/
structure Reply where
  out : String
  names : List String
  flag : Bool
  err : Option GoError
  deriving DecidableEq, Repr

/-- The reply of a call that returns only an error. -/
def Reply.ofErr (err : Option GoError) : Reply := ⟨"", [], false, err⟩

/-- How a call ends: it returns, or it panics with a value. -/
inductive Ending
  | returned (r : Reply)
  | panicked (v : String)
  deriving DecidableEq, Repr

/-- One entry of the trace: the call, the step its call site belongs to and how
it ended. -/
structure Event where
  step : Step
  call : Call
  ending : Ending
  deriving DecidableEq, Repr

/-- The state of the node: the host state outside the driver's control and the
file system. -/
structure Sys (σ : Type) where
  ext : σ
  fs : FS

/-- The host: how each call that is not answered by the file-system model ends
and what it does to the node. -/
abbrev Host (σ : Type) := Call → Sys σ → Ending × Sys σ

/-- The values of the named results `(mntPath, err)` of `AttachDisk` at the
moment of a panic. -/
structure Frame where
  mnt : String
  err : Option GoError
  deriving DecidableEq, Repr

/-- How a piece of Go code ends: with a value, or in a panic that carries the
panic value and, once the function whose deferred call will recover it has
recorded them, the values of its named results. -/
inductive Res (α : Type)
  | ret (a : α)
  | panic (v : String) (frame : Option Frame)
  deriving DecidableEq, Repr

/-- The outcome of a run: how it ended, the node afterwards and the calls made,
in order. -/
structure Out (σ α : Type) where
  res : Res α
  sys : Sys σ
  evs : List Event

/-- A piece of Go code that runs on the node. -/
def M (σ α : Type) : Type := Sys σ → Out σ α

/-- Returning a value without any call. -/
def M.pure {σ α : Type} (a : α) : M σ α := fun s => ⟨.ret a, s, []⟩

/-- Sequencing: a panic of the first part skips the second. -/
def M.bind {σ α β : Type} (m : M σ α) (f : α → M σ β) : M σ β := fun s =>
  match m s with
  | ⟨.ret a, s1, e1⟩ =>
    match f a s1 with
    | ⟨r, s2, e2⟩ => ⟨r, s2, e1 ++ e2⟩
  | ⟨.panic v fr, s1, e1⟩ => ⟨.panic v fr, s1, e1⟩

instance {σ : Type} : Monad (M σ) where
  pure := M.pure
  bind := M.bind

/-- A runtime panic of the driver's own code. -/
def goPanic {σ α : Type} (v : String) : M σ α := fun s => ⟨.panic v none, s, []⟩

/-- A call answered by the host. -/
def call {σ : Type} (h : Host σ) (step : Step) (c : Call) : M σ Reply := fun s =>
  match h c s with
  | (.returned r, s1) => ⟨.ret r, s1, [⟨step, c, .returned r⟩]⟩
  | (.panicked v, s1) => ⟨.panic v none, s1, [⟨step, c, .panicked v⟩]⟩

/-- A call answered by the file-system model: `f` gives the value and the new
file system, `log` the reply that is recorded. -/
def fsCall {σ α : Type} (step : Step) (c : Call) (f : FS → α × FS) (log : α → Reply) :
    M σ α := fun s =>
  match f s.fs with
  | (a, fs1) => ⟨.ret a, ⟨s.ext, fs1⟩, [⟨step, c, .returned (log a)⟩]⟩

/-- A deferred call that recovers a panic in a function with unnamed results:
the function returns the zero values of its results, whatever the deferred call
assigns to local variables. -/
def recoverZero {σ α : Type} (zero : α) (m : M σ α) : M σ α := fun s =>
  match m s with
  | ⟨.panic _ _, s1, e1⟩ => ⟨.ret zero, s1, e1⟩
  | o => o

/-- A deferred call `if res := recover(); res != nil && err == nil` that sets
`err = recovered(res)`, in a function whose results are named: the function
returns the values its named results have after the deferred call. The first
component is the other named result. -/
def recoverNamed {σ α : Type} (zero : α) (ofFrame : Frame → α) (recovered : String → GoError)
    (m : M σ (α × Option GoError)) : M σ (α × Option GoError) := fun s =>
  match m s with
  | ⟨.panic v none, s1, e1⟩ => ⟨.ret (zero, some (recovered v)), s1, e1⟩
  | ⟨.panic v (some fr), s1, e1⟩ =>
    ⟨.ret (ofFrame fr, match fr.err with
      | none => some (recovered v)
      | some e => some e), s1, e1⟩
  | o => o

/-- Recording the named results for the deferred call: a panic of `m` that
carries none yet takes `fr`. -/
def withFrame {σ α : Type} (fr : Frame) (m : M σ α) : M σ α := fun s =>
  match m s with
  | ⟨.panic v none, s1, e1⟩ => ⟨.panic v (some fr), s1, e1⟩
  | o => o

/-! ## The stage metadata store (`iscsinode.go`) -/

/-- The function `createISCSIConfigFile`: the sidecar is created at
`path.Join("/host", mnt, conf.VolName+".json")` and the disk encoded into it. -/
def createISCSIConfigFile {σ : Type} (conf : iscsiDisk) (mnt : String) : M σ (Option GoError) :=
  let file := pathJoin ["/host", mnt, conf.VolName ++ ".json"]
  do
    let created ← fsCall .sidecar (.osCreate file) (fun fs => osCreate fs file) Reply.ofErr
    match created with
    | some err =>
      pure (some (.plain ("iscsi: Create " ++ file ++ " err " ++ GoError.Error err)))
    | none =>
      fsCall .sidecar (.encode file (encodeDisk conf))
        (fun fs => (none, FS.write fs (pathClean file) (.file (some (encodeDisk conf)))))
        Reply.ofErr

/-- Reading and decoding the content of an opened sidecar into `conf`. -/
def decodeFile (fs : FS) (file : String) (conf : iscsiDisk) : iscsiDisk × Option GoError :=
  match FS.lookup fs (pathClean file) with
  | some (.file (some doc)) => decodeDisk doc conf
  | some (.file none) => (conf, some (.plain "EOF"))
  | _ => (conf, some (.plain ("read " ++ file ++ ": is a directory")))

/-- The function `loadDiskInfoFromFile`: the disk `conf` points to after the
call, and the error. -/
def loadDiskInfoFromFile {σ : Type} (conf : iscsiDisk) (mnt : String) :
    M σ (iscsiDisk × Option GoError) :=
  let file := pathJoin ["/host", mnt, conf.VolName ++ ".json"]
  do
    let opened ← fsCall .other (.osOpen file) (fun fs => (osOpen fs file, fs)) Reply.ofErr
    match opened with
    | some err =>
      pure (conf, some (.plain ("iscsi: Open " ++ file ++ " err " ++ GoError.Error err)))
    | none =>
      let (conf1, derr) ← fsCall .other (.decode file)
        (fun fs => (decodeFile fs file conf, fs)) (fun r => Reply.ofErr r.2)
      match derr with
      | some err => pure (conf1, some (.plain ("iscsi: Decode err: " ++ GoError.Error err ++ " ")))
      | none => pure (conf1, none)

/-! ## Building the disk from a publish request (`iscsinode.go`) -/

/-- The access modes of `csi.VolumeCapability_AccessMode`. -/
inductive AccessMode
  | UNKNOWN
  | SINGLE_NODE_WRITER
  | SINGLE_NODE_READER_ONLY
  | MULTI_NODE_READER_ONLY
  | MULTI_NODE_SINGLE_WRITER
  | MULTI_NODE_MULTI_WRITER
  deriving DecidableEq, Repr

/-- The access type of a `csi.VolumeCapability`, a protobuf oneof: unset, a
mount (file) volume with its `fs_type` and `mount_flags`, or a block volume. -/
inductive AccessType
  | unset
  | mount (fsType : String) (mountFlags : List String)
  | block
  deriving DecidableEq, Repr

/-- The message `csi.VolumeCapability`. -/
structure VolumeCapability where
  accessType : AccessType
  accessMode : Option AccessMode
  deriving DecidableEq, Repr

/-- The message `csi.NodePublishVolumeRequest`. -/
structure NodePublishVolumeRequest where
  VolumeId : String
  PublishContext : GoMap
  StagingTargetPath : String
  TargetPath : String
  VolumeCapability : Option VolumeCapability
  Readonly : Bool
  Secrets : GoMap
  VolumeContext : GoMap
  deriving DecidableEq, Repr

/-- The struct `iscsiDiskMounter`: the disk it points to and the fields the
engine reads. -/
structure iscsiDiskMounter where
  disk : iscsiDisk
  readOnly : Bool
  fsType : String
  mountOptions : List String
  targetPath : String
  stagePath : String
  deriving DecidableEq, Repr

/-- The index expression `xs[i]`, which panics when `i` is out of range. -/
def index {σ : Type} (xs : List String) (i : Nat) : M σ String :=
  match xs.get? i with
  | some x => M.pure x
  | none => goPanic ("runtime error: index out of range [" ++ toString i ++ "] with length "
      ++ toString xs.length)

/-- The shell pipeline `getInitiatorName` runs. -/
def initiatorCmd : String := "cat /etc/iscsi/initiatorname.iscsi | grep InitiatorName="

/-- The function `getInitiatorName`: the part of the output behind the first
`=`; the empty string when the command fails or the function panics. -/
def getInitiatorName {σ : Type} (h : Host σ) : M σ String :=
  recoverZero "" do
    let r ← call h .other (.exec "bash" ["-c", initiatorCmd])
    match r.err with
    | some _ => pure ""
    | none => index (strSplit (strTrimSuffix r.out "\n") "=") 1

/-- The function `portalMounter`: the default port for a portal without one. -/
def portalMounter (portal : String) : String :=
  if !strContains portal ":" then portal ++ ":3260" else portal

/-- One comma-ok lookup of `parseSessionSecret`: `secret[k]` is assigned the
value, or the empty string for an absent key. -/
def takeSecret (secret secretParams : GoMap) (k : String) : GoMap × Bool :=
  (GoMap.set secret k (GoMap.get secretParams k), (GoMap.get? secretParams k).isSome)

/-- The function `parseSessionSecret`. -/
def parseSessionSecret (useChap : String) (secretParams : GoMap) : GoMap × Option GoError :=
  let secret : GoMap := []
  if useChap = "chap" ∨ useChap = "mutual_chap" then
    if secretParams.isEmpty then
      (secret, some (.plain "iscsi: required chap secrets not provided"))
    else
      let (secret, ok) := takeSecret secret secretParams "node.session.auth.username"
      if !ok then (secret, some (.plain "iscsi: node.session.auth.username not found in secret"))
      else
      let (secret, ok) := takeSecret secret secretParams "node.session.auth.password"
      if !ok then (secret, some (.plain "iscsi: node.session.auth.password not found in secret"))
      else
      if useChap = "mutual_chap" then
        let (secret, ok) := takeSecret secret secretParams "node.session.auth.username_in"
        if !ok then
          (secret, some (.plain "iscsi: node.session.auth.username_in not found in secret"))
        else
        let (secret, ok) := takeSecret secret secretParams "node.session.auth.password_in"
        if !ok then
          (secret, some (.plain "iscsi: node.session.auth.password_in not found in secret"))
        else (GoMap.set secret "SecretsType" "chap", none)
      else (GoMap.set secret "SecretsType" "chap", none)
  else (secret, none)

/-- The function `getISCSIDisk`: the disk (nil on an error) and the error; a
panic inside it is recovered and both results are nil, the results being
unnamed. -/
def getISCSIDisk {σ : Type} (h : Host σ) (req : NodePublishVolumeRequest) :
    M σ (Option iscsiDisk × Option GoError) :=
  recoverZero (none, none) do
    let initiatorName ← getInitiatorName h
    let volName ← index (strSplit req.VolumeId "$$") 0
    let volContext := req.VolumeContext
    let publishContext := req.PublishContext
    let iqn := GoMap.get volContext "iqn"
    if iqn = "" then pure (none, some (.plain "iscsi: target iqn is missing")) else
    let portals := GoMap.get volContext "portals"
    let portalList := strSplit portals ","
    if portalList.length = 0 then
      pure (none, some (.plain "iscsi: target portals list is missing")) else
    let bkportal := portalList.map portalMounter
    let lun := GoMap.get publishContext "lun"
    if lun = "" then pure (none, some (.plain "iscsi: LUN is missing")) else
    let useChap := GoMap.get volContext "useCHAP"
    let chapSession := decide (useChap ≠ "none")
    let chapDiscovery := decide (GoMap.get volContext "discoveryCHAPAuth" = "true")
    let parsed := if chapSession then parseSessionSecret useChap req.Secrets
      else (req.Secrets, none)
    match parsed.2 with
    | some err => pure (none, some err)
    | none =>
      pure (some ⟨bkportal, iqn, lun, "default", chapDiscovery, chapSession, parsed.1,
        initiatorName, volName, false, ""⟩, none)

/-- The function `getISCSIDiskMounter`: the mounter and the error. The disk is
nil when `getISCSIDisk` recovered from a panic, and then setting `isBlock`
panics. -/
def getISCSIDiskMounter {σ : Type} (disk : Option iscsiDisk) (req : NodePublishVolumeRequest) :
    M σ (Option iscsiDiskMounter × Option GoError) :=
  let accessType := match req.VolumeCapability with
    | some cap => cap.accessType
    | none => .unset
  let oldFstype := GoMap.get? req.VolumeContext "fstype"
  let nilDeref : M σ (Option iscsiDiskMounter × Option GoError) :=
    goPanic "runtime error: invalid memory address or nil pointer dereference"
  match accessType with
  | .mount fsType mountFlags =>
    match disk with
    | none => nilDeref
    | some d =>
      if fsType ≠ "" then
        pure (some ⟨{ d with isBlock := false }, false, fsType, mountFlags,
          req.TargetPath, req.StagingTargetPath⟩, none)
      else if oldFstype.isNone then
        pure (none, some (.status .InvalidArgument
          ("No fstype in VolumeCapability for volume: " ++ req.VolumeId)))
      else
        pure (some ⟨{ d with isBlock := false }, false, oldFstype.getD "", mountFlags,
          req.TargetPath, req.StagingTargetPath⟩, none)
  | .block =>
    match disk with
    | none => nilDeref
    | some d =>
      pure (some ⟨{ d with isBlock := true }, false, oldFstype.getD "", [],
        req.TargetPath, req.StagingTargetPath⟩, none)
  | .unset =>
    pure (none, some (.status .InvalidArgument
      ("Bad VolumeCapability parameters: both block and mount modes, for volume: "
        ++ req.VolumeId)))

/-! ## The initiator controller (`iscsinode.go`) -/

/-- The session keys `chap_sess`. -/
def chap_sess : List String :=
  ["node.session.auth.username", "node.session.auth.password",
   "node.session.auth.username_in", "node.session.auth.password_in"]

/-- The call `execScsi.Command(cmd, args)`: the output and the error. -/
def command {σ : Type} (h : Host σ) (step : Step) (cmd args : String) :
    M σ (String × Option GoError) := do
  let r ← call h step (.command cmd args)
  pure (r.out, r.err)

/-- The loop of `updateISCSINode` over the session keys. -/
def updateKeys {σ : Type} (h : Host σ) (b : iscsiDiskMounter) (tp : String) :
    List String → M σ (Option GoError)
  | [] => pure none
  | k :: ks =>
    let v := GoMap.get b.disk.secret k
    if v ≠ "" then do
      let (out, err) ← command h .chapUpdate "iscsiadm"
        ("--mode node --portal " ++ tp ++ " --targetname " ++ b.disk.Iqn ++ " --interface "
          ++ b.disk.Iface ++ " --op update --name " ++ quote k ++ " --value " ++ quote v)
      match err with
      | some _ =>
        pure (some (.plain ("iscsi: Failed to update node session key " ++ quote k
          ++ " with value " ++ quote v ++ " error: " ++ out)))
      | none => updateKeys h b tp ks
    else updateKeys h b tp ks

/-- The function `updateISCSINode`. -/
def updateISCSINode {σ : Type} (h : Host σ) (b : iscsiDiskMounter) (tp : String) :
    M σ (Option GoError) :=
  if !b.disk.chap_session then pure none
  else do
    let (out, err) ← command h .chapUpdate "iscsiadm"
      ("--mode node --portal " ++ tp ++ " --targetname " ++ b.disk.Iqn ++ " --interface "
        ++ b.disk.Iface ++ " --op update --name node.session.auth.authmethod --value CHAP")
    match err with
    | some _ => pure (some (.plain ("iscsi: Failed to update node with CHAP, output: " ++ out)))
    | none => updateKeys h b tp chap_sess

/-- An element of the regular expressions the driver uses: a literal character,
or with `none` the expression `.`, which matches every character but the
newline. -/
abbrev ReElem := Option Char

/-- The element matches the character. -/
def ReElem.fits (p : ReElem) (c : Char) : Bool :=
  match p with
  | some x => x = c
  | none => c ≠ '\n'

/-- Matching a sequence of elements at the start of a text: the text behind the
match. -/
def matchPrefix : List ReElem → List Char → Option (List Char)
  | [], cs => some cs
  | _ :: _, [] => none
  | p :: ps, c :: cs => if ReElem.fits p c then matchPrefix ps cs else none

/-- The part `iface.transport_name = ` of `ifaceTransportNameRe`; its `.` is the
expression `.`, not a literal dot. -/
def transportPattern : List ReElem :=
  "iface".data.map some ++ [none] ++ "transport_name = ".data.map some

/-- The submatch of the expression `pat(.*)\n` matched at the start of a text:
the elements of `pat`, then the characters up to the next newline, which must
be there; `.*` does not match a newline. -/
def submatchAt (pat : List ReElem) (cs : List Char) : Option (List Char) :=
  match matchPrefix pat cs with
  | none => none
  | some rest => if rest.contains '\n' then some (rest.takeWhile fun c => c ≠ '\n') else none

/-- The submatch of the leftmost match of `pat(.*)\n` in a text, as
`FindStringSubmatch` finds it. -/
def findSubmatch (pat : List ReElem) : List Char → Option (List Char)
  | [] => submatchAt pat []
  | c :: cs =>
    match submatchAt pat (c :: cs) with
    | some cap => some cap
    | none => findSubmatch pat cs

/-- The first submatch of `ifaceTransportNameRe`, the regular expression
`iface.transport_name = (.*)\n`; `none` when the expression does not match. -/
def transportSubmatch (ifaceOutput : String) : Option String :=
  (findSubmatch transportPattern ifaceOutput.data).map String.mk

/-- The function `extractTransportName`. -/
def extractTransportName (ifaceOutput : String) : String :=
  match transportSubmatch ifaceOutput with
  | none => ""
  | some iscsiTransport => if iscsiTransport = "<empty>" then "tcp" else iscsiTransport

/-- The verb `%v` of `fmt.Sprintf` on a `[]string`. -/
def sliceText (xs : List String) : String := "[" ++ String.intercalate " " xs ++ "]"

/-- The loop of `parseIscsiadmShow` over the lines of the output. -/
def parseLines : List String → GoMap → Option GoMap × Option GoError
  | [], params => (some params, none)
  | line :: rest, params =>
    if !strHasPrefix line "iface." || strContains line "<empty>" then parseLines rest params
    else
      match strFields line with
      | [key, eq, val] =>
        if eq ≠ "=" then
          (none, some (.plain ("iscsi: Invalid iface setting: " ++ sliceText [key, eq, val])))
        else if key = "iface.iscsi_ifacename" then parseLines rest params
        else parseLines rest (GoMap.set params key val)
      | iface => (none, some (.plain ("iscsi: Invalid iface setting: " ++ sliceText iface)))

/-- The function `parseIscsiadmShow`: the map (nil on an error) and the error. -/
def parseIscsiadmShow (output : String) : Option GoMap × Option GoError :=
  parseLines (strSplit output "\n") []

/-- The loop of `cloneIface` over the records to copy, in the order the map
holds them: the error `lastErr` ends with. -/
def updateRecords {σ : Type} (h : Host σ) (b : iscsiDiskMounter) (newIface out : String) :
    List (String × String) → M σ (Option GoError)
  | [] => pure none
  | (key, val) :: rest => do
    let (_, err) ← command h .other "iscsiadm"
      ("--mode iface --interface " ++ newIface ++ " --op update --name " ++ quote key
        ++ " --value " ++ quote val)
    match err with
    | none => updateRecords h b newIface out rest
    | some _ =>
      let (_, derr) ← command h .other "iscsiadm"
        ("--mode iface --interface " ++ newIface ++ " --op delete")
      match derr with
      | some e =>
        pure (some (.plain ("Failed to delete iface '" ++ newIface ++ "': " ++ GoError.Error e
          ++ " ")))
      | none =>
        pure (some (.plain ("iscsi: Failed to update iface records: " ++ out ++ " ("
          ++ errText none ++ "). iface(" ++ b.disk.Iface ++ ") will be used")))

/-- The function `cloneIface`. -/
def cloneIface {σ : Type} (h : Host σ) (b : iscsiDiskMounter) (newIface : String) :
    M σ (Option GoError) := do
  let (out, err) ← command h .other "iscsiadm"
    ("--mode iface --interface " ++ b.disk.Iface ++ " --op show")
  match err with
  | some e =>
    pure (some (.plain ("iscsi: Failed to show iface records: " ++ out ++ " ("
      ++ GoError.Error e ++ ")")))
  | none =>
    match parseIscsiadmShow out with
    | (_, some e) =>
      pure (some (.plain ("iscsi: Failed to parse iface records: " ++ out ++ " ("
        ++ GoError.Error e ++ ")")))
    | (none, none) => goPanic "assignment to entry in nil map"
    | (some params, none) =>
      let params := GoMap.set params "iface.initiatorname" b.disk.InitiatorName
      let (out, err) ← command h .other "iscsiadm"
        ("--mode iface --interface " ++ newIface ++ " --op new")
      match err with
      | some e =>
        pure (some (.plain ("iscsi: Failed to create new iface: " ++ out ++ " ("
          ++ GoError.Error e ++ ")")))
      | none => updateRecords h b newIface out params

/-! ## SCSI rescan and multipath resolution (`iscsinode.go`) -/

/-- The arguments of the session listing of `rescanDeviceMap`. -/
def hostsQuery : String :=
  "-m session -P3 | awk '\x7b if (NF > 3 && $1 == \"Host\" && $2 == \"Number:\") "
    ++ "printf(\"%s \", $3) \x7d'"

/-- The first loop of `rescanDeviceMap`: the scan write for every host. -/
def scanHosts {σ : Type} (h : Host σ) (lun : String) : List String → M σ (Option GoError)
  | [] => pure none
  | host :: rest => do
    let (_, err) ← command h .rescan "echo"
      ("'0 0 " ++ lun ++ "' > /sys/class/scsi_host/host" ++ host ++ "/scan")
    match err with
    | some e => pure (some e)
    | none => scanHosts h lun rest

/-- The second loop of `rescanDeviceMap`: the wait for every host's device. -/
def waitHosts {σ : Type} (h : Host σ) (lun : String) : List String → M σ (Option GoError)
  | [] => pure none
  | host :: rest => do
    let r ← call h .rescan (.waitForDeviceState host lun "running")
    match r.err with
    | some e => pure (some e)
    | none => waitHosts h lun rest

/-- The function `rescanDeviceMap`. Its result is unnamed, so when the deferred
call recovers a panic the function returns a nil error. -/
def rescanDeviceMap {σ : Type} (h : Host σ) (_volumeId lun : String) : M σ (Option GoError) :=
  recoverZero none do
    let (hostIds, err) ← command h .rescan "iscsiadm" hostsQuery
    match err with
    | some e => pure (some e)
    | none =>
      let hosts := strFields hostIds
      let scanned ← scanHosts h lun hosts
      match scanned with
      | some e => pure (some e)
      | none =>
        let waited ← waitHosts h lun hosts
        match waited with
        | some e => pure (some e)
        | none =>
          let first ← index hosts 0
          let r ← call h .rescan (.waitForMultipath first lun)
          match r.err with
          | some e => pure (some e)
          | none => pure none

/-- The loop of `waitForPathToExistInternal` with `left` iterations to go:
whether the path exists, and the device path, which a glob match replaces. -/
def waitLoop {σ : Type} (h : Host σ) (deviceTransport : String) :
    Nat → String → M σ (Bool × String)
  | 0, devicePath => pure (false, devicePath)
  | left + 1, devicePath => do
    let (err, devicePath) ←
      (if deviceTransport = "tcp" then do
        let st ← fsCall .pathWait (.osStat devicePath) (fun fs => (osStat fs devicePath, fs))
          (fun r => ⟨"", [], r.1, r.2⟩)
        pure (st.2, devicePath)
      else do
        let r ← call h .pathWait (.glob devicePath)
        match r.names with
        | [] => pure (some (GoError.notExist "glob" devicePath), devicePath)
        | first :: _ => pure (none, first))
    if err = none then pure (true, devicePath)
    else if !isNotExist err then pure (false, devicePath)
    else if left = 0 then pure (false, devicePath)
    else do
      let _ ← call h .pathWait .sleep
      waitLoop h deviceTransport left devicePath

/-- The function `waitForPathToExist`, which passes `os.Stat` and
`filepath.Glob` to `waitForPathToExistInternal`. -/
def waitForPathToExist {σ : Type} (h : Host σ) (devicePath : String) (maxRetries : Nat)
    (deviceTransport : String) : M σ (Bool × String) :=
  waitLoop h deviceTransport maxRetries devicePath

/-- The function `findDeviceForPath`. -/
def findDeviceForPath {σ : Type} (h : Host σ) (step : Step) (path : String) :
    M σ (String × Option GoError) := do
  let r ← call h step (.evalSymlinks path)
  match r.err with
  | some e => pure ("", some e)
  | none =>
    let devicePath := strReplaceFirst r.out "/host" ""
    match strSplit devicePath "/" with
    | [_, dev, leaf] =>
      if strHasPrefix dev "dev" then pure (leaf, none)
      else pure ("", some (.plain ("iscsi: Illegal path for device " ++ devicePath)))
    | _ => pure ("", some (.plain ("iscsi: Illegal path for device " ++ devicePath)))

/-- The loop of `findMultipathDeviceForDevice` over the entries of
`/sys/block/`. -/
def findSlave {σ : Type} (h : Host σ) (step : Step) (disk : String) :
    List String → M σ String
  | [] => pure ""
  | name :: rest =>
    if strHasPrefix name "dm-" then do
      let r ← call h step (.lstat ("/sys/block/" ++ name ++ "/slaves/" ++ disk))
      match r.err with
      | none => pure ("/dev/" ++ name)
      | some _ => findSlave h step disk rest
    else findSlave h step disk rest

/-- The function `findMultipathDeviceForDevice`. -/
def findMultipathDeviceForDevice {σ : Type} (h : Host σ) (device : String) : M σ String := do
  let (disk, err) ← findDeviceForPath h .multipath device
  match err with
  | some _ => pure ""
  | none =>
    let r ← call h .multipath (.readDir "/sys/block/")
    match r.err with
    | none => findSlave h .multipath disk r.names
    | some _ => pure ""

/-! ## `AttachDisk` (`iscsinode.go`)

The body of `AttachDisk` is given in the order of the source, cut into the
parts the source marks by its comments; each part ends by returning from
`AttachDisk` or goes on with the next. Messages handed to `fmt.Errorf` as the
format string are given as they read when they hold no formatting verb. Every
call is run under the values the named results `(mntPath, err)` have at that
point, which is what the deferred call sees when the call panics. -/

/-- The directory `dmsetup.DevMapperDir`. -/
def devMapperDir : String := "/dev/mapper/"

/-- Block mode, lines 653-691: the bind mount, then the sidecar. `fr` holds the
named results after the mount-point check. -/
def mountBlock {σ : Type} (h : Host σ) (b : iscsiDiskMounter) (devicePath : String)
    (fr : Frame) : M σ (String × Option GoError) :=
  let mntPath := b.targetPath
  if b.readOnly then
    pure ("", some (.status .Internal "iscsi: Read-only is not supported for Block Volume"))
  else do
    let made ← withFrame fr
      (call h .other (.exec "mkdir" ["--parents", "--mode", "0750", pathDir mntPath]))
    match made.err with
    | some e => pure ("", some e)
    | none =>
      let created ← fsCall .other (.osCreate ("/host/" ++ mntPath))
        (fun fs => osCreate fs ("/host/" ++ mntPath)) Reply.ofErr
      match created with
      | some e =>
        pure ("", some (.plain ("iscsi: Failed to create target file for raw block bind mount: "
          ++ GoError.Error e)))
      | none =>
        let devicePath := strReplaceFirst devicePath "/host" ""
        let mounted ← withFrame ⟨mntPath, none⟩
          (call h .mount (.mount devicePath mntPath "" ["bind", "rw"]))
        match mounted.err with
        | some e => pure ("", some e)
        | none =>
          let saved ← createISCSIConfigFile b.disk b.stagePath
          match saved with
          | some e => pure ("", some e)
          | none => pure (devicePath, none)

/-- File mode, lines 692-777: the mapper device, the mount point, the sidecar,
then format and mount. -/
def mountFile {σ : Type} (h : Host σ) (b : iscsiDiskMounter) (devicePath : String)
    (fr : Frame) : M σ (String × Option GoError) :=
  let mountPoint := b.targetPath
  do
    let info ← withFrame fr (call h .multipath (.dmsetupInfo devicePath))
    let devicePath :=
      match info.err, info.names with
      | none, [name] => devMapperDir ++ name
      | _, _ => devicePath
    let st ← fsCall .other (.osStat mountPoint) (fun fs => (osStat fs mountPoint, fs))
      (fun r => ⟨"", [], r.1, r.2⟩)
    let made ←
      (if isNotExist st.2 then
        withFrame fr (command h .other "mkdir" ("--parents --mode 0750 '" ++ mountPoint ++ "'"))
      else pure ("", none))
    match made.2 with
    | some e => pure ("", some e)
    | none =>
      let options := (if b.readOnly then ["ro"] else ["rw"]) ++ b.mountOptions
      let devicePath := strReplaceFirst devicePath "/host" ""
      let _ ← withFrame fr (call h .other .checkMultipath)
      let saved ← createISCSIConfigFile b.disk b.stagePath
      match saved with
      | some e => pure ("", some e)
      | none =>
        let options := if b.fsType = "xfs" then options ++ ["nouuid"] else options
        let mounted ← withFrame fr
          (call h .mount (.formatAndMount devicePath mountPoint b.fsType options))
        match mounted.err with
        | none => pure (devicePath, none)
        | some e =>
          if strContains (GoError.Error e) ("already mounted on " ++ mountPoint) then
            pure (devicePath, none)
          else do
            let _ ← fsCall .other (.osStat mountPoint) (fun fs => (osStat fs mountPoint, fs))
              (fun r => ⟨"", [], r.1, r.2⟩)
            pure ("", some e)

/-- The loop of lines 641-651: the multipath device of the first device path
that has one, else the empty string. -/
def resolveLoop {σ : Type} (h : Host σ) : List String → M σ String
  | [] => pure ""
  | path :: rest =>
    if path = "" then resolveLoop h rest
    else do
      let mapped ← findMultipathDeviceForDevice h path
      if mapped ≠ "" then pure mapped else resolveLoop h rest

/-- Lines 627-652: the mount-point check and the multipath resolution, then the
mount in block or file mode. -/
def attachMount {σ : Type} (h : Host σ) (b : iscsiDiskMounter) (devicePaths : List String) :
    M σ (String × Option GoError) := do
  let devicePath ← index devicePaths 0
  let mntPath := b.targetPath
  let chk ← withFrame ⟨mntPath, none⟩ (call h .other (.isLikelyNotMountPoint mntPath))
  if chk.err = none ∧ chk.flag = false then pure ("", none)
  else if chk.err ≠ none ∧ !isNotExist chk.err then
    pure ("", some (.status .Internal
      (mntPath ++ " exists but IsLikelyNotMountPoint failed: " ++ errText chk.err)))
  else
    let fr : Frame := ⟨mntPath, chk.err⟩
    let mapped ← withFrame fr (resolveLoop h devicePaths)
    let devicePath := if mapped ≠ "" then mapped else devicePath
    let b := if mapped ≠ "" then { b with disk := { b.disk with MpathDevice := mapped } } else b
    if b.disk.isBlock then mountBlock h b devicePath fr else mountFile h b devicePath fr

/-- The device path `AttachDisk` waits for at portal `tp`. -/
def byPath (iscsiTransport tp iqn lun : String) : String :=
  if iscsiTransport = "tcp" then
    String.intercalate "-" ["/host/dev/disk/by-path/ip", tp, "iscsi", iqn, "lun", lun]
  else
    String.intercalate "-" ["/host/dev/disk/by-path/pci", "*", "ip", tp, "iscsi", iqn, "lun", lun]

/-- The loop of lines 596-615 over the portals: the device paths found and the
last error. -/
def pathLoop {σ : Type} (h : Host σ) (b : iscsiDiskMounter) (iscsiTransport : String) :
    List String → List String → Option GoError → M σ (List String × Option GoError)
  | [], devicePaths, lastErr => pure (devicePaths, lastErr)
  | tp :: rest, devicePaths, lastErr => do
    let (devExists, devicePath) ←
      waitForPathToExist h (byPath iscsiTransport tp b.disk.Iqn b.disk.lun) 10 iscsiTransport
    if devExists then pathLoop h b iscsiTransport rest (devicePaths ++ [devicePath]) lastErr
    else
      pathLoop h b iscsiTransport rest devicePaths
        (some (.plain ("iscsi: failed to attach iqn: " ++ b.disk.Iqn ++ " lun: " ++ b.disk.lun
          ++ " at portal: " ++ tp ++ " - Timeout after 10s")))

/-- Lines 596-625: the wait for the device paths, then the mount part. -/
def attachPaths {σ : Type} (h : Host σ) (b : iscsiDiskMounter) (iscsiTransport : String)
    (lastErr : Option GoError) : M σ (String × Option GoError) := do
  let (devicePaths, lastErr) ← pathLoop h b iscsiTransport b.disk.Portals [] lastErr
  if devicePaths.length = 0 then
    pure ("", some (.plain ("failed to get any path for iscsi disk, last err seen:\n"
      ++ errText lastErr)))
  else attachMount h b devicePaths

/-- The loop of lines 549-557 over the portals: the values of `err` and
`lastErr` after it. -/
def chapLoop {σ : Type} (h : Host σ) (b : iscsiDiskMounter) :
    List String → Option GoError → Option GoError → M σ (Option GoError × Option GoError)
  | [], err, lastErr => pure (err, lastErr)
  | tp :: rest, err, lastErr => do
    let err ← withFrame ⟨"", err⟩ (updateISCSINode h b tp)
    match err with
    | some e =>
      chapLoop h b rest err (some (.plain ("iscsi: Failed to update iscsi node for portal: "
        ++ tp ++ " error: " ++ GoError.Error e)))
    | none => chapLoop h b rest err lastErr

/-- Lines 534-594: discovery, the CHAP update of the node records, the login
and the rescan, then the wait for the device paths. `out` is the output of the
iface lookup, which the discovery error message prints. -/
def attachTargets {σ : Type} (h : Host σ) (b : iscsiDiskMounter) (iscsiTransport out : String) :
    M σ (String × Option GoError) := do
  let portal ← index b.disk.Portals 0
  let (_, err) ← command h .discovery "iscsiadm"
    ("--mode discoverydb --type sendtargets --portal " ++ portal
      ++ " --discover --op new --op delete")
  match err with
  | some e =>
    pure ("", some (.plain ("Failed to discover targets at portal '" ++ out ++ "': "
      ++ GoError.Error e ++ " ")))
  | none =>
    let (err, lastErr) ←
      (if !b.disk.chap_session then pure (none, none)
      else chapLoop h b b.disk.Portals none none)
    let (sessionString, err) ← withFrame ⟨"", err⟩
      (command h .login "iscsiadm" ("--mode session | grep '" ++ b.disk.Iqn ++ "'"))
    let logged ←
      (if !strContains sessionString b.disk.Iqn then do
        let (_, lerr) ← withFrame ⟨"", err⟩
          (command h .login "iscsiadm"
            ("--mode node --targetname " ++ b.disk.Iqn ++ " --interface " ++ b.disk.Iface
              ++ " --login"))
        pure (if lerr ≠ none ∧ statusCode lerr ≠ .AlreadyExists then (false, lerr)
          else (true, none))
      else pure (true, err))
    if !logged.1 then pure ("", logged.2)
    else
      let (_, err) ← withFrame ⟨"", logged.2⟩
        (command h .login "iscsiadm" ("--mode session | grep '" ++ b.disk.Iqn ++ "'"))
      match err with
      | some e => pure ("", some e)
      | none =>
        let rescanned ← rescanDeviceMap h b.disk.VolName b.disk.lun
        match rescanned with
        | some e => pure ("", some e)
        | none => attachPaths h b iscsiTransport lastErr

/-- The body of `AttachDisk`, lines 486-532: the iface lookup and, for a
non-empty initiator name, the iface named after the first portal, which is
cloned when it does not exist and becomes the disk's `Iface`. -/
def attachBody {σ : Type} (h : Host σ) (b : iscsiDiskMounter) :
    M σ (String × Option GoError) := do
  let (out, err) ← command h .other "iscsiadm"
    ("--mode iface --interface " ++ b.disk.Iface ++ " --op show")
  match err with
  | some e => pure ("", some e)
  | none =>
    let iscsiTransport := extractTransportName out
    if iscsiTransport = "" then
      pure ("", some (.plain ("iscsi: Could not parse iface file for " ++ b.disk.Iface)))
    else
      let newIface ← index b.disk.Portals 0
      if b.disk.InitiatorName ≠ "" then do
        let (_, err) ← command h .other "iscsiadm"
          ("--mode iface --interface " ++ newIface ++ " --op show")
        let cloned ←
          (match err with
          | some _ => cloneIface h b newIface
          | none => pure none)
        match cloned with
        | some e => pure ("", some e)
        | none =>
          let b := { b with disk := { b.disk with Iface := newIface } }
          attachTargets h b iscsiTransport out
      else attachTargets h b iscsiTransport out

/-- The function `AttachDisk`: the named results `(mntPath, err)` it returns. A
panic is recovered by the deferred call, which sets `err` if it is nil. -/
def AttachDisk {σ : Type} (h : Host σ) (b : iscsiDiskMounter) : M σ (String × Option GoError) :=
  recoverNamed "" (fun fr => fr.mnt) (fun v => .plain ("Recovered from AttachDisk: " ++ v))
    (attachBody h b)

/-! ## The node service (`iscsinode.go`) -/

/-- A response message of the node service; the ones the engine returns are
empty. -/
abbrev Response := Unit

/-- The function `NodePublishVolume`: the response and the error. Its results
are unnamed, so when the deferred call recovers a panic, both are nil. -/
def NodePublishVolume {σ : Type} (h : Host σ) (req : NodePublishVolumeRequest) :
    M σ (Option Response × Option GoError) :=
  recoverZero (none, none) do
    let _ ← call h .other .checkMultipath
    let (iscsiDisk, err) ← getISCSIDisk h req
    match err with
    | some e => pure (none, some (.status .Internal (GoError.Error e)))
    | none =>
      let (diskMounter, err) ← getISCSIDiskMounter iscsiDisk req
      match err, diskMounter with
      | some e, _ => pure (none, some e)
      | none, none => goPanic "runtime error: invalid memory address or nil pointer dereference"
      | none, some b =>
        let (_, err) ← AttachDisk h b
        match err with
        | some e => pure (none, some (.status .Internal (GoError.Error e)))
        | none =>
          let uid := GoMap.get req.VolumeContext "uid"
          let gid := GoMap.get req.VolumeContext "gid"
          let targetPath := req.TargetPath
          let owned ← call h .other (.chownVolume uid gid targetPath)
          match owned.err with
          | some e =>
            pure (none, some (.status .Internal
              ("Failed to chown path '" ++ targetPath ++ "' : " ++ GoError.Error e)))
          | none =>
            let unixPermissions := GoMap.get req.VolumeContext "unix_permissions"
            let moded ← call h .other (.chmodVolume unixPermissions targetPath)
            match moded.err with
            | some e =>
              pure (none, some (.status .Internal
                ("Failed to chmod path '" ++ targetPath ++ "': " ++ GoError.Error e)))
            | none => pure (some (), none)

/-- The message `csi.NodeUnstageVolumeRequest`. -/
structure NodeUnstageVolumeRequest where
  VolumeId : String
  StagingTargetPath : String
  deriving DecidableEq, Repr

/-- The disk of the unmounter `getISCSIDiskUnmounter` builds: only `VolName` is
set, to the part of the volume id before the first `$$`. -/
def getISCSIDiskUnmounter (volumeID : String) : iscsiDisk :=
  iscsiDisk.named ((strSplit volumeID "$$").headD "")

/-- Modelled from the spec: the helper `pathExists` of the common service,
whose code is not among the sources. It tells whether the file "genuinely does
not exist": true for a path that exists, false without an error for one that
does not, and the error of the check otherwise, like `mountPathExists`. -/
def pathExists (fs : FS) (path : String) : Bool × Option GoError :=
  match (osStat fs path).2 with
  | none => (true, none)
  | some e => if isNotExist (some e) then (false, none) else (false, some e)

/-- The function `debugWalkDir`, which only logs the paths it finds. -/
def debugWalkDir {σ : Type} (walk_path : String) : M σ Unit :=
  fsCall .other (.walk walk_path) (fun fs => ((), fs)) (fun _ => Reply.ofErr none)

/-- The function `IsDirectory` of `storagehelper.go`. -/
def IsDirectory {σ : Type} (path : String) : M σ (Bool × Option GoError) :=
  fsCall .other (.osStat path) (fun fs => (osStat fs path, fs)) (fun r => ⟨"", [], r.1, r.2⟩)

/-- The function `NodeUnstageVolume`: the named results `(res, err)`. -/
def NodeUnstageVolume {σ : Type} (h : Host σ) (req : NodeUnstageVolumeRequest) :
    M σ (Option Response × Option GoError) :=
  recoverNamed none (fun _ => none)
    (fun v => .plain ("iscsi: Recovered from NodeUnstageVolume  " ++ v)) do
    let _ ← call h .other .checkMultipath
    let disk := getISCSIDiskUnmounter req.VolumeId
    let stagePath := req.StagingTargetPath
    let (disk, lerr) ← loadDiskInfoFromFile disk stagePath
    let confFile := pathJoin ["/host", stagePath, disk.VolName ++ ".json"]
    let gone ←
      (if lerr = none then pure false
      else do
        let (pathExist, pathErr) ← fsCall .other (.pathExists confFile)
          (fun fs => (pathExists fs confFile, fs)) (fun r => ⟨"", [], r.1, r.2⟩)
        pure (decide (pathErr = none ∧ pathExist = false)))
    if gone then do
      debugWalkDir stagePath
      let _ ← fsCall .other (.osRemoveAll stagePath) (fun fs => osRemoveAll fs stagePath)
        Reply.ofErr
      pure (some (), none)
    else
      let mpathDevice := if lerr = none then disk.MpathDevice else ""
      let _ ← call h .other (.detachMpathDevice mpathDevice "iscsi")
      let removePath := pathJoin ["/host", stagePath]
      debugWalkDir removePath
      let (isADir, isADirError) ← IsDirectory removePath
      match isADirError with
      | some e =>
        pure (none, some (.plain ("Failed to check if removePath '" ++ removePath
          ++ "' is a directory: " ++ GoError.Error e)))
      | none =>
        let jsonPath := removePath ++ "/" ++ (strSplit req.VolumeId "$$").headD "" ++ ".json"
        let removed ←
          (if isADir then
            fsCall .other (.osRemove jsonPath) (fun fs => osRemove fs jsonPath) Reply.ofErr
          else pure none)
        match removed with
        | some e => pure (none, some e)
        | none =>
          let last ← fsCall .other (.osRemove removePath) (fun fs => osRemove fs removePath)
            Reply.ofErr
          match last with
          | some e => pure (none, some e)
          | none => pure (some (), none)

/-! ## Example inputs -/

/-- A disk as the source shows it in the sidecar of a staged volume, with LUN 1. -/
def demoDisk : iscsiDisk :=
  ⟨["172.31.32.145:3260", "172.31.32.146:3260"],
    "iqn.2009-11.com.infinidat:storage:infinibox-sn-1521", "1", "172.31.32.145:3260", false,
    false, [], "iqn.1994-05.com.redhat:462c9b4cda1", "93642189", false, "/dev/dm-8"⟩

/-- A node whose host view holds the stage directory `/stage` and nothing else. -/
def demoSys : Sys Unit := ⟨(), [("/host/stage", .dir), ("/host", .dir)]⟩

/-! ## Staging and unpublishing (`iscsinode.go`, `storagehelper.go`) -/

/-- The value of a string of decimal digits; `none` for an empty string or one
with another character. -/
def digitsValue (cs : List Char) : Option Nat :=
  if cs ≠ [] ∧ cs.all Char.isDigit then
    some (cs.foldl (fun n c => 10 * n + (c.toNat - '0'.toNat)) 0)
  else none

/-- The function `strconv.Atoi` on a 64-bit platform: the integer, or the error
for a string that is not an optional sign followed by decimal digits or whose
value does not fit `int`. -/
def atoi (s : String) : Except GoError Int :=
  let syntaxErr : GoError := .plain ("strconv.Atoi: parsing " ++ quote s ++ ": invalid syntax")
  let rangeErr : GoError := .plain ("strconv.Atoi: parsing " ++ quote s ++ ": value out of range")
  match s.data with
  | '-' :: cs =>
    match digitsValue cs with
    | none => .error syntaxErr
    | some n => if n ≤ 2 ^ 63 then .ok (-(n : Int)) else .error rangeErr
  | '+' :: cs =>
    match digitsValue cs with
    | none => .error syntaxErr
    | some n => if n < 2 ^ 63 then .ok (n : Int) else .error rangeErr
  | cs =>
    match digitsValue cs with
    | none => .error syntaxErr
    | some n => if n < 2 ^ 63 then .ok (n : Int) else .error rangeErr

/-- The function `strings.ToLower`, for the letters `A` to `Z`. -/
def strToLower (s : String) : String := String.mk (s.data.map Char.toLower)

/-- The message `csi.NodeStageVolumeRequest`, as far as the engine reads it. -/
structure NodeStageVolumeRequest where
  VolumeId : String
  PublishContext : GoMap
  StagingTargetPath : String
  Secrets : GoMap
  VolumeContext : GoMap
  deriving DecidableEq, Repr

/-- Lines 152-191 of `NodeStageVolume`: the credential map for the array and
the call that sets it. -/
def stageChap {σ : Type} (h : Host σ) (hostID : Int) (hostSecurity useChap : String)
    (secrets : GoMap) : M σ (Option Response × Option GoError) :=
  let missing : M σ (Option Response × Option GoError) :=
    pure (none, some (.status .Internal "iscsi: Mutual chap credentials not provided"))
  let push (chapCreds : GoMap) : M σ (Option Response × Option GoError) := do
    let r ← call h .other (.addChapSecurityForHost hostID chapCreds)
    match r.err with
    | some e => pure (none, some (.status .Internal (GoError.Error e)))
    | none => pure (some (), none)
  if useChap ≠ "none" then
    let inbound : Option GoMap :=
      if useChap = "chap" ∨ useChap = "mutual_chap" then
        if GoMap.get secrets "node.session.auth.username" ≠ ""
            ∧ GoMap.get secrets "node.session.auth.password" ≠ "" then
          some (GoMap.set (GoMap.set (GoMap.set []
            "security_chap_inbound_username" (GoMap.get secrets "node.session.auth.username"))
            "security_chap_inbound_secret" (GoMap.get secrets "node.session.auth.password"))
            "security_method" "CHAP")
        else none
      else some []
    match inbound with
    | none => missing
    | some chapCreds =>
      let outbound : Option GoMap :=
        if useChap = "mutual_chap" then
          if GoMap.get secrets "node.session.auth.username_in" ≠ ""
              ∧ GoMap.get secrets "node.session.auth.password_in" ≠ ""
              ∧ GoMap.get chapCreds "security_method" = "CHAP" then
            some (GoMap.set (GoMap.set (GoMap.set chapCreds
              "security_chap_outbound_username"
                (GoMap.get secrets "node.session.auth.username_in"))
              "security_chap_outbound_secret" (GoMap.get secrets "node.session.auth.password_in"))
              "security_method" "MUTUAL_CHAP")
          else none
        else some chapCreds
      match outbound with
      | none => missing
      | some chapCreds => if chapCreds.length > 1 then push chapCreds else pure (some (), none)
  else if hostSecurity ≠ "NONE" then push (GoMap.set [] "security_method" "NONE")
  else pure (some (), none)

/-- The function `NodeStageVolume`: the response and the error. Its results are
unnamed, so when the deferred call recovers a panic, both are nil. -/
def NodeStageVolume {σ : Type} (h : Host σ) (req : NodeStageVolumeRequest) :
    M σ (Option Response × Option GoError) :=
  recoverZero (none, none) do
    let _ ← call h .other .checkMultipath
    let hostIDString := GoMap.get req.PublishContext "hostID"
    match atoi hostIDString with
    | .error e =>
      pure (none, some (.status .Internal ("hostID string '" ++ hostIDString
        ++ "' is not valid host ID: " ++ GoError.Error e)))
    | .ok hostID =>
      let ports := GoMap.get req.PublishContext "hostPorts"
      let hostSecurity := GoMap.get req.PublishContext "securityMethod"
      let useChap := GoMap.get req.VolumeContext "useCHAP"
      if hostID < 1 then pure (none, some (.status .Internal "not a valid host")) else
      let initiatorName ← getInitiatorName h
      if initiatorName = "" then
        pure (none, some (.status .Internal "iscsi: Initiator name not found")) else
      let added ←
        (if !strContains ports initiatorName then do
          let r ← call h .other (.addPortForHost hostID "ISCSI" initiatorName)
          pure r.err
        else pure none)
      match added with
      | some e => pure (none, some (.status .Internal (GoError.Error e)))
      | none =>
        if strToLower hostSecurity ≠ useChap ∨ !strContains ports initiatorName then
          stageChap h hostID hostSecurity useChap req.Secrets
        else pure (some (), none)

/-- The function `IsDirEmpty` of `storagehelper.go`: `Readdirnames(1)` ends in
`io.EOF` exactly on a directory without entries. -/
def IsDirEmpty {σ : Type} (name : String) : M σ (Bool × Option GoError) := do
  let opened ← fsCall .other (.osOpen name) (fun fs => (osOpen fs name, fs)) Reply.ofErr
  match opened with
  | some e => pure (false, some e)
  | none =>
    fsCall .other (.readdirnames name)
      (fun fs =>
        (match FS.lookup fs (pathClean name) with
          | some .dir => if fs.any fun e => under (pathClean name) e.1 then (false, none)
              else (true, none)
          | _ => (false, some (.plain ("readdirent " ++ name ++ ": not a directory"))), fs))
      (fun r => ⟨"", [], r.1, r.2⟩)

/-- The call `os.Remove(path)` as a step of a run. -/
def removeCall {σ : Type} (path : String) : M σ (Option GoError) :=
  fsCall .other (.osRemove path) (fun fs => osRemove fs path) Reply.ofErr

/-- The call `os.Stat(path)` followed by `os.IsNotExist(statErr)`. -/
def statNotExist {σ : Type} (path : String) : M σ Bool := do
  let st ← fsCall .other (.osStat path) (fun fs => (osStat fs path, fs))
    (fun r => ⟨"", [], r.1, r.2⟩)
  pure (isNotExist st.2)

/-- The function `cleanupOldMountDirectory` of `storagehelper.go`. -/
def cleanupOldMountDirectory {σ : Type} (targetHostPath : String) : M σ (Option GoError) := do
  let (isMountEmpty, isMountEmptyErr) ← IsDirEmpty targetHostPath
  match isMountEmptyErr with
  | some e =>
    pure (some (.plain ("Failed IsDirEmpty() using targetHostPath '" ++ targetHostPath ++ "': "
      ++ GoError.Error e)))
  | none =>
    if !isMountEmpty then
      pure (some (.plain ("Error: mount/ directory at targetHostPath '" ++ targetHostPath
        ++ "' is not empty and may contain volume data")))
    else
      let gone ← statNotExist targetHostPath
      let removed ← (if gone then pure none else removeCall targetHostPath)
      match removed with
      | some e =>
        pure (some (.plain ("After unmounting, failed to Remove() path '" ++ targetHostPath
          ++ "': " ++ GoError.Error e)))
      | none =>
        let csiHostPath := strTrimSuffix targetHostPath "/mount"
        let volDataPath := pathJoin [csiHostPath, "vol_data.json"]
        let gone ← statNotExist volDataPath
        let _ ← (if gone then pure none else removeCall volDataPath)
        let gone ← statNotExist csiHostPath
        let _ ← (if gone then pure none else removeCall csiHostPath)
        pure none

/-- The function `isMountedByListMethod` of `storagehelper.go`; the reply of
`mounter.List()` names the paths of the mount points. -/
def isMountedByListMethod {σ : Type} (h : Host σ) (targetHostPath : String) :
    M σ (Bool × Option GoError) := do
  let r ← call h .other .mountList
  match r.err with
  | some e => pure (true, some (.plain ("Failed List: " ++ GoError.Error e)))
  | none => pure (r.names.contains targetHostPath, none)

/-- The function `unmountAndCleanUp` of `storagehelper.go`; its result `err` is
named, so a recovered panic is returned as an error. -/
def unmountAndCleanUp {σ : Type} (h : Host σ) (targetPath : String) : M σ (Option GoError) := do
  let r ← recoverNamed () (fun _ => ())
    (fun v => .plain ("Recovered from unmountAndCleanUp  " ++ v)) do
      let targetHostPath := pathJoin ["/host", targetPath]
      let _ ← call h .other (.unmount targetPath)
      let (isMounted, isMountedErr) ← isMountedByListMethod h targetHostPath
      if isMountedErr ≠ none then
        pure ((), some (.plain ("Error: Failed to check if targetHostPath '" ++ targetHostPath
          ++ "' is unmounted after unmounting")))
      else if isMounted then
        pure ((), some (.plain ("Error: Volume remains mounted at targetHostPath '"
          ++ targetHostPath ++ "'")))
      else
        let gone ← statNotExist targetHostPath
        if gone then pure ((), none)
        else
          let (isADir, isADirError) ← IsDirectory targetHostPath
          match isADirError with
          | some e =>
            pure ((), some (.plain ("Failed to check if targetHostPath '" ++ targetHostPath
              ++ "' is a directory: " ++ GoError.Error e)))
          | none =>
            if isADir then do
              let err ← cleanupOldMountDirectory targetHostPath
              pure ((), err)
            else do
              let removed ← removeCall targetHostPath
              match removed with
              | some e =>
                pure ((), some (.plain ("Failed to Remove() path '" ++ targetHostPath ++ "': "
                  ++ GoError.Error e)))
              | none => pure ((), none)
  pure r.2

/-- The message `csi.NodeUnpublishVolumeRequest`. -/
structure NodeUnpublishVolumeRequest where
  VolumeId : String
  TargetPath : String
  deriving DecidableEq, Repr

/-- The function `NodeUnpublishVolume`: the response and the error. Its results
are unnamed, so when the deferred call recovers a panic, both are nil. -/
def NodeUnpublishVolume {σ : Type} (h : Host σ) (req : NodeUnpublishVolumeRequest) :
    M σ (Option Response × Option GoError) :=
  recoverZero (none, none) do
    let err ← unmountAndCleanUp h req.TargetPath
    match err with
    | some e => pure (none, some (.status .Internal (GoError.Error e)))
    | none => pure (some (), none)

/-- A host on which every call succeeds: the iface uses the `tcp` transport,
the initiator name is `iqn.host`, a session to the target `iqn.x` exists, the
SCSI host is `3`, the target path is not yet a mount point and the device is a
path of the multipath device `dm-0`. -/
def demoHost : Host Unit := fun c s =>
  match c with
  | .command "iscsiadm" args =>
    if strHasPrefix args "--mode iface" then
      (.returned ⟨"iface.transport_name = tcp\n", [], false, none⟩, s)
    else if strHasPrefix args "-m session" then (.returned ⟨"3 ", [], false, none⟩, s)
    else if strHasPrefix args "--mode session" then (.returned ⟨"iqn.x", [], false, none⟩, s)
    else (.returned ⟨"", [], false, none⟩, s)
  | .exec "bash" _ => (.returned ⟨"InitiatorName=iqn.host\n", [], false, none⟩, s)
  | .isLikelyNotMountPoint _ => (.returned ⟨"", [], true, none⟩, s)
  | .evalSymlinks _ => (.returned ⟨"/host/dev/sdb", [], false, none⟩, s)
  | .readDir _ => (.returned ⟨"", ["dm-0", "sda"], false, none⟩, s)
  | _ => (.returned ⟨"", [], false, none⟩, s)

/-- The example host, except that the calls `bad` picks end as `e` says. -/
def hostWith (bad : Call → Bool) (e : Ending) : Host Unit := fun c s =>
  if bad c then (e, s) else demoHost c s

/-- The call is `ChownVolume`. -/
def isChown : Call → Bool
  | .chownVolume _ _ _ => true
  | _ => false

/-- The call is `AddPortForHost`. -/
def isAddPort : Call → Bool
  | .addPortForHost _ _ _ => true
  | _ => false

/-- The call is `helper.CheckMultipath`. -/
def isCheckMultipath : Call → Bool
  | .checkMultipath => true
  | _ => false

/-- The call is `detachMpathDevice`. -/
def isDetach : Call → Bool
  | .detachMpathDevice _ _ => true
  | _ => false

/-- The call is `Unmount`. -/
def isUnmount : Call → Bool
  | .unmount _ => true
  | _ => false

/-- The call is `Mount` or `FormatAndMount`. -/
def isMount : Call → Bool
  | .mount _ _ _ _ => true
  | .formatAndMount _ _ _ _ => true
  | _ => false

/-- The call is the mount-point check `IsLikelyNotMountPoint`. -/
def isMountCheck : Call → Bool
  | .isLikelyNotMountPoint _ => true
  | _ => false

/-- The call changes the file system: it creates, writes or removes a file. -/
def isWrite : Call → Bool
  | .osCreate _ => true
  | .encode _ _ => true
  | .osRemove _ => true
  | .osRemoveAll _ => true
  | _ => false

/-- The call writes the sidecar document. -/
def isEncode : Call → Bool
  | .encode _ _ => true
  | _ => false

/-- The call is one of those the step `st` consists of: the `iscsiadm` command
of the discovery, of the CHAP update of a node record, of the session listing
or the login; the commands and waits of the rescan; the probes and sleeps of
the device-path wait; the lookups of the multipath resolution; `Mount` or
`FormatAndMount`; creating and writing the sidecar. A call outside the
pipeline is neither a mount nor the writing of the sidecar. -/
def fits : Step → Call → Bool
  | .discovery, .command cmd args => cmd = "iscsiadm" && strHasPrefix args "--mode discoverydb"
  | .chapUpdate, .command cmd args =>
    cmd = "iscsiadm" && strHasPrefix args "--mode node --portal"
  | .login, .command cmd args =>
    cmd = "iscsiadm" && (strHasPrefix args "--mode session"
      || strHasPrefix args "--mode node --targetname")
  | .rescan, .command _ _ => true
  | .rescan, .waitForDeviceState _ _ _ => true
  | .rescan, .waitForMultipath _ _ => true
  | .pathWait, .osStat _ => true
  | .pathWait, .glob _ => true
  | .pathWait, .sleep => true
  | .multipath, .evalSymlinks _ => true
  | .multipath, .readDir _ => true
  | .multipath, .lstat _ => true
  | .multipath, .dmsetupInfo _ => true
  | .mount, .mount _ _ _ _ => true
  | .mount, .formatAndMount _ _ _ _ => true
  | .sidecar, .osCreate _ => true
  | .sidecar, .encode _ _ => true
  | .other, c => !isMount c && !isEncode c
  | _, _ => false

/-- The call runs an external command, through `execScsi.Command` or
`exec.Command`. -/
def isCommand : Call → Bool
  | .command _ _ => true
  | .exec _ _ => true
  | _ => false

/-- A node on which the volume `93` can be published: the device path of the
portal `10.0.0.1:3260` exists, as do the stage directory and the parent of the
target path. -/
def publishSys : Sys Unit :=
  ⟨(), [("/host/dev/disk/by-path/ip-10.0.0.1:3260-iscsi-iqn.x-lun-0", .file none),
    ("/host/stage", .dir), ("/host", .dir), ("/host/target", .dir)]⟩

/-- A publish request for the volume `93` with the given capability and
read-only flag, without CHAP. -/
def publishReq (accessType : AccessType) (readonly : Bool) : NodePublishVolumeRequest :=
  { VolumeId := "93$$iscsi", PublishContext := [("lun", "0")], StagingTargetPath := "/stage",
    TargetPath := "/target/mount",
    VolumeCapability := some ⟨accessType, some .SINGLE_NODE_WRITER⟩, Readonly := readonly,
    Secrets := [],
    VolumeContext := [("iqn", "iqn.x"), ("portals", "10.0.0.1"), ("useCHAP", "none")] }

/-- A publish request that asks for mutual CHAP and brings only the inbound
pair of credentials. -/
def mutualReq : NodePublishVolumeRequest :=
  { VolumeId := "93$$iscsi", PublishContext := [("lun", "0")], StagingTargetPath := "/stage",
    TargetPath := "/target/mount",
    VolumeCapability := some ⟨.mount "xfs" [], some .SINGLE_NODE_WRITER⟩, Readonly := false,
    Secrets := [("node.session.auth.username", "u"), ("node.session.auth.password", "p")],
    VolumeContext := [("iqn", "iqn.x"), ("portals", "10.0.0.1"), ("useCHAP", "mutual_chap")] }

/-- A stage request of host 1, whose initiator is not yet among the host ports. -/
def stageReq : NodeStageVolumeRequest :=
  { VolumeId := "93$$iscsi",
    PublishContext := [("hostID", "1"), ("hostPorts", ""), ("securityMethod", "NONE")],
    StagingTargetPath := "/stage", Secrets := [], VolumeContext := [("useCHAP", "none")] }

/-- The mounter `NodePublishVolume` builds for the block request. -/
def blockMounter : iscsiDiskMounter :=
  ⟨⟨["10.0.0.1:3260"], "iqn.x", "0", "default", false, false, [], "iqn.host", "93", true, ""⟩,
    false, "", [], "/target/mount", "/stage"⟩

/-- The mounter `NodePublishVolume` builds for a file request with `xfs`. -/
def fileMounter : iscsiDiskMounter :=
  ⟨⟨["10.0.0.1:3260"], "iqn.x", "0", "default", false, false, [], "iqn.host", "93", false, ""⟩,
    false, "xfs", [], "/target/mount", "/stage"⟩

/-- The reply of a call that fails with the error `msg`. -/
def failing (msg : String) : Ending := .returned ⟨"", [], false, some (.plain msg)⟩

/-! ## Properties of traces -/

/-- Every call of every run of `m` satisfies `P`. -/
def Emits {σ α : Type} (P : Event → Prop) (m : M σ α) : Prop := ∀ s, ∀ e ∈ (m s).evs, P e

/-- The event belongs to step `st`, is neither a mount, nor the mount-point
check, nor a change of the file system, and is a call of that step. -/
def Plain (st : Step) (e : Event) : Prop :=
  e.step = st ∧ isMount e.call = false ∧ isMountCheck e.call = false ∧
    isWrite e.call = false ∧ fits st e.call = true

/-- The call of the event is one of those its step consists of. -/
def Fits (e : Event) : Prop := fits e.step e.call = true

/-- The event is neither a mount nor a change of the file system. -/
def Quiet (e : Event) : Prop := isMount e.call = false ∧ isWrite e.call = false

/-- The event is a mount-point check that reported a mount point: no error and
`notMnt = false`. -/
def Mounted (e : Event) : Prop :=
  isMountCheck e.call = true ∧ ∃ r, e.ending = .returned r ∧ r.err = none ∧ r.flag = false

/-- The event is neither a mount, nor the mount-point check, nor a change of the
file system. -/
def Pre (e : Event) : Prop :=
  isMount e.call = false ∧ isMountCheck e.call = false ∧ isWrite e.call = false

/-- Whenever a run of `m` holds a mount-point check that reported a mount
point, the run returns `("", nil)` and has made no mount and no change of the
file system. -/
def StopsWhenMounted {σ : Type} (m : M σ (String × Option GoError)) : Prop :=
  ∀ s, (∃ e ∈ (m s).evs, Mounted e) →
    (m s).res = .ret ("", none) ∧ ∀ e ∈ (m s).evs, Quiet e

/-- The event is not the mount-point check. -/
def NoCheck (e : Event) : Prop := isMountCheck e.call = false

/-- The place of a step in the order of a publish as the code runs it: in block
mode the mount comes before the sidecar write, in file mode the sidecar write
comes before the mount. Calls outside the pipeline have no place. -/
def rank (isBlock : Bool) : Step → Option Nat
  | .other => none
  | .discovery => some 1
  | .chapUpdate => some 2
  | .login => some 3
  | .rescan => some 4
  | .pathWait => some 5
  | .multipath => some 6
  | .mount => some (if isBlock then 7 else 8)
  | .sidecar => some (if isBlock then 8 else 7)

/-- The places of the calls of a trace, in the order of the trace. -/
def ranks (isBlock : Bool) (evs : List Event) : List Nat :=
  evs.filterMap fun e => rank isBlock e.step

/-- In every run of `m` the calls come in the order of their places, and none
has a place before `k`. -/
def InOrder {σ α : Type} (isBlock : Bool) (k : Nat) (m : M σ α) : Prop :=
  ∀ s, (ranks isBlock (m s).evs).Pairwise (fun x y => x ≤ y) ∧
    ∀ r ∈ ranks isBlock (m s).evs, k ≤ r

/-- The event has the place `k` or none. -/
def AtStep (isBlock : Bool) (k : Nat) (e : Event) : Prop :=
  rank isBlock e.step = none ∨ rank isBlock e.step = some k

/-! ## Volume sizes (`storagehelper.go`) -/

/-- The constant `bytesofKiB`. -/
def bytesofKiB : Int := 1024

/-- The constant `kiBytesofGiB`. -/
def kiBytesofGiB : Int := 1024 * 1024

/-- The constant `bytesofGiB`. -/
def bytesofGiB : Int := kiBytesofGiB * bytesofKiB

/-- The constant `MinVolumeSize`: a volume is created with this size when the
requested size is less. -/
def MinVolumeSize : Int := 1 * bytesofGiB

/-- The value an `int64` computation yields for the exact result `n`: it wraps
around modulo `2 ^ 64`. -/
def wrap64 (n : Int) : Int := (n + 2 ^ 63) % 2 ^ 64 - 2 ^ 63

/-- The message `csi.CapacityRange`; both fields are `int64`. -/
structure CapacityRange where
  RequiredBytes : Int
  LimitBytes : Int
  deriving DecidableEq, Repr

/-- The getter `GetRequiredBytes`, which returns 0 on a nil message. -/
def GetRequiredBytes : Option CapacityRange → Int
  | some c => c.RequiredBytes
  | none => 0

/-- The getter `GetLimitBytes`, which returns 0 on a nil message. -/
def GetLimitBytes : Option CapacityRange → Int
  | some c => c.LimitBytes
  | none => 0

/-- The function `verifyVolumeSize`: the size in bytes and the error. The
division of Go truncates toward zero. -/
def verifyVolumeSize (caprange : Option CapacityRange) : Int × Option GoError :=
  let requiredVolSize := GetRequiredBytes caprange
  let allowedMaxVolSize := GetLimitBytes caprange
  if requiredVolSize < 0 ∨ allowedMaxVolSize < 0 then (0, some (.plain "not valid volume size"))
  else
    let requiredVolSize := if requiredVolSize = 0 then MinVolumeSize else requiredVolSize
    let sizeinGB := Int.tdiv requiredVolSize bytesofGiB
    let sizeinGB := if sizeinGB = 0 then 1 else sizeinGB
    let sizeinByte := wrap64 (sizeinGB * bytesofGiB)
    if allowedMaxVolSize ≠ 0 ∧ sizeinByte > allowedMaxVolSize then
      (0, some (.plain "volume size is out of allowed limit"))
    else (sizeinByte, none)

/-- The values of the type `int64`. -/
def isInt64 (n : Int) : Prop := -2 ^ 63 ≤ n ∧ n < 2 ^ 63

instance (n : Int) : Decidable (isInt64 n) := by
  unfold isInt64
  exact inferInstance

/-- A block publish request like `publishReq` whose volume context has no
`portals` entry. -/
def noPortalsReq : NodePublishVolumeRequest :=
  { publishReq .block false with VolumeContext := [("iqn", "iqn.x"), ("useCHAP", "none")] }

/-- A block publish request like `publishReq` whose volume context has no `iqn`
entry. -/
def noIqnReq : NodePublishVolumeRequest :=
  { publishReq .block false with VolumeContext := [("portals", "10.0.0.1"), ("useCHAP", "none")] }

/-- A block publish request like `publishReq` with two portals, neither with a
port. -/
def twoPortalsReq : NodePublishVolumeRequest :=
  { publishReq .block false with
    VolumeContext := [("iqn", "iqn.x"), ("portals", "10.0.0.1,10.0.0.2"), ("useCHAP", "none")] }

/-! ## Counting the calls of the device-path wait -/

/-- The call is a probe of `waitForPathToExistInternal`: `os.Stat` or the glob. -/
def isProbe : Call → Bool
  | .osStat _ => true
  | .glob _ => true
  | _ => false

/-- The call is `time.Sleep`. -/
def isSleep : Call → Bool
  | .sleep => true
  | _ => false

/-- The event shows the path as absent: a stat that ended in `os.ErrNotExist`,
a glob without a match, or a sleep that returned. -/
def absent (e : Event) : Bool :=
  match e.call, e.ending with
  | .osStat _, .returned r => isNotExist r.err
  | .glob _, .returned r => r.names.isEmpty
  | .sleep, .returned _ => true
  | _, _ => false

/-! ## The credentials of a stage -/

/-- The call is `AddChapSecurityForHost`. -/
def isAddChap : Call → Bool
  | .addChapSecurityForHost _ _ => true
  | _ => false

/-- The credential map `creds` is the one the CHAP mode `useChap` asks for,
with the values of the secrets; the entries are listed in the order in which
the keys were first assigned. -/
def CredsFor (useChap : String) (secrets creds : GoMap) : Prop :=
  (useChap = "none" → creds = [("security_method", "NONE")]) ∧
  (useChap = "chap" → creds =
    [("security_chap_inbound_username", GoMap.get secrets "node.session.auth.username"),
      ("security_chap_inbound_secret", GoMap.get secrets "node.session.auth.password"),
      ("security_method", "CHAP")]) ∧
  (useChap = "mutual_chap" → creds =
    [("security_chap_inbound_username", GoMap.get secrets "node.session.auth.username"),
      ("security_chap_inbound_secret", GoMap.get secrets "node.session.auth.password"),
      ("security_method", "MUTUAL_CHAP"),
      ("security_chap_outbound_username", GoMap.get secrets "node.session.auth.username_in"),
      ("security_chap_outbound_secret", GoMap.get secrets "node.session.auth.password_in")])

/-- A call of `AddChapSecurityForHost` passes the credentials of the mode. -/
def PassesCreds (useChap : String) (secrets : GoMap) (e : Event) : Prop :=
  ∀ hostID creds, e.call = .addChapSecurityForHost hostID creds → CredsFor useChap secrets creds

/-! ## Results of runs -/

/-- A run of `m` that returns returns a value with `R`, and a run that panics
holds a call with `B`. -/
def Yields {σ α : Type} (R : α → Prop) (B : Event → Prop) (m : M σ α) : Prop :=
  ∀ s, match (m s).res with
    | .ret a => R a
    | .panic _ _ => ∃ e ∈ (m s).evs, B e

/-- The call ended in a panic. -/
def panicked (e : Event) : Bool :=
  match e.ending with
  | .panicked _ => true
  | .returned _ => false

/-- A stage request of host 1 that asks for CHAP and brings the inbound pair
of credentials. -/
def chapStageReq : NodeStageVolumeRequest :=
  { stageReq with
    Secrets := [("node.session.auth.username", "u"), ("node.session.auth.password", "p")],
    VolumeContext := [("useCHAP", "chap")] }

/-- A stage request of host 1 that asks for CHAP and brings no credentials. -/
def bareChapStageReq : NodeStageVolumeRequest :=
  { stageReq with VolumeContext := [("useCHAP", "chap")] }

/-- A stage request of host 1 without CHAP, for a host that the array holds
with CHAP. -/
def noneStageReq : NodeStageVolumeRequest :=
  { stageReq with
    PublishContext := [("hostID", "1"), ("hostPorts", ""), ("securityMethod", "CHAP")] }

/-- A stage request of host 1 that asks for mutual CHAP and brings all four
credentials. -/
def mutualStageReq : NodeStageVolumeRequest :=
  { stageReq with
    Secrets := [("node.session.auth.username", "u"), ("node.session.auth.password", "p"),
      ("node.session.auth.username_in", "v"), ("node.session.auth.password_in", "q")],
    VolumeContext := [("useCHAP", "mutual_chap")] }

/-- A stage request whose host id is not a number. -/
def badHostStageReq : NodeStageVolumeRequest :=
  { stageReq with
    PublishContext := [("hostID", "one"), ("hostPorts", ""), ("securityMethod", "NONE")] }

/-! ## Capabilities of a volume (`controller.go`) -/

/-- The getter `GetAccessMode`, which returns nil on a nil capability. -/
def GetAccessMode : Option VolumeCapability → Option AccessMode
  | some c => c.accessMode
  | none => none

/-- The getter `GetBlock` returns a non-nil message. -/
def hasBlock : Option VolumeCapability → Bool
  | some ⟨.block, _⟩ => true
  | _ => false

/-- The getter `GetMount` returns a non-nil message. -/
def hasMount : Option VolumeCapability → Bool
  | some ⟨.mount _ _, _⟩ => true
  | _ => false

/-- The loop of `validateCapabilities` and the check behind it, with the flags
`isBlock` and `isFile` as they stand. -/
def capabilitiesLoop : List (Option VolumeCapability) → Bool → Bool → Option GoError
  | [], isBlock, isFile =>
    if isBlock && isFile then some (.plain "both file and block volume capabilities specified")
    else none
  | capability :: rest, isBlock, isFile =>
    match GetAccessMode capability with
    | none => some (.plain "no accessmode specified in volume capability")
    | some _ =>
      capabilitiesLoop rest (if hasBlock capability then true else isBlock)
        (if hasMount capability then true else isFile)

/-- The function `validateCapabilities`; the slice is nil or a list of
capabilities, each of which may be nil. -/
def validateCapabilities (capabilities : Option (List (Option VolumeCapability))) :
    Option GoError :=
  match capabilities with
  | none => some (.plain "no volume capabilities specified")
  | some caps => capabilitiesLoop caps false false

/-! ## More example inputs -/

/-- A node on which the volume directory `csi-1` of a pod holds its
`vol_data.json` and a mount directory with a file left in it. -/
def usedMountSys : Sys Unit :=
  ⟨(), [("/host/pods/csi-1/mount/data", .file none), ("/host/pods/csi-1/mount", .dir),
    ("/host/pods/csi-1/vol_data.json", .file none), ("/host/pods/csi-1", .dir),
    ("/host/pods", .dir), ("/host", .dir)]⟩

/-- The call is `os.Remove` or `os.RemoveAll`. -/
def isRemove : Call → Bool
  | .osRemove _ => true
  | .osRemoveAll _ => true
  | _ => false

/-- A block publish request like `publishReq` whose volume context has no
`useCHAP` entry. -/
def noChapKeyReq : NodePublishVolumeRequest :=
  { publishReq .block false with VolumeContext := [("iqn", "iqn.x"), ("portals", "10.0.0.1")] }

/-- A host like the example host on which the session listing names no SCSI
host. -/
def noSessionHost : Host Unit := fun c s =>
  match c with
  | .command "iscsiadm" args =>
    if strHasPrefix args "-m session" then (.returned ⟨"", [], false, none⟩, s)
    else demoHost c s
  | _ => demoHost c s

/-- A publish request that asks for mutual CHAP and brings all four
credentials. -/
def fullMutualReq : NodePublishVolumeRequest :=
  { mutualReq with Secrets := [("node.session.auth.username", "u"),
      ("node.session.auth.password", "p"), ("node.session.auth.username_in", "v"),
      ("node.session.auth.password_in", "q")] }

/-- The disk `getISCSIDisk` builds for `fullMutualReq` on the example host. -/
def mutualDisk : iscsiDisk :=
  ⟨["10.0.0.1:3260"], "iqn.x", "0", "default", false, true,
    [("node.session.auth.username", "u"), ("node.session.auth.password", "p"),
      ("node.session.auth.username_in", "v"), ("node.session.auth.password_in", "q"),
      ("SecretsType", "chap")], "iqn.host", "93", false, ""⟩

/-! ## Matches of the transport expression -/

/-- The expression `pat(.*)\n` matches the text `cs` at position `i` with the
submatch `cap`: from `i` on the text holds characters that fit the elements of
`pat` one by one, then `cap`, which holds no newline, then a newline. -/
def MatchesAt (pat : List ReElem) (cs : List Char) (i : Nat) (cap : List Char) : Prop :=
  ∃ m rest, cs.drop i = m ++ cap ++ '\n' :: rest ∧
    List.Forall₂ (fun p c => ReElem.fits p c = true) pat m ∧ '\n' ∉ cap

/-! ## The settings of an iface listing -/

/-- The line starts with `iface.` and does not contain `<empty>`. -/
def ifaceLine (line : String) : Bool :=
  strHasPrefix line "iface." && !strContains line "<empty>"

/-- The key and the value of a line that consists of the three
white-space-separated fields key, `=`, value. -/
def settingOf (line : String) : Option (String × String) :=
  match strFields line with
  | [key, eq, val] => if eq = "=" then some (key, val) else none
  | _ => none

/-- The value of the last line among the `iface.` lines without `<empty>` that is
a setting of `key`. -/
def lastSetting (lines : List String) (key : String) : Option String :=
  (((lines.filter ifaceLine).filterMap settingOf).reverse.find? fun kv => kv.1 = key).map
    fun kv => kv.2

/-! # Theorems -/

/-! ## Volume handles -/

/-- The split loop never returns the empty list. -/
theorem splitLoop_ne_nil (sep : List Char) (s : List Char) :
    ∀ (k : Nat) (cur : List Char), splitLoop sep k s cur ≠ [] := by
  induction s with
  | nil => intro k cur; cases k <;> simp [splitLoop]
  | cons c cs ih =>
    intro k cur
    cases k with
    | zero =>
      simp only [splitLoop]
      split
      · simp
      · exact ih 0 _
    | succ k => simp only [splitLoop]; exact ih k cur

/-- A string without the separator is returned as one piece. -/
theorem splitLoop_no_match (sep : List Char) (s : List Char) :
    ∀ cur : List Char, containsChars s sep = false →
      splitLoop sep 0 s cur = [cur.reverse ++ s] := by
  induction s with
  | nil => intro cur _; simp [splitLoop]
  | cons c cs ih =>
    intro cur h
    simp only [containsChars, Bool.or_eq_false_iff] at h
    rw [splitLoop, if_neg (by simp [h.1]), ih _ h.2]
    simp

/-- The separator is a prefix exactly of the lists that start with two dollar signs. -/
theorem sep_prefix_iff (s : List Char) :
    sepChars.isPrefixOf s = true ↔ ∃ r, s = '$' :: '$' :: r := by
  unfold sepChars
  match s with
  | [] => simp
  | [a] => simp [List.isPrefixOf]
  | a :: b :: r =>
    simp only [List.isPrefixOf, Bool.and_true, Bool.and_eq_true, beq_iff_eq, List.cons.injEq]
    constructor
    · rintro ⟨h1, h2⟩; exact ⟨r, h1.symm, h2.symm, rfl⟩
    · rintro ⟨r2, h1, h2, _⟩; exact ⟨h1.symm, h2.symm⟩

/-- When the separator occurs at position `i`, the loop cuts at some `m ≤ i` and resumes
behind the separator. -/
theorem splitLoop_first_cut (s : List Char) :
    ∀ (i : Nat) (cur : List Char), sepChars.isPrefixOf (s.drop i) = true →
      ∃ m pre, m ≤ i ∧
        splitLoop sepChars 0 s cur = pre :: splitLoop sepChars 0 (s.drop (m + 2)) [] := by
  induction s with
  | nil => intro i cur h; simp [sepChars, List.isPrefixOf] at h
  | cons c cs ih =>
    intro i cur h
    by_cases hp : sepChars.isPrefixOf (c :: cs) = true
    · obtain ⟨r, hr⟩ := (sep_prefix_iff _).1 hp
      refine ⟨0, cur.reverse, Nat.zero_le _, ?_⟩
      simp only [splitLoop, hp, if_true]
      injection hr with h1 h2
      subst h2
      simp [sepChars, splitLoop]
    · cases i with
      | zero => exact absurd h hp
      | succ i =>
        obtain ⟨m, pre, hm, heq⟩ := ih i (c :: cur) h
        refine ⟨m + 1, pre, by omega, ?_⟩
        simp only [splitLoop, hp]
        simpa using heq

/-- Splitting a handle whose volume id neither contains the separator nor ends in a dollar
sign cuts right behind the volume id. -/
theorem splitLoop_handle (V P : List Char) :
    ∀ cur : List Char, containsChars V sepChars = false → V.getLast? ≠ some '$' →
      splitLoop sepChars 0 (V ++ '$' :: '$' :: P) cur
        = (cur.reverse ++ V) :: splitLoop sepChars 0 P [] := by
  induction V with
  | nil => intro cur _ _; simp [splitLoop, sepChars, List.isPrefixOf]
  | cons c V ih =>
    intro cur hc hl
    simp only [containsChars, Bool.or_eq_false_iff] at hc
    have hp : ¬ sepChars.isPrefixOf (c :: (V ++ '$' :: '$' :: P)) = true := by
      intro hp
      obtain ⟨r, hr⟩ := (sep_prefix_iff _).1 hp
      injection hr with h1 h2
      subst h1
      cases V with
      | nil => simp at hl
      | cons d V =>
        injection h2 with h3 h4
        subst h3
        have := hc.1
        simp [sepChars, List.isPrefixOf] at this
    have hl2 : V.getLast? ≠ some '$' := by
      cases V with
      | nil => simp
      | cons d V => simpa [List.getLast?_cons_cons] using hl
    rw [List.cons_append, splitLoop, if_neg hp, ih _ hc.2 hl2]
    simp


/-- A string without the suffix `$` does not have `$` as its last character. -/
theorem getLast_of_hasSuffix (V : String) (h : strHasSuffix V "$" = false) :
    V.data.getLast? ≠ some '$' := by
  intro hl
  obtain ⟨l, hl2⟩ : ∃ l, V.data = l ++ ['$'] := by
    rcases List.eq_nil_or_concat V.data with h0 | ⟨l, a, h1⟩
    · rw [h0] at hl; simp at hl
    · rw [h1] at hl
      simp at hl
      exact ⟨l, by rw [h1, hl]; simp⟩
  unfold strHasSuffix at h
  rw [hl2] at h
  simp [List.isSuffixOf] at h

/-- C1 (amended): for every volume id `V` and protocol tag `P`, neither of which contains
`$$`, and with `V` not ending in `$`, `validateVolumeID (V ++ "$$" ++ P)` returns no error
with `VolumeID = V` and `StorageType = P`. -/
theorem validateVolumeID_handle (V P : String)
    (hV : strContains V "$$" = false) (hP : strContains P "$$" = false)
    (hend : strHasSuffix V "$" = false) :
    validateVolumeID (V ++ "$$" ++ P) = (⟨V, P⟩, none) := by
  have hsplit : strSplit (V ++ "$$" ++ P) "$$" = [V, P] := by
    unfold strSplit splitChars
    have h1 : ("$$" : String).data = sepChars := rfl
    have h2 : (V ++ "$$" ++ P).data = V.data ++ '$' :: '$' :: P.data := by
      simp [String.data_append]
    rw [h1, h2, if_neg (by simp [sepChars]),
      splitLoop_handle V.data P.data [] hV (getLast_of_hasSuffix V hend),
      splitLoop_no_match sepChars P.data [] hP]
    simp
  simp [validateVolumeID, hsplit]

/-- Witness of C1 at the handle `93642189$$iscsi`. -/
theorem validateVolumeID_handle_witness :
    validateVolumeID ("93642189" ++ "$$" ++ "iscsi") = (⟨"93642189", "iscsi"⟩, none) :=
  validateVolumeID_handle "93642189" "iscsi" (by decide) (by decide) (by decide)

/-- C1 as stated fails at `V = "a$"`, `P = "b"`: neither contains `$$`, yet the handle
`a$$$b` is split into `a` and `$b`. -/
theorem validateVolumeID_handle_counterexample :
    strContains "a$" "$$" = false ∧ strContains "b" "$$" = false ∧
      validateVolumeID ("a$" ++ "$$" ++ "b") ≠ (⟨"a$", "b"⟩, none) := by
  decide

/-- Validation fails whenever the split does not give exactly two pieces. -/
theorem validateVolumeID_error_of_length (s : String)
    (h : (strSplit s "$$").length ≠ 2) : (validateVolumeID s).2 ≠ none := by
  unfold validateVolumeID
  split
  · rename_i v p heq; rw [heq] at h; simp at h
  · simp

/-- C2 (amended): for every string in which `$$` occurs at no position, or at two positions
that do not overlap (`i + 2 ≤ j`), `validateVolumeID` returns an error. -/
theorem validateVolumeID_error (s : String)
    (h : strContains s "$$" = false ∨
      ∃ i j, i + 2 ≤ j ∧ occursAt "$$" s i = true ∧ occursAt "$$" s j = true) :
    (validateVolumeID s).2 ≠ none := by
  apply validateVolumeID_error_of_length
  have h1 : ("$$" : String).data = sepChars := rfl
  unfold strSplit splitChars
  rw [h1, if_neg (by simp [sepChars]), List.length_map]
  rcases h with h | ⟨i, j, hij, hi, hj⟩
  · rw [splitLoop_no_match sepChars s.data [] h]; simp
  · unfold occursAt at hi hj
    rw [h1] at hi hj
    obtain ⟨m, pre, hm, heq⟩ := splitLoop_first_cut s.data i [] hi
    have hj2 : sepChars.isPrefixOf ((s.data.drop (m + 2)).drop (j - (m + 2))) = true := by
      rw [List.drop_drop]
      have : m + 2 + (j - (m + 2)) = j := by omega
      rw [this]; exact hj
    obtain ⟨m2, pre2, _, heq2⟩ := splitLoop_first_cut (s.data.drop (m + 2)) _ [] hj2
    rw [heq, heq2]
    have hne := splitLoop_ne_nil sepChars (List.drop (m2 + 2) (List.drop (m + 2) s.data)) 0 []
    cases hx : splitLoop sepChars 0 (List.drop (m2 + 2) (List.drop (m + 2) s.data)) [] with
    | nil => exact absurd hx hne
    | cons a l => simp

/-- Witness of C2 at the string `a$$b$$c`. -/
theorem validateVolumeID_error_witness :
    (validateVolumeID "a$$b$$c").2 ≠ none :=
  validateVolumeID_error "a$$b$$c" (Or.inr ⟨1, 4, by decide, by decide, by decide⟩)

/-- C2 as stated fails at `a$$$b`: `$$` occurs at the two positions 1 and 2, so not exactly
once, yet validation succeeds. -/
theorem validateVolumeID_error_counterexample :
    occursAt "$$" "a$$$b" 1 = true ∧ occursAt "$$" "a$$$b" 2 = true ∧
      ¬ (∃! i, occursAt "$$" "a$$$b" i = true) ∧ (validateVolumeID "a$$$b").2 = none := by
  refine ⟨by decide, by decide, ?_, by decide⟩
  rintro ⟨i, hi, huniq⟩
  have h1 := huniq 1 (by decide)
  have h2 := huniq 2 (by decide)
  omega

/-! ## The monad -/

/-- Sequencing in `M` is `M.bind`. -/
theorem bind_eq {σ α β : Type} (m : M σ α) (f : α → M σ β) : (m >>= f) = M.bind m f := rfl

/-- Returning in `M` is `M.pure`. -/
theorem pure_eq {σ α : Type} (a : α) : (pure a : M σ α) = M.pure a := rfl

/-! ## The sidecar -/

/-- A path just written holds what was written. -/
theorem lookup_write (fs : FS) (p : String) (n : Node) :
    FS.lookup (FS.write fs p n) p = some n := by
  simp [FS.lookup, FS.write]

/-- Decoding the document of a disk into a fresh disk restores the six exported fields and
nothing else. -/
theorem decode_encode (d : iscsiDisk) (v : String) :
    decodeDisk (encodeDisk d) (iscsiDisk.named v)
      = (⟨d.Portals, d.Iqn, "", d.Iface, false, false, [], d.InitiatorName, d.VolName, false,
          d.MpathDevice⟩, none) := by
  have h1 : fieldOfKey "Portals" = some .Portals := by decide
  have h2 : fieldOfKey "Iqn" = some .Iqn := by decide
  have h3 : fieldOfKey "Iface" = some .Iface := by decide
  have h4 : fieldOfKey "InitiatorName" = some .InitiatorName := by decide
  have h5 : fieldOfKey "VolName" = some .VolName := by decide
  have h6 : fieldOfKey "MpathDevice" = some .MpathDevice := by decide
  simp [decodeDisk, encodeDisk, h1, h2, h3, h4, h5, h6, decodeMember, iscsiDisk.named]

/-- C3 (amended): for every disk `d` and stage path, loading with `loadDiskInfoFromFile` the
sidecar that `createISCSIConfigFile d stagePath` wrote, into a disk that carries only `d`'s
`VolName`, succeeds and yields a disk equal to `d` on the exported fields `VolName`, `Portals`,
`Iqn`, `Iface`, `InitiatorName` and `MpathDevice`; the unexported fields `lun`, `chap_session`,
`chap_discovery`, `secret` and `isBlock` keep the zero values of the disk loaded into. -/
theorem sidecar_roundtrip {σ : Type} (d : iscsiDisk) (mnt : String) (s : Sys σ)
    (hc : (createISCSIConfigFile d mnt s).res = .ret none) :
    (loadDiskInfoFromFile (iscsiDisk.named d.VolName) mnt (createISCSIConfigFile d mnt s).sys).res
      = .ret (⟨d.Portals, d.Iqn, "", d.Iface, false, false, [], d.InitiatorName, d.VolName,
          false, d.MpathDevice⟩, none) := by
  unfold createISCSIConfigFile at hc ⊢
  simp only [bind_eq, pure_eq, M.bind, M.pure, fsCall] at hc ⊢
  cases hcr : osCreate s.fs (pathJoin ["/host", mnt, d.VolName ++ ".json"]) with
  | mk e fs1 =>
    rw [hcr] at hc
    cases e with
    | some e => simp [M.pure] at hc
    | none =>
      simp only [hcr]
      unfold loadDiskInfoFromFile
      simp only [bind_eq, pure_eq, M.bind, M.pure, fsCall]
      have hv : (iscsiDisk.named d.VolName).VolName = d.VolName := rfl
      simp [osOpen, decodeFile, lookup_write, hv, decode_encode, M.bind, M.pure, fsCall]

/-- Witness of C3 at the example disk and the stage path `/stage`. -/
theorem sidecar_roundtrip_witness :
    (loadDiskInfoFromFile (iscsiDisk.named demoDisk.VolName) "/stage"
        (createISCSIConfigFile demoDisk "/stage" demoSys).sys).res
      = .ret (⟨demoDisk.Portals, demoDisk.Iqn, "", demoDisk.Iface, false, false, [],
          demoDisk.InitiatorName, demoDisk.VolName, false, demoDisk.MpathDevice⟩, none) :=
  sidecar_roundtrip demoDisk "/stage" demoSys (by decide)

/-- C3 as stated fails at the example disk, whose LUN is `1`: the sidecar is written, and
the disk loaded from it has the empty LUN. -/
theorem sidecar_roundtrip_counterexample :
    (createISCSIConfigFile demoDisk "/stage" demoSys).res = .ret none ∧
      ∃ d, (loadDiskInfoFromFile (iscsiDisk.named demoDisk.VolName) "/stage"
          (createISCSIConfigFile demoDisk "/stage" demoSys).sys).res = .ret (d, none) ∧
        d.lun ≠ demoDisk.lun :=
  ⟨by decide, { demoDisk with lun := "" }, by decide, by decide⟩

/-! ## Runs on the example host -/

/-- C4: on a host whose array client panics in `AddPortForHost`, `NodeStageVolume` returns a
nil response and a nil error; on a host whose `ChownVolume` panics after the attach,
`NodePublishVolume` does the same. The deferred call of either handler recovers the panic, but
the results of the handler are unnamed, so the error it assigns is not returned. -/
theorem handler_panic_nil_error :
    (NodeStageVolume (hostWith isAddPort (.panicked "nil pointer")) stageReq demoSys).res
        = .ret (none, none) ∧
      (NodePublishVolume (hostWith isChown (.panicked "nil pointer")) (publishReq .block false)
          publishSys).res = .ret (none, none) := by
  constructor <;> decide

/-- C6: a publish request with a block capability and `readonly = true` succeeds on the
example host, and the bind mount is made read-write: `getISCSIDiskMounter` sets `readOnly` to
false whatever the request says. -/
theorem block_readonly_publish_mounts :
    (NodePublishVolume demoHost (publishReq .block true) publishSys).res = .ret (some (), none) ∧
      ∃ e ∈ (NodePublishVolume demoHost (publishReq .block true) publishSys).evs,
        e.call = .mount "/dev/dm-0" "/target/mount" "" ["bind", "rw"] := by
  constructor <;> decide

/-- C7: in block mode, when the bind mount fails, `AttachDisk` returns the mount error and
no sidecar has been written: no call of `createISCSIConfigFile` is in the trace and the
sidecar path does not exist afterwards. -/
theorem block_mount_failure_no_sidecar :
    (AttachDisk (hostWith isMount (failing "mount failed")) blockMounter publishSys).res
        = .ret ("", some (.plain "mount failed")) ∧
      (∃ e ∈ (AttachDisk (hostWith isMount (failing "mount failed")) blockMounter publishSys).evs,
        isMount e.call = true) ∧
      (∀ e ∈ (AttachDisk (hostWith isMount (failing "mount failed")) blockMounter publishSys).evs,
        e.step ≠ .sidecar) ∧
      FS.lookup (AttachDisk (hostWith isMount (failing "mount failed")) blockMounter
        publishSys).sys.fs "/host/stage/93.json" = none := by
  refine ⟨?_, ?_, ?_, ?_⟩ <;> decide

/-- C8 as stated fails in file mode: on the example host the two calls that write the sidecar
come before the call of `FormatAndMount`. -/
theorem attach_order_counterexample :
    ((AttachDisk demoHost fileMounter publishSys).evs.map fun e => e.step).filter
        (fun st => st = .mount ∨ st = .sidecar) = [.sidecar, .sidecar, .mount] ∧
      ∃ e ∈ (AttachDisk demoHost fileMounter publishSys).evs,
        e.call = .formatAndMount "/dev/dm-0" "/target/mount" "xfs" ["rw", "nouuid"] := by
  constructor <;> decide

/-- C9: for the stage path `/stage`, whose host-view directory `/host/stage` exists and holds
no sidecar, `NodeUnstageVolume` returns success, and the directory `/host/stage` still exists
afterwards: `os.RemoveAll` is called with `/stage`, without the `/host` prefix. -/
theorem unstage_keeps_host_directory :
    FS.lookup demoSys.fs "/host/stage" = some .dir ∧
      FS.lookup demoSys.fs "/host/stage/93.json" = none ∧
      (NodeUnstageVolume demoHost ⟨"93$$iscsi", "/stage"⟩ demoSys).res = .ret (some (), none) ∧
      FS.lookup (NodeUnstageVolume demoHost ⟨"93$$iscsi", "/stage"⟩ demoSys).sys.fs "/host/stage"
        = some .dir ∧
      ∃ e ∈ (NodeUnstageVolume demoHost ⟨"93$$iscsi", "/stage"⟩ demoSys).evs,
        e.call = .osRemoveAll "/stage" := by
  refine ⟨?_, ?_, ?_, ?_, ?_⟩ <;> decide

/-- C10 as stated fails on the example host: the publish with `mutual_chap` and only the
inbound credentials returns an error, but the shell command that reads the initiator name has
been run before. -/
theorem mutual_chap_counterexample :
    (GoMap.get? mutualReq.Secrets "node.session.auth.username").isSome = true ∧
      (GoMap.get? mutualReq.Secrets "node.session.auth.password").isSome = true ∧
      GoMap.get? mutualReq.Secrets "node.session.auth.username_in" = none ∧
      (NodePublishVolume demoHost mutualReq publishSys).res = .ret (none, some (.status .Internal
        "iscsi: node.session.auth.username_in not found in secret")) ∧
      ∃ e ∈ (NodePublishVolume demoHost mutualReq publishSys).evs,
        e.call = .exec "bash" ["-c", initiatorCmd] ∧ isCommand e.call = true := by
  refine ⟨?_, ?_, ?_, ?_, ?_⟩ <;> decide

/-! ## Traces -/

/-- A run without calls emits nothing. -/
theorem emits_pure {σ α : Type} {P : Event → Prop} (a : α) : Emits P (pure a : M σ α) := by
  intro s e he; simp [pure_eq, M.pure] at he

/-- The calls of a sequence are those of its parts. -/
theorem emits_bind {σ α β : Type} {P : Event → Prop} {m : M σ α} {f : α → M σ β}
    (hm : Emits P m) (hf : ∀ a, Emits P (f a)) : Emits P (m >>= f) := by
  intro s e he
  rw [bind_eq] at he
  unfold M.bind at he
  have h1 := hm s
  cases hms : m s with
  | mk r s1 e1 =>
    rw [hms] at he h1
    cases r with
    | ret a =>
      have h2 := hf a s1
      simp only [List.mem_append] at he
      rcases he with he | he
      · exact h1 e he
      · exact h2 e he
    | panic v fr => exact h1 e he

/-- A weaker property holds of the same calls. -/
theorem emits_mono {σ α : Type} {P Q : Event → Prop} {m : M σ α} (hm : Emits P m)
    (hPQ : ∀ e, P e → Q e) : Emits Q m :=
  fun s e he => hPQ e (hm s e he)

/-- A host call emits itself. -/
theorem emits_call {σ : Type} {P : Event → Prop} (h : Host σ) (step : Step) (c : Call)
    (hP : ∀ en, P ⟨step, c, en⟩) : Emits P (call h step c) := by
  intro s e he
  unfold call at he
  split at he <;> simp at he <;> subst he <;> exact hP _

/-- A file-system call emits itself. -/
theorem emits_fsCall {σ α : Type} {P : Event → Prop} (step : Step) (c : Call) (f : FS → α × FS)
    (log : α → Reply) (hP : ∀ en, P ⟨step, c, en⟩) : Emits P (fsCall step c f log : M σ α) := by
  intro s e he
  unfold fsCall at he
  simp at he; subst he; exact hP _

/-- A panic of the driver's own code makes no call. -/
theorem emits_goPanic {σ α : Type} {P : Event → Prop} (v : String) :
    Emits P (goPanic v : M σ α) := by
  intro s e he; simp [goPanic] at he

/-- Indexing makes no call. -/
theorem emits_index {σ : Type} {P : Event → Prop} (xs : List String) (i : Nat) :
    Emits P (index xs i : M σ String) := by
  unfold index
  split
  · exact emits_pure _
  · exact emits_goPanic _

/-- Recording the named results changes no call. -/
theorem emits_withFrame {σ α : Type} {P : Event → Prop} {m : M σ α} (fr : Frame)
    (hm : Emits P m) : Emits P (withFrame fr m) := by
  intro s e he
  unfold withFrame at he
  have h1 := hm s
  split at he
  · rename_i heq; rw [heq] at h1; exact h1 e he
  · exact h1 e he

/-- Recovering a panic changes no call. -/
theorem emits_recoverZero {σ α : Type} {P : Event → Prop} {m : M σ α} (z : α)
    (hm : Emits P m) : Emits P (recoverZero z m) := by
  intro s e he
  unfold recoverZero at he
  have h1 := hm s
  split at he
  · rename_i heq; rw [heq] at h1; exact h1 e he
  · exact h1 e he

/-- Recovering a panic into a named result changes no call. -/
theorem emits_recoverNamed {σ α : Type} {P : Event → Prop} {m : M σ (α × Option GoError)}
    (z : α) (g : Frame → α) (r : String → GoError)
    (hm : Emits P m) : Emits P (recoverNamed z g r m) := by
  intro s e he
  unfold recoverNamed at he
  have h1 := hm s
  split at he
  · rename_i heq; rw [heq] at h1; exact h1 e he
  · rename_i heq; rw [heq] at h1; exact h1 e he
  · exact h1 e he

/-- An external command emits itself. -/
theorem emits_command {σ : Type} {P : Event → Prop} (h : Host σ) (step : Step)
    (cmd args : String) (hP : ∀ en, P ⟨step, .command cmd args, en⟩) :
    Emits P (command h step cmd args) := by
  unfold command
  exact emits_bind (emits_call h _ _ hP) (fun _ => emits_pure _)

/-- The key loop of `updateISCSINode` only runs commands of the CHAP update. -/
theorem emits_updateKeys {σ : Type} (h : Host σ) (b : iscsiDiskMounter) (tp : String)
    (ks : List String) : Emits (Plain .chapUpdate) (updateKeys h b tp ks) := by
  induction ks with
  | nil => exact emits_pure _
  | cons k ks ih =>
    simp only [updateKeys]
    repeat' (first
      | exact ih
      | exact emits_pure _
      | exact emits_command _ _ _ _ (fun _ => ⟨rfl, rfl, rfl, rfl, rfl⟩)
      | refine emits_bind ?_ (fun _ => ?_)
      | split)

/-- The function `updateISCSINode` only runs commands of the CHAP update. -/
theorem emits_updateISCSINode {σ : Type} (h : Host σ) (b : iscsiDiskMounter) (tp : String) :
    Emits (Plain .chapUpdate) (updateISCSINode h b tp) := by
  simp only [updateISCSINode]
  repeat' (first
    | exact emits_updateKeys _ _ _ _
    | exact emits_pure _
    | exact emits_command _ _ _ _ (fun _ => ⟨rfl, rfl, rfl, rfl, rfl⟩)
    | refine emits_bind ?_ (fun _ => ?_)
    | split)

/-- The CHAP loop over the portals only runs commands of the CHAP update. -/
theorem emits_chapLoop {σ : Type} (h : Host σ) (b : iscsiDiskMounter) (tps : List String) :
    ∀ err lastErr, Emits (Plain .chapUpdate) (chapLoop h b tps err lastErr) := by
  induction tps with
  | nil => intro err lastErr; exact emits_pure _
  | cons tp tps ih =>
    intro err lastErr
    simp only [chapLoop]
    repeat' (first
      | exact ih _ _
      | exact emits_updateISCSINode _ _ _
      | refine emits_withFrame _ ?_
      | refine emits_bind ?_ (fun _ => ?_)
      | split)

/-- The record loop of `cloneIface` only runs commands outside the pipeline. -/
theorem emits_updateRecords {σ : Type} (h : Host σ) (b : iscsiDiskMounter)
    (newIface out : String) (ps : List (String × String)) :
    Emits (Plain .other) (updateRecords h b newIface out ps) := by
  induction ps with
  | nil => exact emits_pure _
  | cons p ps ih =>
    obtain ⟨key, val⟩ := p
    simp only [updateRecords]
    repeat' (first
      | exact ih
      | exact emits_pure _
      | exact emits_command _ _ _ _ (fun _ => ⟨rfl, rfl, rfl, rfl, rfl⟩)
      | refine emits_bind ?_ (fun _ => ?_)
      | split)

/-- The function `cloneIface` only runs commands outside the pipeline. -/
theorem emits_cloneIface {σ : Type} (h : Host σ) (b : iscsiDiskMounter) (newIface : String) :
    Emits (Plain .other) (cloneIface h b newIface) := by
  simp only [cloneIface]
  repeat' (first
    | exact emits_updateRecords _ _ _ _ _
    | exact emits_pure _
    | exact emits_goPanic _
    | exact emits_command _ _ _ _ (fun _ => ⟨rfl, rfl, rfl, rfl, rfl⟩)
    | refine emits_bind ?_ (fun _ => ?_)
    | split)

/-- The scan loop of `rescanDeviceMap` only runs commands of the rescan. -/
theorem emits_scanHosts {σ : Type} (h : Host σ) (lun : String) (hosts : List String) :
    Emits (Plain .rescan) (scanHosts h lun hosts) := by
  induction hosts with
  | nil => exact emits_pure _
  | cons host hosts ih =>
    simp only [scanHosts]
    repeat' (first
      | exact ih
      | exact emits_pure _
      | exact emits_command _ _ _ _ (fun _ => ⟨rfl, rfl, rfl, rfl, rfl⟩)
      | refine emits_bind ?_ (fun _ => ?_)
      | split)

/-- The wait loop of `rescanDeviceMap` only makes calls of the rescan. -/
theorem emits_waitHosts {σ : Type} (h : Host σ) (lun : String) (hosts : List String) :
    Emits (Plain .rescan) (waitHosts h lun hosts) := by
  induction hosts with
  | nil => exact emits_pure _
  | cons host hosts ih =>
    simp only [waitHosts]
    repeat' (first
      | exact ih
      | exact emits_pure _
      | exact emits_call _ _ _ (fun _ => ⟨rfl, rfl, rfl, rfl, rfl⟩)
      | refine emits_bind ?_ (fun _ => ?_)
      | split)

/-- The function `rescanDeviceMap` only makes calls of the rescan. -/
theorem emits_rescanDeviceMap {σ : Type} (h : Host σ) (volumeId lun : String) :
    Emits (Plain .rescan) (rescanDeviceMap h volumeId lun) := by
  simp only [rescanDeviceMap]
  repeat' (first
    | exact emits_scanHosts _ _ _
    | exact emits_waitHosts _ _ _
    | exact emits_pure _
    | exact emits_index _ _
    | exact emits_command _ _ _ _ (fun _ => ⟨rfl, rfl, rfl, rfl, rfl⟩)
    | exact emits_call _ _ _ (fun _ => ⟨rfl, rfl, rfl, rfl, rfl⟩)
    | refine emits_recoverZero _ ?_
    | refine emits_bind ?_ (fun _ => ?_)
    | split)

/-- The wait loop for a device path only probes and sleeps. -/
theorem emits_waitLoop {σ : Type} (h : Host σ) (deviceTransport : String) (left : Nat) :
    ∀ devicePath, Emits (Plain .pathWait) (waitLoop h deviceTransport left devicePath) := by
  induction left with
  | zero => intro devicePath; exact emits_pure _
  | succ left ih =>
    intro devicePath
    simp only [waitLoop]
    repeat' (first
      | exact ih _
      | exact emits_pure _
      | exact emits_call _ _ _ (fun _ => ⟨rfl, rfl, rfl, rfl, rfl⟩)
      | exact emits_fsCall _ _ _ _ (fun _ => ⟨rfl, rfl, rfl, rfl, rfl⟩)
      | refine emits_bind ?_ (fun _ => ?_)
      | split)

/-- The path loop over the portals only probes and sleeps. -/
theorem emits_pathLoop {σ : Type} (h : Host σ) (b : iscsiDiskMounter) (iscsiTransport : String)
    (tps : List String) :
    ∀ devicePaths lastErr,
      Emits (Plain .pathWait) (pathLoop h b iscsiTransport tps devicePaths lastErr) := by
  induction tps with
  | nil => intro devicePaths lastErr; exact emits_pure _
  | cons tp tps ih =>
    intro devicePaths lastErr
    simp only [pathLoop, waitForPathToExist]
    repeat' (first
      | exact ih _ _
      | exact emits_waitLoop _ _ _ _
      | refine emits_bind ?_ (fun _ => ?_)
      | split)

/-- The function `findDeviceForPath` only resolves the symbolic link. -/
theorem emits_findDeviceForPath {σ : Type} (h : Host σ) (path : String) :
    Emits (Plain .multipath) (findDeviceForPath h .multipath path) := by
  simp only [findDeviceForPath]
  repeat' (first
    | exact emits_pure _
    | exact emits_call _ _ _ (fun _ => ⟨rfl, rfl, rfl, rfl, rfl⟩)
    | refine emits_bind ?_ (fun _ => ?_)
    | split)

/-- The loop over `/sys/block/` only looks entries up. -/
theorem emits_findSlave {σ : Type} (h : Host σ) (disk : String) (names : List String) :
    Emits (Plain .multipath) (findSlave h .multipath disk names) := by
  induction names with
  | nil => exact emits_pure _
  | cons name names ih =>
    simp only [findSlave]
    repeat' (first
      | exact ih
      | exact emits_pure _
      | exact emits_call _ _ _ (fun _ => ⟨rfl, rfl, rfl, rfl, rfl⟩)
      | refine emits_bind ?_ (fun _ => ?_)
      | split)

/-- The function `findMultipathDeviceForDevice` only reads the host. -/
theorem emits_findMultipathDeviceForDevice {σ : Type} (h : Host σ) (device : String) :
    Emits (Plain .multipath) (findMultipathDeviceForDevice h device) := by
  simp only [findMultipathDeviceForDevice]
  repeat' (first
    | exact emits_findDeviceForPath _ _
    | exact emits_findSlave _ _ _
    | exact emits_pure _
    | exact emits_call _ _ _ (fun _ => ⟨rfl, rfl, rfl, rfl, rfl⟩)
    | refine emits_bind ?_ (fun _ => ?_)
    | split)

/-- The multipath resolution loop only reads the host. -/
theorem emits_resolveLoop {σ : Type} (h : Host σ) (paths : List String) :
    Emits (Plain .multipath) (resolveLoop h paths) := by
  induction paths with
  | nil => exact emits_pure _
  | cons path paths ih =>
    simp only [resolveLoop]
    repeat' (first
      | exact ih
      | exact emits_findMultipathDeviceForDevice _ _
      | exact emits_pure _
      | refine emits_bind ?_ (fun _ => ?_)
      | split)

/-- The function `createISCSIConfigFile` only makes calls of the sidecar write. -/
theorem emits_createISCSIConfigFile {σ : Type} (conf : iscsiDisk) (mnt : String) :
    Emits (fun e => e.step = .sidecar ∧ isMount e.call = false ∧ isMountCheck e.call = false)
      (createISCSIConfigFile conf mnt : M σ (Option GoError)) := by
  simp only [createISCSIConfigFile]
  repeat' (first
    | exact emits_pure _
    | exact emits_fsCall _ _ _ _ (fun _ => ⟨rfl, rfl, rfl⟩)
    | refine emits_bind ?_ (fun _ => ?_)
    | split)

/-- The function `getInitiatorName` only runs its shell command. -/
theorem emits_getInitiatorName {σ : Type} (h : Host σ) :
    Emits (fun e => e.call = .exec "bash" ["-c", initiatorCmd]) (getInitiatorName h) := by
  simp only [getInitiatorName]
  repeat' (first
    | exact emits_pure _
    | exact emits_index _ _
    | exact emits_call _ _ _ (fun _ => rfl)
    | refine emits_recoverZero _ ?_
    | refine emits_bind ?_ (fun _ => ?_)
    | split)

/-! ## The mount-point check of `AttachDisk` -/

/-- A run without calls holds no mount-point check. -/
theorem stops_pure {σ : Type} (x : String × Option GoError) :
    StopsWhenMounted (pure x : M σ (String × Option GoError)) := by
  intro s ⟨e, he, _⟩
  simp [pure_eq, M.pure] at he

/-- A run without a mount-point check stops vacuously. -/
theorem stops_of_emits {σ : Type} {m : M σ (String × Option GoError)}
    (hm : Emits NoCheck m) : StopsWhenMounted m := by
  intro s ⟨e, he, hc, _⟩
  have := hm s e he
  simp [NoCheck, hc] at this

/-- A part without mount, check or write in front keeps the property. -/
theorem stops_bind {σ α : Type} {m : M σ α} {f : α → M σ (String × Option GoError)}
    (hm : Emits Pre m) (hf : ∀ a, StopsWhenMounted (f a)) : StopsWhenMounted (m >>= f) := by
  intro s
  have h1 := hm s
  rw [bind_eq]
  unfold M.bind
  cases hms : m s with
  | mk r s1 e1 =>
    rw [hms] at h1
    cases r with
    | ret a =>
      have h2 := hf a s1
      simp only
      rintro ⟨e, he, hmt⟩
      simp only [List.mem_append] at he
      have hin : ∃ e ∈ (f a s1).evs, Mounted e := by
        rcases he with he | he
        · have := (h1 e he).2.1
          simp [hmt.1] at this
        · exact ⟨e, he, hmt⟩
      obtain ⟨hres, hq⟩ := h2 hin
      refine ⟨hres, ?_⟩
      intro e' he'
      simp only [List.mem_append] at he'
      rcases he' with he' | he'
      · exact ⟨(h1 e' he').1, (h1 e' he').2.2⟩
      · exact hq e' he'
    | panic v fr =>
      simp only
      rintro ⟨e, he, hmt⟩
      have := (h1 e he).2.1
      simp [hmt.1] at this

/-- The deferred call of `AttachDisk` keeps the property. -/
theorem stops_recoverNamed {σ : Type} {m : M σ (String × Option GoError)}
    (g : Frame → String) (r : String → GoError) (hm : StopsWhenMounted m) :
    StopsWhenMounted (recoverNamed "" g r m) := by
  intro s
  have h1 := hm s
  unfold recoverNamed
  cases hms : m s with
  | mk res s1 e1 =>
    rw [hms] at h1
    cases res with
    | ret a => simpa using h1
    | panic v fr =>
      cases fr with
      | none => intro hex; have := (h1 hex).1; simp at this
      | some fr => intro hex; have := (h1 hex).1; simp at this

/-- The mount-point check itself: when it reports a mount point the rest is skipped, and
otherwise the rest holds no further check. -/
theorem stops_check {σ : Type} (h : Host σ) (fr : Frame) (st : Step) (p : String)
    (k : Reply → M σ (String × Option GoError))
    (hyes : ∀ r, r.err = none → r.flag = false → k r = pure ("", none))
    (hno : ∀ r, Emits NoCheck (k r)) :
    StopsWhenMounted (withFrame fr (call h st (.isLikelyNotMountPoint p)) >>= k) := by
  intro s
  rw [bind_eq]
  unfold M.bind withFrame call
  cases hh : h (.isLikelyNotMountPoint p) s with
  | mk en s1 =>
    cases en with
    | panicked v =>
      simp only
      rintro ⟨e, he, hmt⟩
      simp at he
      subst he
      obtain ⟨_, r, hr, _⟩ := hmt
      simp at hr
    | returned r =>
      simp only
      rintro ⟨e, he, hmt⟩
      by_cases hm : r.err = none ∧ r.flag = false
      · rw [hyes r hm.1 hm.2]
        simp [pure_eq, M.pure, Quiet, isMount, isWrite]
      · exfalso
        simp only [List.mem_append, List.mem_singleton] at he
        rcases he with he | he
        · subst he
          obtain ⟨_, r2, hr, h1, h2⟩ := hmt
          simp at hr
          subst hr
          exact hm ⟨h1, h2⟩
        · have := hno r s1 e he
          simp [NoCheck, hmt.1] at this

/-- A plain event is neither mount, check nor write. -/
theorem plain_pre {st : Step} {e : Event} (hp : Plain st e) : Pre e :=
  ⟨hp.2.1, hp.2.2.1, hp.2.2.2.1⟩

/-- A plain event is a call of its step. -/
theorem plain_fits {st : Step} {e : Event} (hp : Plain st e) : Fits e := by
  unfold Fits
  rw [hp.1]
  exact hp.2.2.2.2

/-- A plain event is not the mount-point check. -/
theorem plain_nocheck {st : Step} {e : Event} (hp : Plain st e) : NoCheck e := hp.2.2.1

/-- Writing the sidecar makes no mount-point check. -/
theorem nocheck_createISCSIConfigFile {σ : Type} (conf : iscsiDisk) (mnt : String) :
    Emits NoCheck (createISCSIConfigFile conf mnt : M σ (Option GoError)) :=
  emits_mono (emits_createISCSIConfigFile conf mnt) (fun _ hp => hp.2.2)

/-- Block mode makes no mount-point check. -/
theorem nocheck_mountBlock {σ : Type} (h : Host σ) (b : iscsiDiskMounter) (devicePath : String)
    (fr : Frame) : Emits NoCheck (mountBlock h b devicePath fr) := by
  simp only [mountBlock]
  repeat' (first
    | with_reducible exact emits_pure _
    | with_reducible refine emits_call _ _ _ ?_
    | with_reducible refine emits_fsCall _ _ _ _ ?_
    | with_reducible exact nocheck_createISCSIConfigFile _ _
    | with_reducible refine emits_withFrame _ ?_
    | with_reducible refine emits_bind ?_ (fun _ => ?_)
    | split
    | exact fun _ => rfl)

/-- File mode makes no mount-point check. -/
theorem nocheck_mountFile {σ : Type} (h : Host σ) (b : iscsiDiskMounter) (devicePath : String)
    (fr : Frame) : Emits NoCheck (mountFile h b devicePath fr) := by
  simp only [mountFile]
  repeat' (first
    | with_reducible exact emits_pure _
    | with_reducible refine emits_call _ _ _ ?_
    | with_reducible refine emits_command _ _ _ _ ?_
    | with_reducible refine emits_fsCall _ _ _ _ ?_
    | with_reducible exact nocheck_createISCSIConfigFile _ _
    | with_reducible refine emits_withFrame _ ?_
    | with_reducible refine emits_bind ?_ (fun _ => ?_)
    | split
    | exact fun _ => rfl)

/-- The mount part of `AttachDisk` stops at a mount point. -/
theorem stops_attachMount {σ : Type} (h : Host σ) (b : iscsiDiskMounter)
    (devicePaths : List String) : StopsWhenMounted (attachMount h b devicePaths) := by
  simp only [attachMount]
  refine stops_bind (emits_index _ _) (fun _ => ?_)
  refine stops_check h _ _ _ _ ?_ ?_
  · intro r h1 h2
    simp [h1, h2]
  · intro r
    repeat' (first
      | with_reducible exact emits_pure _
      | with_reducible exact nocheck_mountBlock _ _ _ _
      | with_reducible exact nocheck_mountFile _ _ _ _
      | with_reducible exact emits_mono (emits_resolveLoop _ _) (fun _ => plain_nocheck)
      | with_reducible refine emits_withFrame _ ?_
      | with_reducible refine emits_bind ?_ (fun _ => ?_)
      | split)

/-- The wait for the device paths and what follows it stop at a mount point. -/
theorem stops_attachPaths {σ : Type} (h : Host σ) (b : iscsiDiskMounter)
    (iscsiTransport : String) (lastErr : Option GoError) :
    StopsWhenMounted (attachPaths h b iscsiTransport lastErr) := by
  simp only [attachPaths]
  repeat' (first
    | with_reducible exact stops_pure _
    | with_reducible exact stops_attachMount _ _ _
    | with_reducible exact emits_mono (emits_pathLoop _ _ _ _ _ _) (fun _ => plain_pre)
    | with_reducible refine stops_bind ?_ (fun _ => ?_)
    | split)

/-- Discovery, login, rescan and what follows them stop at a mount point. -/
theorem stops_attachTargets {σ : Type} (h : Host σ) (b : iscsiDiskMounter)
    (iscsiTransport out : String) : StopsWhenMounted (attachTargets h b iscsiTransport out) := by
  simp only [attachTargets]
  repeat' (first
    | with_reducible exact stops_pure _
    | with_reducible exact stops_attachPaths _ _ _ _
    | with_reducible exact emits_pure _
    | with_reducible exact emits_index _ _
    | with_reducible refine emits_command _ _ _ _ ?_
    | with_reducible exact emits_mono (emits_chapLoop _ _ _ _ _) (fun _ => plain_pre)
    | with_reducible exact emits_mono (emits_rescanDeviceMap _ _ _) (fun _ => plain_pre)
    | with_reducible refine emits_withFrame _ ?_
    | with_reducible refine stops_bind ?_ (fun _ => ?_)
    | with_reducible refine emits_bind ?_ (fun _ => ?_)
    | split
    | exact fun _ => ⟨rfl, rfl, rfl⟩)

/-- The body of `AttachDisk` stops at a mount point. -/
theorem stops_attachBody {σ : Type} (h : Host σ) (b : iscsiDiskMounter) :
    StopsWhenMounted (attachBody h b) := by
  simp only [attachBody]
  repeat' (first
    | with_reducible exact stops_pure _
    | with_reducible exact stops_attachTargets _ _ _ _
    | with_reducible exact emits_pure _
    | with_reducible exact emits_index _ _
    | with_reducible refine emits_command _ _ _ _ ?_
    | with_reducible exact emits_mono (emits_cloneIface _ _ _) (fun _ => plain_pre)
    | with_reducible refine stops_bind ?_ (fun _ => ?_)
    | with_reducible refine emits_bind ?_ (fun _ => ?_)
    | split
    | exact fun _ => ⟨rfl, rfl, rfl⟩)

/-- C5: in `AttachDisk`, whenever the mount-point check reports that the target path is
already a mount point (no error, `notMnt = false`), `AttachDisk` returns `("", nil)`, and its
run holds no call of `Mount` or `FormatAndMount` and no call that creates, writes or removes a
file, so neither a mount is made nor the sidecar written. -/
theorem AttachDisk_already_mounted {σ : Type} (h : Host σ) (b : iscsiDiskMounter) (s : Sys σ)
    (hm : ∃ e ∈ (AttachDisk h b s).evs, Mounted e) :
    (AttachDisk h b s).res = .ret ("", none) ∧
      ∀ e ∈ (AttachDisk h b s).evs, isMount e.call = false ∧ isWrite e.call = false :=
  stops_recoverNamed _ _ (stops_attachBody h b) s hm

/-- Witness of C5: the block publish on a host where the target path is already mounted. -/
theorem AttachDisk_already_mounted_witness :
    (AttachDisk (hostWith isMountCheck (.returned ⟨"", [], false, none⟩)) blockMounter
        publishSys).res = .ret ("", none) ∧
      ∀ e ∈ (AttachDisk (hostWith isMountCheck (.returned ⟨"", [], false, none⟩)) blockMounter
        publishSys).evs, isMount e.call = false ∧ isWrite e.call = false :=
  AttachDisk_already_mounted (hostWith isMountCheck (.returned ⟨"", [], false, none⟩))
    blockMounter publishSys
    ⟨⟨.other, .isLikelyNotMountPoint "/target/mount", .returned ⟨"", [], false, none⟩⟩,
      by decide, rfl, _, rfl, rfl, rfl⟩

/-! ## The order of the steps of `AttachDisk` -/

/-- Calls that all have the place `k` are in order. -/
theorem ranks_at {isBlock : Bool} {k : Nat} {evs : List Event}
    (hev : ∀ e ∈ evs, AtStep isBlock k e) : ∀ r ∈ ranks isBlock evs, r = k := by
  intro r hr
  simp only [ranks, List.mem_filterMap] at hr
  obtain ⟨e, he, hre⟩ := hr
  rcases hev e he with h0 | h1
  · rw [h0] at hre; simp at hre
  · rw [h1] at hre; simp at hre; exact hre.symm

/-- A run without calls is in order. -/
theorem inorder_pure {σ α : Type} {isBlock : Bool} {k : Nat} (a : α) :
    InOrder isBlock k (pure a : M σ α) := by
  intro s
  simp [pure_eq, M.pure, ranks]

/-- A part at place `k` followed by a run in order from `k` on is in order from `k` on. -/
theorem inorder_bind {σ α β : Type} {isBlock : Bool} {k : Nat} {m : M σ α} {f : α → M σ β}
    (hm : Emits (AtStep isBlock k) m) (hf : ∀ a, InOrder isBlock k (f a)) :
    InOrder isBlock k (m >>= f) := by
  intro s
  have h1 := ranks_at (hm s)
  rw [bind_eq]
  unfold M.bind
  cases hms : m s with
  | mk r s1 e1 =>
    rw [hms] at h1
    cases r with
    | ret a =>
      obtain ⟨h2, h3⟩ := hf a s1
      simp only [ranks, List.filterMap_append] at h1 h2 h3 ⊢
      refine ⟨?_, ?_⟩
      · rw [List.pairwise_append]
        refine ⟨?_, h2, ?_⟩
        · exact List.pairwise_of_forall_mem_list (fun x hx y hy => by
            rw [h1 x hx, h1 y hy])
        · intro x hx y hy
          rw [h1 x hx]
          exact h3 y hy
      · intro x hx
        rw [List.mem_append] at hx
        rcases hx with hx | hx
        · exact (h1 x hx).ge
        · exact h3 x hx
    | panic v fr =>
      simp only
      refine ⟨?_, fun x hx => (h1 x hx).ge⟩
      exact List.pairwise_of_forall_mem_list (fun x hx y hy => by rw [h1 x hx, h1 y hy])

/-- A run in order from `k + 1` on is in order from `k` on. -/
theorem inorder_bump {σ α : Type} {isBlock : Bool} {k : Nat} {m : M σ α}
    (_hk : k < 8) (hm : InOrder isBlock (k + 1) m) : InOrder isBlock k m := by
  intro s
  obtain ⟨h1, h2⟩ := hm s
  exact ⟨h1, fun r hr => by have := h2 r hr; omega⟩

/-- The deferred call changes no call, so it keeps the order. -/
theorem inorder_recoverNamed {σ α : Type} {isBlock : Bool} {k : Nat}
    {m : M σ (α × Option GoError)} (z : α) (g : Frame → α) (r : String → GoError)
    (hm : InOrder isBlock k m) : InOrder isBlock k (recoverNamed z g r m) := by
  intro s
  have h1 := hm s
  unfold recoverNamed
  cases hms : m s with
  | mk res s1 e1 =>
    rw [hms] at h1
    cases res with
    | ret a => exact h1
    | panic v fr =>
      cases fr with
      | none => exact h1
      | some fr => exact h1

/-- A call labelled with a step that has the place `k` or none is at place `k`. -/
theorem atStep_intro {isBlock : Bool} {k : Nat} {st : Step} {c : Call} {en : Ending}
    (hr : rank isBlock st = none ∨ rank isBlock st = some k) : AtStep isBlock k ⟨st, c, en⟩ := hr

/-- A plain event of a step that has the place `k` or none is at place `k`. -/
theorem plain_at {isBlock : Bool} {k : Nat} {st : Step} {e : Event}
    (hr : rank isBlock st = none ∨ rank isBlock st = some k) (hp : Plain st e) :
    AtStep isBlock k e := by
  unfold AtStep
  rw [hp.1]
  exact hr

/-- Writing the sidecar is at the place of the sidecar. -/
theorem at_createISCSIConfigFile {σ : Type} {isBlock : Bool} {k : Nat} (conf : iscsiDisk)
    (mnt : String) (hr : rank isBlock .sidecar = some k) :
    Emits (AtStep isBlock k) (createISCSIConfigFile conf mnt : M σ (Option GoError)) :=
  emits_mono (emits_createISCSIConfigFile conf mnt) (fun e hp => by
    unfold AtStep
    rw [hp.1]
    exact Or.inr hr)

/-- Block mode runs in order: the mount, then the sidecar. -/
theorem inorder_mountBlock {σ : Type} (h : Host σ) (b : iscsiDiskMounter) (devicePath : String)
    (fr : Frame) : InOrder true 6 (mountBlock h b devicePath fr) := by
  simp only [mountBlock]
  repeat' (first
    | with_reducible exact inorder_pure _
    | (with_reducible refine inorder_bind ?_ (fun _ => ?_)
       · repeat' (first
          | with_reducible exact emits_pure _
          | with_reducible refine emits_call _ _ _ ?_
          | with_reducible refine emits_fsCall _ _ _ _ ?_
          | with_reducible refine at_createISCSIConfigFile _ _ ?_
          | with_reducible refine emits_withFrame _ ?_
          | with_reducible refine emits_bind ?_ (fun _ => ?_)
          | split
          | exact fun _ => atStep_intro (Or.inl rfl)
          | exact fun _ => atStep_intro (Or.inr rfl)
          | exact Or.inl rfl
          | exact Or.inr rfl
          | rfl))
    | split
    | (refine inorder_bump ?_ ?_
       · decide))

/-- File mode runs in order: the sidecar, then the mount. -/
theorem inorder_mountFile {σ : Type} (h : Host σ) (b : iscsiDiskMounter) (devicePath : String)
    (fr : Frame) : InOrder false 6 (mountFile h b devicePath fr) := by
  simp only [mountFile]
  repeat' (first
    | with_reducible exact inorder_pure _
    | (with_reducible refine inorder_bind ?_ (fun _ => ?_)
       · repeat' (first
          | with_reducible exact emits_pure _
          | with_reducible refine emits_call _ _ _ ?_
          | with_reducible refine emits_command _ _ _ _ ?_
          | with_reducible refine emits_fsCall _ _ _ _ ?_
          | with_reducible refine at_createISCSIConfigFile _ _ ?_
          | with_reducible refine emits_withFrame _ ?_
          | with_reducible refine emits_bind ?_ (fun _ => ?_)
          | split
          | exact fun _ => atStep_intro (Or.inl rfl)
          | exact fun _ => atStep_intro (Or.inr rfl)
          | exact Or.inl rfl
          | exact Or.inr rfl
          | rfl))
    | split
    | (refine inorder_bump ?_ ?_
       · decide))

/-- Setting the multipath device of a mounter leaves its mode as it is. -/
theorem isBlock_setMpath (b : iscsiDiskMounter) (mapped : String) :
    (if mapped ≠ "" then { b with disk := { b.disk with MpathDevice := mapped } }
      else b).disk.isBlock = b.disk.isBlock := by
  split <;> rfl

/-- The mount part of `AttachDisk` runs in order. -/
theorem inorder_attachMount {σ : Type} (h : Host σ) (b : iscsiDiskMounter)
    (devicePaths : List String) : InOrder b.disk.isBlock 5 (attachMount h b devicePaths) := by
  simp only [attachMount, isBlock_setMpath]
  refine inorder_bind (emits_index _ _) (fun _ => ?_)
  refine inorder_bind (emits_withFrame _ (emits_call _ _ _ (fun _ => atStep_intro (Or.inl rfl))))
    (fun _ => ?_)
  split
  · exact inorder_pure _
  split
  · exact inorder_pure _
  refine inorder_bump (by decide) ?_
  refine inorder_bind (emits_withFrame _ (emits_mono (emits_resolveLoop _ _)
    (fun _ => plain_at (Or.inr rfl)))) (fun _ => ?_)
  split
  · rename_i hc
    rw [hc]
    exact inorder_mountBlock _ _ _ _
  · rename_i hc
    rw [Bool.not_eq_true] at hc
    rw [hc]
    exact inorder_mountFile _ _ _ _

/-- The wait for the device paths and what follows it run in order. -/
theorem inorder_attachPaths {σ : Type} (h : Host σ) (b : iscsiDiskMounter)
    (iscsiTransport : String) (lastErr : Option GoError) :
    InOrder b.disk.isBlock 5 (attachPaths h b iscsiTransport lastErr) := by
  simp only [attachPaths]
  refine inorder_bind (emits_mono (emits_pathLoop _ _ _ _ _ _) (fun _ => plain_at (Or.inr rfl)))
    (fun _ => ?_)
  split
  · exact inorder_pure _
  · exact inorder_attachMount _ _ _

/-- Discovery, CHAP update, login, rescan and what follows them run in order. -/
theorem inorder_attachTargets {σ : Type} (h : Host σ) (b : iscsiDiskMounter)
    (iscsiTransport out : String) :
    InOrder b.disk.isBlock 1 (attachTargets h b iscsiTransport out) := by
  simp only [attachTargets]
  repeat' (first
    | with_reducible exact inorder_pure _
    | with_reducible exact inorder_attachPaths _ _ _ _
    | (with_reducible refine inorder_bind ?_ (fun _ => ?_)
       · repeat' (first
          | with_reducible exact emits_pure _
          | with_reducible exact emits_index _ _
          | with_reducible refine emits_command _ _ _ _ ?_
          | with_reducible refine emits_mono (emits_chapLoop _ _ _ _ _) (fun _ => plain_at ?_)
          | with_reducible refine emits_mono (emits_rescanDeviceMap _ _ _) (fun _ => plain_at ?_)
          | with_reducible refine emits_withFrame _ ?_
          | with_reducible refine emits_bind ?_ (fun _ => ?_)
          | split
          | exact fun _ => atStep_intro (Or.inr rfl)
          | exact Or.inr rfl))
    | split
    | (refine inorder_bump ?_ ?_
       · decide))

/-- The same for a mounter whose mode is given by an equation. -/
theorem inorder_attachTargets_of {σ : Type} (h : Host σ) (b : iscsiDiskMounter)
    (iscsiTransport out : String) (isBlock : Bool) (hb : b.disk.isBlock = isBlock) :
    InOrder isBlock 1 (attachTargets h b iscsiTransport out) :=
  hb ▸ inorder_attachTargets h b iscsiTransport out

/-- The body of `AttachDisk` runs in order. -/
theorem inorder_attachBody {σ : Type} (h : Host σ) (b : iscsiDiskMounter) :
    InOrder b.disk.isBlock 1 (attachBody h b) := by
  simp only [attachBody]
  repeat' (first
    | with_reducible exact inorder_pure _
    | exact inorder_attachTargets_of _ _ _ _ _ rfl
    | (with_reducible refine inorder_bind ?_ (fun _ => ?_)
       · repeat' (first
          | with_reducible exact emits_pure _
          | with_reducible exact emits_index _ _
          | with_reducible refine emits_command _ _ _ _ ?_
          | with_reducible refine emits_mono (emits_cloneIface _ _ _) (fun _ => plain_at ?_)
          | with_reducible refine emits_bind ?_ (fun _ => ?_)
          | split
          | exact fun _ => atStep_intro (Or.inl rfl)
          | exact Or.inl rfl))
    | split)

/-! ## The calls of each step of `AttachDisk` -/

/-- Writing the sidecar only makes calls of the sidecar write. -/
theorem fits_createISCSIConfigFile {σ : Type} (conf : iscsiDisk) (mnt : String) :
    Emits Fits (createISCSIConfigFile conf mnt : M σ (Option GoError)) := by
  simp only [createISCSIConfigFile]
  repeat' (first
    | exact emits_pure _
    | exact emits_fsCall _ _ _ _ (fun _ => rfl)
    | refine emits_bind ?_ (fun _ => ?_)
    | split)

/-- In block mode every call is one of its step. -/
theorem fits_mountBlock {σ : Type} (h : Host σ) (b : iscsiDiskMounter) (devicePath : String)
    (fr : Frame) : Emits Fits (mountBlock h b devicePath fr) := by
  simp only [mountBlock]
  repeat' (first
    | with_reducible exact emits_pure _
    | with_reducible exact fits_createISCSIConfigFile _ _
    | with_reducible refine emits_call _ _ _ ?_
    | with_reducible refine emits_fsCall _ _ _ _ ?_
    | with_reducible refine emits_withFrame _ ?_
    | with_reducible refine emits_bind ?_ (fun _ => ?_)
    | split
    | exact fun _ => rfl)

/-- In file mode every call is one of its step. -/
theorem fits_mountFile {σ : Type} (h : Host σ) (b : iscsiDiskMounter) (devicePath : String)
    (fr : Frame) : Emits Fits (mountFile h b devicePath fr) := by
  simp only [mountFile]
  repeat' (first
    | with_reducible exact emits_pure _
    | with_reducible exact fits_createISCSIConfigFile _ _
    | with_reducible refine emits_call _ _ _ ?_
    | with_reducible refine emits_command _ _ _ _ ?_
    | with_reducible refine emits_fsCall _ _ _ _ ?_
    | with_reducible refine emits_withFrame _ ?_
    | with_reducible refine emits_bind ?_ (fun _ => ?_)
    | split
    | exact fun _ => rfl)

/-- In the mount part of `AttachDisk` every call is one of its step. -/
theorem fits_attachMount {σ : Type} (h : Host σ) (b : iscsiDiskMounter)
    (devicePaths : List String) : Emits Fits (attachMount h b devicePaths) := by
  simp only [attachMount]
  repeat' (first
    | with_reducible exact emits_pure _
    | with_reducible exact emits_index _ _
    | with_reducible exact fits_mountBlock _ _ _ _
    | with_reducible exact fits_mountFile _ _ _ _
    | with_reducible exact emits_mono (emits_resolveLoop _ _) (fun _ => plain_fits)
    | with_reducible refine emits_call _ _ _ ?_
    | with_reducible refine emits_withFrame _ ?_
    | with_reducible refine emits_bind ?_ (fun _ => ?_)
    | split
    | exact fun _ => rfl)

/-- In the wait for the device paths and after it every call is one of its step. -/
theorem fits_attachPaths {σ : Type} (h : Host σ) (b : iscsiDiskMounter)
    (iscsiTransport : String) (lastErr : Option GoError) :
    Emits Fits (attachPaths h b iscsiTransport lastErr) := by
  simp only [attachPaths]
  repeat' (first
    | with_reducible exact emits_pure _
    | with_reducible exact fits_attachMount _ _ _
    | with_reducible exact emits_mono (emits_pathLoop _ _ _ _ _ _) (fun _ => plain_fits)
    | with_reducible refine emits_bind ?_ (fun _ => ?_)
    | split)

/-- From the discovery on every call is one of its step. -/
theorem fits_attachTargets {σ : Type} (h : Host σ) (b : iscsiDiskMounter)
    (iscsiTransport out : String) : Emits Fits (attachTargets h b iscsiTransport out) := by
  simp only [attachTargets]
  repeat' (first
    | with_reducible exact emits_pure _
    | with_reducible exact emits_index _ _
    | with_reducible exact fits_attachPaths _ _ _ _
    | with_reducible exact emits_mono (emits_chapLoop _ _ _ _ _) (fun _ => plain_fits)
    | with_reducible exact emits_mono (emits_rescanDeviceMap _ _ _) (fun _ => plain_fits)
    | with_reducible refine emits_command _ _ _ _ ?_
    | with_reducible refine emits_withFrame _ ?_
    | with_reducible refine emits_bind ?_ (fun _ => ?_)
    | split
    | exact fun _ => rfl)

/-- In the body of `AttachDisk` every call is one of its step. -/
theorem fits_attachBody {σ : Type} (h : Host σ) (b : iscsiDiskMounter) :
    Emits Fits (attachBody h b) := by
  simp only [attachBody]
  repeat' (first
    | with_reducible exact emits_pure _
    | with_reducible exact emits_index _ _
    | with_reducible exact fits_attachTargets _ _ _ _
    | with_reducible refine emits_command _ _ _ _ ?_
    | with_reducible refine emits_bind ?_ (fun _ => ?_)
    | split
    | with_reducible exact emits_mono (emits_cloneIface _ _ _) (fun _ => plain_fits)
    | exact fun _ => rfl)


/-- C8 (amended): in every `AttachDisk` execution the steps occur in the order discovery, CHAP
node update, login, rescan, device-path wait, multipath resolution and then, in block mode,
mount before sidecar write, in file mode, sidecar write before mount: listed in the order of
the trace, the places of the calls never decrease, and every call is one of the step it is
counted to (the `iscsiadm` command of that step, `Mount` or `FormatAndMount` for the mount,
creating and encoding the file for the sidecar). -/
theorem AttachDisk_order {σ : Type} (h : Host σ) (b : iscsiDiskMounter) (s : Sys σ) :
    (ranks b.disk.isBlock (AttachDisk h b s).evs).Pairwise (fun x y => x ≤ y) ∧
      ∀ e ∈ (AttachDisk h b s).evs, fits e.step e.call = true :=
  ⟨(inorder_recoverNamed _ _ _ (inorder_attachBody h b) s).1,
    emits_recoverNamed _ _ _ (fits_attachBody h b) s⟩

/-! ## Mutual CHAP without the outbound credentials -/

/-- A recovered run never ends in a panic. -/
theorem recoverZero_ret {σ α : Type} (z : α) (m : M σ α) (s : Sys σ) :
    ∃ a, (recoverZero z m s).res = .ret a := by
  unfold recoverZero
  cases hms : m s with
  | mk r s1 e1 =>
    cases r with
    | ret a => exact ⟨a, rfl⟩
    | panic v fr => exact ⟨z, rfl⟩

/-- The first piece of a split exists. -/
theorem index_split_zero {σ : Type} (str sep : String) (hsep : sep.data ≠ []) :
    ∃ x, (index (strSplit str sep) 0 : M σ String) = pure x := by
  unfold strSplit splitChars
  have hne := splitLoop_ne_nil sep.data str.data 0 []
  rw [if_neg (by simpa using hsep)]
  cases hsp : splitLoop sep.data 0 str.data [] with
  | nil => exact absurd hsp hne
  | cons x xs => exact ⟨String.mk x, by simp [index, pure_eq]⟩

/-- With both inbound credentials and without one of the outbound ones, `parseSessionSecret`
fails for `mutual_chap`. -/
theorem parseSessionSecret_mutual (secrets : GoMap)
    (hu : (GoMap.get? secrets "node.session.auth.username").isSome = true)
    (hp : (GoMap.get? secrets "node.session.auth.password").isSome = true)
    (hin : GoMap.get? secrets "node.session.auth.username_in" = none ∨
      GoMap.get? secrets "node.session.auth.password_in" = none) :
    ∃ e, (parseSessionSecret "mutual_chap" secrets).2 = some e := by
  have hne : secrets.isEmpty = false := by
    cases secrets with
    | nil => simp [GoMap.get?] at hu
    | cons x xs => rfl
  unfold parseSessionSecret
  simp only [hne, takeSecret, hu, hp]
  by_cases h3 : (GoMap.get? secrets "node.session.auth.username_in").isSome = true
  · have h4 : GoMap.get? secrets "node.session.auth.password_in" = none := by
      rcases hin with h | h
      · rw [h] at h3; simp at h3
      · exact h
    simp [h3, h4]
  · simp [h3]

/-- With `mutual_chap` and the outbound credentials incomplete, `getISCSIDisk` returns an
error and makes no call but those of `getInitiatorName`. -/
theorem getISCSIDisk_mutual {σ : Type} (h : Host σ) (req : NodePublishVolumeRequest) (s : Sys σ)
    (hchap : GoMap.get req.VolumeContext "useCHAP" = "mutual_chap")
    (hu : (GoMap.get? req.Secrets "node.session.auth.username").isSome = true)
    (hp : (GoMap.get? req.Secrets "node.session.auth.password").isSome = true)
    (hin : GoMap.get? req.Secrets "node.session.auth.username_in" = none ∨
      GoMap.get? req.Secrets "node.session.auth.password_in" = none) :
    (∃ e, (getISCSIDisk h req s).res = .ret (none, some e)) ∧
      (getISCSIDisk h req s).evs = (getInitiatorName h s).evs := by
  obtain ⟨e, he⟩ := parseSessionSecret_mutual req.Secrets hu hp hin
  obtain ⟨name, hname⟩ := recoverZero_ret "" _ s
  obtain ⟨vol, hvol⟩ := index_split_zero (σ := σ) req.VolumeId "$$" (by decide)
  have hname2 : (getInitiatorName h s).res = .ret name := hname
  simp only [getISCSIDisk, hvol, hchap]
  unfold recoverZero
  rw [bind_eq]
  unfold M.bind
  cases hgi : getInitiatorName h s with
  | mk r s1 e1 =>
    rw [hgi] at hname2
    simp only at hname2
    subst hname2
    have hd : decide ("mutual_chap" ≠ "none") = true := by decide
    simp only [bind_eq, pure_eq, M.bind, M.pure, hd]
    split_ifs <;> simp [he, M.pure]

/-- C10 (amended): for every `NodePublishVolume` request with `useCHAP = "mutual_chap"` whose
secrets hold `node.session.auth.username` and `node.session.auth.password` but lack
`node.session.auth.username_in` or `node.session.auth.password_in`, the only calls made are
`helper.CheckMultipath` and the shell command with which `getInitiatorName` reads the
initiator name, so no `iscsiadm`, `multipath` or `mkdir` command is run and discovery is never
started; and when `helper.CheckMultipath` returns without a panic, the call returns an
`Internal` error. -/
theorem mutual_chap_publish_fails {σ : Type} (h : Host σ) (req : NodePublishVolumeRequest)
    (s : Sys σ)
    (hchap : GoMap.get req.VolumeContext "useCHAP" = "mutual_chap")
    (hu : (GoMap.get? req.Secrets "node.session.auth.username").isSome = true)
    (hp : (GoMap.get? req.Secrets "node.session.auth.password").isSome = true)
    (hin : GoMap.get? req.Secrets "node.session.auth.username_in" = none ∨
      GoMap.get? req.Secrets "node.session.auth.password_in" = none) :
    (∀ e ∈ (NodePublishVolume h req s).evs,
        e.call = .checkMultipath ∨ e.call = .exec "bash" ["-c", initiatorCmd]) ∧
      ((∀ v, (h .checkMultipath s).1 ≠ .panicked v) →
        ∃ msg, (NodePublishVolume h req s).res = .ret (none, some (.status .Internal msg))) := by
  unfold NodePublishVolume recoverZero
  rw [bind_eq]
  unfold M.bind call
  cases hh : h .checkMultipath s with
  | mk en s1 =>
    cases en with
    | panicked v =>
      refine ⟨?_, fun hnp => absurd rfl (hnp v)⟩
      intro e he
      simp at he
      subst he
      exact Or.inl rfl
    | returned r =>
      obtain ⟨⟨err, herr⟩, hevs⟩ := getISCSIDisk_mutual h req s1 hchap hu hp hin
      have hbash := emits_getInitiatorName h s1
      simp only [bind_eq, M.bind]
      cases hg : getISCSIDisk h req s1 with
      | mk gr gs ge =>
        rw [hg] at herr hevs
        simp only at herr hevs
        subst herr
        simp only [pure_eq, M.pure, List.append_nil]
        refine ⟨?_, fun _ => ⟨_, rfl⟩⟩
        intro e he
        simp only [List.mem_append, List.mem_singleton] at he
        rcases he with he | he
        · subst he; exact Or.inl rfl
        · rw [hevs] at he
          exact Or.inr (hbash e he)

/-- Witness of C10 at the example request, on the example host. -/
theorem mutual_chap_publish_fails_witness :
    (∀ e ∈ (NodePublishVolume demoHost mutualReq publishSys).evs,
        e.call = .checkMultipath ∨ e.call = .exec "bash" ["-c", initiatorCmd]) ∧
      ((∀ v, (demoHost .checkMultipath publishSys).1 ≠ .panicked v) →
        ∃ msg, (NodePublishVolume demoHost mutualReq publishSys).res
          = .ret (none, some (.status .Internal msg))) :=
  mutual_chap_publish_fails demoHost mutualReq publishSys (by decide) (by decide) (by decide)
    (Or.inl (by decide))

/-! ## Volume sizes -/

/-- The gibibyte has 1073741824 bytes. -/
theorem bytesofGiB_eq : bytesofGiB = 1073741824 := by decide

/-- On natural sizes the division of Go is the floor division. -/
theorem tdiv_bytesofGiB (n : Int) (hn : 0 ≤ n) : Int.tdiv n bytesofGiB = n / 1073741824 := by
  rw [bytesofGiB_eq]
  exact Int.tdiv_eq_ediv hn (by decide)

/-- A whole number of gibibytes below `2 ^ 63` bytes does not wrap around. -/
theorem wrap64_GiB (g : Int) (h0 : 0 ≤ g) (h1 : g * 1073741824 < 2 ^ 63) :
    wrap64 (g * bytesofGiB) = g * 1073741824 := by
  rw [bytesofGiB_eq]
  unfold wrap64
  omega

/-- C16: for every capacity range with `0 ≤ RequiredBytes < 1 GiB` and `LimitBytes` either 0 or
at least 1 GiB, `verifyVolumeSize` returns exactly 1 GiB (1073741824 bytes) and no error. -/
theorem verifyVolumeSize_min (c : CapacityRange) (h0 : 0 ≤ c.RequiredBytes)
    (h1 : c.RequiredBytes < 1073741824) (hl : c.LimitBytes = 0 ∨ 1073741824 ≤ c.LimitBytes) :
    verifyVolumeSize (some c) = (1073741824, none) := by
  have hw : wrap64 (1 * bytesofGiB) = 1073741824 := by decide
  have hneg : ¬(c.RequiredBytes < 0 ∨ c.LimitBytes < 0) := by omega
  have hlim : ¬(c.LimitBytes ≠ 0 ∧ (1073741824 : Int) > c.LimitBytes) := by omega
  have key : (if Int.tdiv (if c.RequiredBytes = 0 then MinVolumeSize else c.RequiredBytes)
        bytesofGiB = 0 then 1
      else Int.tdiv (if c.RequiredBytes = 0 then MinVolumeSize else c.RequiredBytes)
        bytesofGiB) = 1 := by
    by_cases hz : c.RequiredBytes = 0
    · rw [if_pos hz]
      decide
    · rw [if_neg hz, tdiv_bytesofGiB _ h0, if_pos (by omega)]
  unfold verifyVolumeSize
  simp only [GetRequiredBytes, GetLimitBytes]
  rw [if_neg hneg, key, hw, if_neg hlim]

/-- Witness of C16: a request for no particular size, without a limit. -/
theorem verifyVolumeSize_min_witness :
    (0 : Int) ≤ 0 ∧ verifyVolumeSize (some ⟨0, 0⟩) = (1073741824, none) :=
  ⟨by decide, verifyVolumeSize_min ⟨0, 0⟩ (by decide) (by decide) (Or.inl rfl)⟩

/-- The claim C17 fails for a request of one and a half gibibytes under a limit of 1.2 GiB: the
size is rounded down to 1 GiB, which the limit allows. -/
theorem verifyVolumeSize_limit_counterexample :
    ¬ ∀ c : CapacityRange, 0 < c.LimitBytes → c.LimitBytes < c.RequiredBytes →
      verifyVolumeSize (some c) = (0, some (.plain "volume size is out of allowed limit")) := by
  intro h
  exact absurd (h ⟨1610612736, 1288490188⟩ (by decide) (by decide)) (by decide)

/-- C17 (amended): for every capacity range with `LimitBytes > 0` and
`RequiredBytes > LimitBytes`, `verifyVolumeSize` returns the error
`volume size is out of allowed limit` and size 0 exactly when the whole gibibytes of the
request, `RequiredBytes` rounded down to a multiple of 1 GiB, exceed `LimitBytes`, or
`LimitBytes` is below 1 GiB; otherwise it returns `RequiredBytes` rounded down to a multiple
of 1 GiB and no error. -/
theorem verifyVolumeSize_limit (c : CapacityRange) (hr : isInt64 c.RequiredBytes)
    (hl : 0 < c.LimitBytes) (hlr : c.LimitBytes < c.RequiredBytes) :
    (verifyVolumeSize (some c) = (0, some (.plain "volume size is out of allowed limit")) ↔
        (c.LimitBytes < c.RequiredBytes / 1073741824 * 1073741824 ∨
          c.LimitBytes < 1073741824)) ∧
      (¬(c.LimitBytes < c.RequiredBytes / 1073741824 * 1073741824 ∨
          c.LimitBytes < 1073741824) →
        verifyVolumeSize (some c) = (c.RequiredBytes / 1073741824 * 1073741824, none)) := by
  have hw : wrap64 (1 * bytesofGiB) = 1073741824 := by decide
  have hr2 : c.RequiredBytes < 2 ^ 63 := hr.2
  have hneg : ¬(c.RequiredBytes < 0 ∨ c.LimitBytes < 0) := by omega
  have hz : ¬c.RequiredBytes = 0 := by omega
  unfold verifyVolumeSize
  simp only [GetRequiredBytes, GetLimitBytes]
  rw [if_neg hneg, if_neg hz, tdiv_bytesofGiB _ (by omega)]
  by_cases hd : c.RequiredBytes / 1073741824 = 0
  · rw [if_pos hd, hw]
    by_cases hlim : c.LimitBytes < 1073741824
    · rw [if_pos ⟨by omega, by omega⟩]
      exact ⟨⟨fun _ => Or.inr hlim, fun _ => rfl⟩, fun hc => absurd (Or.inr hlim) hc⟩
    · exfalso
      omega
  · rw [if_neg hd, wrap64_GiB _ (by omega) (by omega)]
    by_cases hlim : c.LimitBytes < c.RequiredBytes / 1073741824 * 1073741824
    · rw [if_pos ⟨by omega, by omega⟩]
      exact ⟨⟨fun _ => Or.inl hlim, fun _ => rfl⟩, fun hc => absurd (Or.inl hlim) hc⟩
    · rw [if_neg (by omega)]
      exact ⟨⟨fun hc => by simp at hc, fun hc => by omega⟩, fun _ => rfl⟩

/-- Witness of C17: the request of 512 GiB under a limit of 256 GiB, which fails, and the
request of one and a half gibibytes under a limit of 1.2 GiB, which is rounded down. -/
theorem verifyVolumeSize_limit_witness :
    (0 : Int) < 274877906944 ∧
      verifyVolumeSize (some ⟨549755813888, 274877906944⟩)
        = (0, some (.plain "volume size is out of allowed limit")) ∧
      verifyVolumeSize (some ⟨1610612736, 1288490188⟩)
        = ((1610612736 : Int) / 1073741824 * 1073741824, none) :=
  ⟨by decide,
    (verifyVolumeSize_limit ⟨549755813888, 274877906944⟩ (by decide) (by decide)
      (by decide)).1.mpr (Or.inl (by decide)),
    (verifyVolumeSize_limit ⟨1610612736, 1288490188⟩ (by decide) (by decide) (by decide)).2
      (by decide)⟩

/-! ## The disk built from a publish request -/

/-- Whatever the host does, `getISCSIDisk` returns what its checks decide, with the initiator
name `getInitiatorName` returned and the first piece of the volume handle. -/
theorem getISCSIDisk_run {σ : Type} (h : Host σ) (req : NodePublishVolumeRequest) (s : Sys σ) :
    ∃ name vol, (getISCSIDisk h req s).res = .ret
      (if GoMap.get req.VolumeContext "iqn" = "" then
        (none, some (.plain "iscsi: target iqn is missing"))
      else if (strSplit (GoMap.get req.VolumeContext "portals") ",").length = 0 then
        (none, some (.plain "iscsi: target portals list is missing"))
      else if GoMap.get req.PublishContext "lun" = "" then
        (none, some (.plain "iscsi: LUN is missing"))
      else
        match (if decide (GoMap.get req.VolumeContext "useCHAP" ≠ "none") = true then
            parseSessionSecret (GoMap.get req.VolumeContext "useCHAP") req.Secrets
          else (req.Secrets, none)).2 with
        | some err => (none, some err)
        | none =>
          (some ⟨(strSplit (GoMap.get req.VolumeContext "portals") ",").map portalMounter,
            GoMap.get req.VolumeContext "iqn", GoMap.get req.PublishContext "lun", "default",
            decide (GoMap.get req.VolumeContext "discoveryCHAPAuth" = "true"),
            decide (GoMap.get req.VolumeContext "useCHAP" ≠ "none"),
            (if decide (GoMap.get req.VolumeContext "useCHAP" ≠ "none") = true then
              parseSessionSecret (GoMap.get req.VolumeContext "useCHAP") req.Secrets
            else (req.Secrets, none)).1, name, vol, false, ""⟩, none)) ∧
      (getISCSIDisk h req s).evs = (getInitiatorName h s).evs ∧
      (getInitiatorName h s).res = .ret name := by
  obtain ⟨name, hname⟩ := recoverZero_ret "" _ s
  obtain ⟨vol, hvol⟩ := index_split_zero (σ := σ) req.VolumeId "$$" (by decide)
  have hname2 : (getInitiatorName h s).res = .ret name := hname
  refine ⟨name, vol, ?_⟩
  simp only [getISCSIDisk, hvol]
  unfold recoverZero
  rw [bind_eq]
  unfold M.bind
  cases hgi : getInitiatorName h s with
  | mk r s1 e1 =>
    rw [hgi] at hname2
    simp only at hname2
    subst hname2
    simp only [bind_eq, pure_eq, M.bind, M.pure]
    split_ifs <;>
      cases hp : (parseSessionSecret (GoMap.get req.VolumeContext "useCHAP") req.Secrets).2 <;>
      simp [hp, M.pure]

/-! ## Splitting at a single character -/

/-- Joining a piece and at least one more piece. -/
theorem intercalate_cons_cons (sep x y : List Char) (ys : List (List Char)) :
    sep.intercalate (x :: y :: ys) = x ++ sep ++ sep.intercalate (y :: ys) := by
  simp [List.intercalate, List.intersperse]

/-- The pieces of a split at a single character, joined by it, give back the string, and no
piece holds the character. -/
theorem splitLoop_single (c0 : Char) : ∀ (cs cur : List Char), c0 ∉ cur →
    [c0].intercalate (splitLoop [c0] 0 cs cur) = cur.reverse ++ cs ∧
      ∀ p ∈ splitLoop [c0] 0 cs cur, c0 ∉ p := by
  intro cs
  induction cs with
  | nil =>
    intro cur hcur
    simp [splitLoop, List.intercalate, hcur]
  | cons c cs ih =>
    intro cur hcur
    by_cases hc : c0 = c
    · subst hc
      have hp : [c0].isPrefixOf (c0 :: cs) = true := by simp [List.isPrefixOf]
      obtain ⟨h1, h2⟩ := ih [] (by simp)
      have hne := splitLoop_ne_nil [c0] cs 0 []
      rw [splitLoop, if_pos hp]
      simp only [List.length_singleton, Nat.sub_self]
      cases hsp : splitLoop [c0] 0 cs [] with
      | nil => exact absurd hsp hne
      | cons y ys =>
        rw [hsp] at h1 h2
        rw [intercalate_cons_cons, h1]
        refine ⟨by simp, ?_⟩
        intro p hp2
        rcases List.mem_cons.mp hp2 with hp3 | hp3
        · subst hp3
          simpa using hcur
        · exact h2 p hp3
    · have hp : ¬[c0].isPrefixOf (c :: cs) = true := by simp [List.isPrefixOf, hc]
      rw [splitLoop, if_neg hp]
      obtain ⟨h1, h2⟩ := ih (c :: cur) (by simp [hc, hcur])
      exact ⟨by rw [h1]; simp, h2⟩

/-- The characters of strings joined by a separator. -/
theorem intercalate_go_data (sep : String) : ∀ (xs : List String) (acc : String),
    (String.intercalate.go acc sep xs).data
      = acc.data ++ (xs.map fun x => sep.data ++ x.data).flatten := by
  intro xs
  induction xs with
  | nil => intro acc; simp [String.intercalate.go]
  | cons x xs ih => intro acc; simp [String.intercalate.go, ih]

/-- The function `String.intercalate` on the characters. -/
theorem intercalate_data (sep : String) (xs : List String) :
    (String.intercalate sep xs).data = sep.data.intercalate (xs.map String.data) := by
  cases xs with
  | nil => rfl
  | cons x xs =>
    simp only [String.intercalate, intercalate_go_data]
    induction xs generalizing x with
    | nil => simp [List.intercalate]
    | cons y ys ih =>
      have h1 := ih y
      simp only [List.map_cons] at h1
      simp only [List.map_cons, intercalate_cons_cons, List.flatten_cons, ← h1]
      simp

/-- The pieces of `strings.Split` at a single character, joined by it, give back the string,
and no piece holds the character. -/
theorem strSplit_single (str : String) (c0 : Char) :
    String.intercalate (String.mk [c0]) (strSplit str (String.mk [c0])) = str ∧
      ∀ p ∈ strSplit str (String.mk [c0]), c0 ∉ p.data := by
  obtain ⟨h1, h2⟩ := splitLoop_single c0 str.data [] (by simp)
  have hs : strSplit str (String.mk [c0]) = (splitLoop [c0] 0 str.data []).map String.mk := by
    simp [strSplit, splitChars]
  refine ⟨?_, ?_⟩
  · apply String.ext
    rw [intercalate_data, hs]
    simpa [List.map_map, Function.comp_def] using h1
  · intro p hp
    rw [hs] at hp
    obtain ⟨q, hq, rfl⟩ := List.mem_map.mp hp
    exact h2 q hq

/-- A split at a non-empty separator has at least one piece. -/
theorem strSplit_ne_nil (str sep : String) (hsep : sep.data ≠ []) : strSplit str sep ≠ [] := by
  unfold strSplit splitChars
  rw [if_neg (by simpa using hsep)]
  simpa using splitLoop_ne_nil sep.data str.data 0 []

/-- The empty string splits into one empty piece. -/
theorem strSplit_empty (sep : String) (hsep : sep.data ≠ []) : strSplit "" sep = [""] := by
  unfold strSplit splitChars
  rw [if_neg (by simpa using hsep)]
  rfl

/-- A string contains a one-character string exactly when it holds the character. -/
theorem containsChars_single (c0 : Char) (cs : List Char) :
    containsChars cs [c0] = true ↔ c0 ∈ cs := by
  induction cs with
  | nil => simp [containsChars]
  | cons c cs ih =>
    simp only [containsChars, Bool.or_eq_true, ih, List.mem_cons]
    simp [List.isPrefixOf]

/-- The errors of `parseSessionSecret` are about the secrets, not the portals. -/
theorem parseSessionSecret_err (useChap : String) (secretParams : GoMap) (e : GoError)
    (h : (parseSessionSecret useChap secretParams).2 = some e) :
    e ≠ .plain "iscsi: target portals list is missing" := by
  unfold parseSessionSecret at h
  simp only [takeSecret] at h
  split_ifs at h <;> simp at h <;> subst h <;> decide

/-- C11: for a publish request whose volume context has no `portals` entry, or an empty one,
`getISCSIDisk` never returns the error `iscsi: target portals list is missing`: splitting the
empty string gives one empty piece, so the length check never fires. With an IQN, a LUN and no
CHAP the request yields a disk whose only portal is `:3260`, and no error. -/
theorem getISCSIDisk_no_portals {σ : Type} (h : Host σ) (req : NodePublishVolumeRequest)
    (s : Sys σ) (hportals : GoMap.get req.VolumeContext "portals" = "") :
    (getISCSIDisk h req s).res
        ≠ .ret (none, some (.plain "iscsi: target portals list is missing")) ∧
      (GoMap.get req.VolumeContext "iqn" ≠ "" → GoMap.get req.PublishContext "lun" ≠ "" →
        GoMap.get req.VolumeContext "useCHAP" = "none" →
        ∃ d, (getISCSIDisk h req s).res = .ret (some d, none) ∧ d.Portals = [":3260"]) := by
  obtain ⟨name, vol, hres, -, -⟩ := getISCSIDisk_run h req s
  have hsp : strSplit "" "," = [""] := strSplit_empty "," (by decide)
  rw [hres, hportals, hsp]
  refine ⟨?_, ?_⟩
  · split_ifs with h1 h2 h3 h4
    · simp
    · simp at h2
    · simp
    · cases hp : (parseSessionSecret (GoMap.get req.VolumeContext "useCHAP") req.Secrets).2 with
      | none => simp
      | some e => simpa using parseSessionSecret_err _ _ e hp
    · simp
  · intro hiqn hlun hchap
    rw [if_neg hiqn, if_neg (by simp), if_neg hlun, hchap]
    exact ⟨_, rfl, rfl⟩

/-- Witness of C11: the request without portals on the example host. -/
theorem getISCSIDisk_no_portals_witness :
    GoMap.get noPortalsReq.VolumeContext "portals" = "" ∧
      (getISCSIDisk demoHost noPortalsReq publishSys).res
        = .ret (some ⟨[":3260"], "iqn.x", "0", "default", false, false, [], "iqn.host", "93",
          false, ""⟩, none) ∧
      (getISCSIDisk demoHost noPortalsReq publishSys).res
        ≠ .ret (none, some (.plain "iscsi: target portals list is missing")) :=
  ⟨by decide, by decide,
    (getISCSIDisk_no_portals demoHost noPortalsReq publishSys (by decide)).1⟩

/-- Without an IQN or without a LUN, `getISCSIDisk` returns a plain error and no disk. -/
theorem getISCSIDisk_missing {σ : Type} (h : Host σ) (req : NodePublishVolumeRequest)
    (s : Sys σ)
    (hmiss : GoMap.get req.VolumeContext "iqn" = "" ∨ GoMap.get req.PublishContext "lun" = "") :
    ∃ msg, (getISCSIDisk h req s).res = .ret (none, some (.plain msg)) := by
  obtain ⟨name, vol, hres, -, -⟩ := getISCSIDisk_run h req s
  have hne : ¬(strSplit (GoMap.get req.VolumeContext "portals") ",").length = 0 := by
    simpa using strSplit_ne_nil (GoMap.get req.VolumeContext "portals") "," (by decide)
  rw [hres]
  by_cases hiqn : GoMap.get req.VolumeContext "iqn" = ""
  · rw [if_pos hiqn]
    exact ⟨_, rfl⟩
  · have hlun : GoMap.get req.PublishContext "lun" = "" := hmiss.resolve_left hiqn
    rw [if_neg hiqn, if_neg hne, if_pos hlun]
    exact ⟨_, rfl⟩

/-- C12: for every publish request with a missing or empty `iqn` in the volume context, or a
missing or empty `lun` in the publish context, `NodePublishVolume` returns no response, and
the status code of the error it returns is never `InvalidArgument`: it is `Internal` whenever
`helper.CheckMultipath` returns, because line 217 wraps every error of `getISCSIDisk` with
`codes.Internal`. -/
theorem publish_missing_iqn_lun {σ : Type} (h : Host σ) (req : NodePublishVolumeRequest)
    (s : Sys σ)
    (hmiss : GoMap.get req.VolumeContext "iqn" = "" ∨ GoMap.get req.PublishContext "lun" = "") :
    ∃ err, (NodePublishVolume h req s).res = .ret (none, err) ∧
      statusCode err ≠ .InvalidArgument ∧
      ((∀ v, (h .checkMultipath s).1 ≠ .panicked v) → statusCode err = .Internal) := by
  unfold NodePublishVolume recoverZero
  rw [bind_eq]
  unfold M.bind call
  cases hh : h .checkMultipath s with
  | mk en s1 =>
    cases en with
    | panicked v => exact ⟨none, rfl, by decide, fun hnp => absurd rfl (hnp v)⟩
    | returned r =>
      obtain ⟨msg, hmsg⟩ := getISCSIDisk_missing h req s1 hmiss
      simp only [bind_eq, M.bind]
      cases hg : getISCSIDisk h req s1 with
      | mk gr gs ge =>
        rw [hg] at hmsg
        simp only at hmsg
        subst hmsg
        simp only [pure_eq, M.pure]
        exact ⟨_, rfl, by simp [statusCode], fun _ => rfl⟩

/-- Witness of C12: the request without an IQN on the example host. -/
theorem publish_missing_iqn_lun_witness :
    GoMap.get noIqnReq.VolumeContext "iqn" = "" ∧
      (NodePublishVolume demoHost noIqnReq publishSys).res
        = .ret (none, some (.status .Internal "iscsi: target iqn is missing")) ∧
      ∃ err, (NodePublishVolume demoHost noIqnReq publishSys).res = .ret (none, err) ∧
        statusCode err ≠ .InvalidArgument ∧
        ((∀ v, (demoHost .checkMultipath publishSys).1 ≠ .panicked v) →
          statusCode err = .Internal) :=
  ⟨by decide, by decide, publish_missing_iqn_lun demoHost noIqnReq publishSys (Or.inl (by decide))⟩

/-- C18: `portalMounter` returns a portal that holds `:` unchanged and appends `:3260` to one
that does not; and in every run of `getISCSIDisk` there is a list of items that, joined by
commas, is the `portals` string, none of them holding a comma, such that the portals of any
disk returned are these items, in this order, each passed through `portalMounter`. A request
with an IQN, a LUN and no CHAP does return a disk. -/
theorem getISCSIDisk_portals {σ : Type} (h : Host σ) (req : NodePublishVolumeRequest)
    (s : Sys σ) :
    (∀ p : String, portalMounter p = if ':' ∈ p.data then p else p ++ ":3260") ∧
      ∃ items : List String,
        String.intercalate "," items = GoMap.get req.VolumeContext "portals" ∧
        (∀ p ∈ items, ',' ∉ p.data) ∧
        (∀ d, (getISCSIDisk h req s).res = .ret (some d, none) →
          d.Portals = items.map portalMounter) ∧
        (GoMap.get req.VolumeContext "iqn" ≠ "" → GoMap.get req.PublishContext "lun" ≠ "" →
          GoMap.get req.VolumeContext "useCHAP" = "none" →
          ∃ d, (getISCSIDisk h req s).res = .ret (some d, none)) := by
  obtain ⟨name, vol, hres, -, -⟩ := getISCSIDisk_run h req s
  obtain ⟨hjoin, hcomma⟩ := strSplit_single (GoMap.get req.VolumeContext "portals") ','
  have hne : ¬(strSplit (GoMap.get req.VolumeContext "portals") ",").length = 0 := by
    simpa using strSplit_ne_nil (GoMap.get req.VolumeContext "portals") "," (by decide)
  refine ⟨?_, strSplit (GoMap.get req.VolumeContext "portals") ",", hjoin, hcomma, ?_, ?_⟩
  · intro p
    have hc := containsChars_single ':' p.data
    unfold portalMounter strContains
    by_cases hp : ':' ∈ p.data
    · rw [if_pos hp, if_neg (by simpa using hc.mpr hp)]
    · rw [if_neg hp, if_pos (by simpa using fun hx => hp (hc.mp hx))]
  · intro d hd
    rw [hres] at hd
    split_ifs at hd
    · simp at hd
    · simp at hd
    · cases hp : (parseSessionSecret (GoMap.get req.VolumeContext "useCHAP") req.Secrets).2 with
      | some e =>
        rw [hp] at hd
        simp at hd
      | none =>
        rw [hp] at hd
        simp only [Res.ret.injEq, Prod.mk.injEq, Option.some.injEq, and_true] at hd
        rw [← hd]
    · simp only [Res.ret.injEq, Prod.mk.injEq, Option.some.injEq, and_true] at hd
      rw [← hd]
  · intro hiqn hlun hchap
    rw [hres, if_neg hiqn, if_neg hne, if_neg hlun, hchap]
    exact ⟨_, rfl⟩

/-- Witness of C18: the portals `10.0.0.1,10.0.0.2` on the example host. -/
theorem getISCSIDisk_portals_witness :
    (∃ d, (getISCSIDisk demoHost twoPortalsReq publishSys).res = .ret (some d, none) ∧
        d.Portals = ["10.0.0.1:3260", "10.0.0.2:3260"]) ∧
      portalMounter "10.0.0.1:860" = "10.0.0.1:860" ∧
      ∀ p : String, portalMounter p = if ':' ∈ p.data then p else p ++ ":3260" :=
  ⟨⟨⟨["10.0.0.1:3260", "10.0.0.2:3260"], "iqn.x", "0", "default", false, false, [], "iqn.host",
    "93", false, ""⟩, by decide, rfl⟩, by decide,
    (getISCSIDisk_portals demoHost twoPortalsReq publishSys).1⟩

/-! ## The file-system type of a mounter -/

/-- C20: for every publish request with a mount (file) capability, which excludes a block
capability, and every disk, `getISCSIDiskMounter` returns a mounter whose `fsType` is the
capability's `FsType` when that is non-empty, otherwise the value of the deprecated `fstype`
key of the volume context when the key is present, and returns no mounter and an
`InvalidArgument` error when the capability's `FsType` is empty and the key is absent. -/
theorem getISCSIDiskMounter_fsType {σ : Type} (req : NodePublishVolumeRequest) (d : iscsiDisk)
    (s : Sys σ) (fsType : String) (mountFlags : List String) (mode : Option AccessMode)
    (hcap : req.VolumeCapability = some ⟨.mount fsType mountFlags, mode⟩) :
    (fsType ≠ "" →
        ∃ b, (getISCSIDiskMounter (some d) req s).res = .ret (some b, none) ∧
          b.fsType = fsType) ∧
      (fsType = "" → ∀ v, GoMap.get? req.VolumeContext "fstype" = some v →
        ∃ b, (getISCSIDiskMounter (some d) req s).res = .ret (some b, none) ∧ b.fsType = v) ∧
      (fsType = "" → GoMap.get? req.VolumeContext "fstype" = none →
        ∃ msg, (getISCSIDiskMounter (some d) req s).res
          = .ret (none, some (.status .InvalidArgument msg))) := by
  unfold getISCSIDiskMounter
  simp only [hcap]
  refine ⟨fun hf => ?_, fun hf v hv => ?_, fun hf hv => ?_⟩
  · rw [if_pos hf]
    exact ⟨_, rfl, rfl⟩
  · rw [if_neg (by simpa using hf), if_neg (by simp [hv]), hv]
    exact ⟨_, rfl, rfl⟩
  · rw [if_neg (by simpa using hf), if_pos (by simp [hv])]
    exact ⟨_, rfl⟩

/-- Witness of C20: the file request with `xfs` and the disk of the example. -/
theorem getISCSIDiskMounter_fsType_witness :
    (publishReq (.mount "xfs" []) false).VolumeCapability
        = some ⟨.mount "xfs" [], some .SINGLE_NODE_WRITER⟩ ∧
      ∃ b, (getISCSIDiskMounter (some demoDisk) (publishReq (.mount "xfs" []) false)
          publishSys).res = .ret (some b, none) ∧ b.fsType = "xfs" :=
  ⟨rfl, (getISCSIDiskMounter_fsType (publishReq (.mount "xfs" []) false) demoDisk publishSys
    "xfs" [] (some .SINGLE_NODE_WRITER) rfl).1 (by decide)⟩

/-! ## The device-path wait -/

/-- The loop of the wait with `left` iterations to go makes at most `left` probes and fewer
sleeps, and when every probe shows the path as absent it makes exactly `left` probes and
returns false. -/
theorem waitLoop_attempts {σ : Type} (h : Host σ) (deviceTransport : String) :
    ∀ (left : Nat) (devicePath : String) (s : Sys σ),
      ((waitLoop h deviceTransport left devicePath s).evs.countP fun e => isProbe e.call) ≤ left ∧
      ((waitLoop h deviceTransport left devicePath s).evs.countP fun e => isSleep e.call)
        ≤ left - 1 ∧
      ((∀ e ∈ (waitLoop h deviceTransport left devicePath s).evs, absent e = true) →
        ((waitLoop h deviceTransport left devicePath s).evs.countP fun e => isProbe e.call)
          = left ∧
        ∃ p, (waitLoop h deviceTransport left devicePath s).res = .ret (false, p)) := by
  intro left
  induction left with
  | zero =>
    intro devicePath s
    simp [waitLoop, pure_eq, M.pure]
  | succ left ih =>
    intro devicePath s
    simp only [waitLoop]
    by_cases htcp : deviceTransport = "tcp"
    · simp only [if_pos htcp, bind_eq, pure_eq, M.bind, M.pure, fsCall]
      split_ifs with h1 h2 h3
      · simp [M.pure, List.countP_cons, isProbe, isSleep, absent, h1, isNotExist]
      · simp only [Bool.not_eq_true'] at h2
        simp [M.pure, List.countP_cons, isProbe, isSleep, absent, h2]
      · simp [M.pure, List.countP_cons, isProbe, isSleep, absent, h3]
      · simp only [Bool.not_eq_true', Bool.not_eq_false] at h2
        simp only [M.bind, call]
        cases hsl : h .sleep ⟨s.ext, s.fs⟩ with
        | mk en s1 =>
          cases en with
          | panicked v =>
            simp [List.countP_cons, isProbe, isSleep, absent]
            omega
          | returned r =>
            obtain ⟨i1, i2, i3⟩ := ih devicePath s1
            have p1 : isProbe (.osStat devicePath) = true := rfl
            have p2 : isSleep (.osStat devicePath) = false := rfl
            have p3 : isProbe .sleep = false := rfl
            have p4 : isSleep .sleep = true := rfl
            simp only [List.countP_cons, List.countP_append, List.countP_nil, p1, p2, p3, p4,
              List.append_nil, List.singleton_append, List.cons_append, List.nil_append,
              if_true, Bool.false_eq_true, if_false]
            refine ⟨by omega, by omega, fun hall => ?_⟩
            obtain ⟨j1, j2⟩ := i3 (fun e he => hall e (by simp [he]))
            exact ⟨by omega, j2⟩
    · simp only [if_neg htcp, bind_eq, pure_eq, M.bind, M.pure, call]
      cases hgl : h (.glob devicePath) s with
      | mk en s0 =>
        cases en with
        | panicked v => simp [List.countP_cons, isProbe, isSleep, absent]
        | returned r0 =>
          cases hn : r0.names with
          | cons first rest => simp [hn, M.pure, List.countP_cons, isProbe, isSleep, absent]
          | nil =>
            simp only [hn, M.pure, isNotExist]
            rw [if_neg (by simp), if_neg (by simp)]
            by_cases h3 : left = 0
            · simp [h3, M.pure, List.countP_cons, isProbe, isSleep, absent, hn]
            · rw [if_neg h3]
              simp only [M.bind, call]
              cases hsl : h .sleep s0 with
              | mk en s1 =>
                cases en with
                | panicked v =>
                  simp [List.countP_cons, isProbe, isSleep, absent]
                  omega
                | returned r =>
                  obtain ⟨i1, i2, i3⟩ := ih devicePath s1
                  have p1 : isProbe (.glob devicePath) = true := rfl
                  have p2 : isSleep (.glob devicePath) = false := rfl
                  have p3 : isProbe .sleep = false := rfl
                  have p4 : isSleep .sleep = true := rfl
                  simp only [List.countP_cons, List.countP_append, List.countP_nil, p1, p2, p3,
                    p4, List.append_nil, List.singleton_append, List.cons_append,
                    List.nil_append, if_true, Bool.false_eq_true, if_false]
                  refine ⟨by omega, by omega, fun hall => ?_⟩
                  obtain ⟨j1, j2⟩ := i3 (fun e he => hall e (by simp [he]))
                  exact ⟨by omega, j2⟩

/-- C19: for every `maxRetries ≥ 1` and every behaviour of the node, the wait for a device
path makes at most `maxRetries` probes (calls of `os.Stat` or of the glob) and at most
`maxRetries - 1` sleeps; and when the path never appears, every probe reporting that it does
not exist and every sleep returning, it makes exactly `maxRetries` probes and returns
false. -/
theorem waitForPathToExist_attempts {σ : Type} (h : Host σ) (devicePath : String)
    (maxRetries : Nat) (deviceTransport : String) (s : Sys σ) (hmax : 1 ≤ maxRetries) :
    ((waitForPathToExist h devicePath maxRetries deviceTransport s).evs.countP
        fun e => isProbe e.call) ≤ maxRetries ∧
      ((waitForPathToExist h devicePath maxRetries deviceTransport s).evs.countP
        fun e => isSleep e.call) + 1 ≤ maxRetries ∧
      ((∀ e ∈ (waitForPathToExist h devicePath maxRetries deviceTransport s).evs,
          absent e = true) →
        ((waitForPathToExist h devicePath maxRetries deviceTransport s).evs.countP
          fun e => isProbe e.call) = maxRetries ∧
        ∃ p, (waitForPathToExist h devicePath maxRetries deviceTransport s).res
          = .ret (false, p)) := by
  unfold waitForPathToExist
  obtain ⟨h1, h2, h3⟩ := waitLoop_attempts h deviceTransport maxRetries devicePath s
  exact ⟨h1, by omega, h3⟩

/-- Witness of C19: ten attempts for a path that is not there, on the example host. -/
theorem waitForPathToExist_attempts_witness :
    (1 ≤ 10) ∧
      (∀ e ∈ (waitForPathToExist demoHost "/host/dev/disk/by-path/none" 10 "tcp" demoSys).evs,
        absent e = true) ∧
      ((waitForPathToExist demoHost "/host/dev/disk/by-path/none" 10 "tcp" demoSys).evs.countP
        fun e => isProbe e.call) = 10 ∧
      ((waitForPathToExist demoHost "/host/dev/disk/by-path/none" 10 "tcp" demoSys).evs.countP
        fun e => isSleep e.call) = 9 ∧
      (waitForPathToExist demoHost "/host/dev/disk/by-path/none" 10 "tcp" demoSys).res
        = .ret (false, "/host/dev/disk/by-path/none") ∧
      ((waitForPathToExist demoHost "/host/dev/disk/by-path/none" 10 "tcp" demoSys).evs.countP
        fun e => isProbe e.call) ≤ 10 :=
  ⟨by decide, by decide, by decide, by decide, by decide,
    (waitForPathToExist_attempts demoHost "/host/dev/disk/by-path/none" 10 "tcp" demoSys
      (by decide)).1⟩

/-! ## The credentials of a stage -/

/-- The credential part of `NodeStageVolume` passes the credentials of the mode. -/
theorem emits_stageChap {σ : Type} (h : Host σ) (hostID : Int)
    (hostSecurity useChap : String) (secrets : GoMap) :
    Emits (PassesCreds useChap secrets) (stageChap h hostID hostSecurity useChap secrets) := by
  unfold stageChap
  simp only []
  repeat' (first
    | exact emits_pure _
    | refine emits_bind ?_ (fun _ => ?_)
    | refine emits_call _ _ _ ?_
    | split)
  · rename_i hnone _ c1 h1 _ c2 h2 hlen
    intro en id creds hc
    simp only [Call.addChapSecurityForHost.injEq] at hc
    obtain ⟨-, rfl⟩ := hc
    refine ⟨fun hu => absurd hu hnone, fun hu => ?_, fun hu => ?_⟩
    · subst hu
      simp [GoMap.set] at h1 h2
      rw [← h2, ← h1.2]
    · subst hu
      simp [GoMap.set] at h1
      obtain ⟨-, rfl⟩ := h1
      simp [GoMap.set, GoMap.get, GoMap.get?] at h2
      rw [← h2.2]
      rfl
  · rename_i hnone _
    intro en id creds hc
    simp only [Call.addChapSecurityForHost.injEq] at hc
    obtain ⟨-, rfl⟩ := hc
    simp only [ne_eq, not_not] at hnone
    subst hnone
    exact ⟨fun _ => rfl, fun hu => absurd hu (by decide), fun hu => absurd hu (by decide)⟩

/-- C13: whenever `NodeStageVolume` calls `AddChapSecurityForHost`, the credential map it
passes is `security_method = NONE` alone when `useCHAP` is `none`; the inbound user name and
secret, taken from `node.session.auth.username` and `node.session.auth.password` of the
secrets, with `security_method = CHAP` when `useCHAP` is `chap`; and these two with
`security_method = MUTUAL_CHAP` and the outbound user name and secret, taken from
`node.session.auth.username_in` and `node.session.auth.password_in`, when `useCHAP` is
`mutual_chap`. -/
theorem stage_chap_credentials {σ : Type} (h : Host σ) (req : NodeStageVolumeRequest)
    (s : Sys σ) (e : Event) (he : e ∈ (NodeStageVolume h req s).evs) (hostID : Int)
    (creds : GoMap) (hc : e.call = .addChapSecurityForHost hostID creds) :
    (GoMap.get req.VolumeContext "useCHAP" = "none" → creds = [("security_method", "NONE")]) ∧
      (GoMap.get req.VolumeContext "useCHAP" = "chap" → creds =
        [("security_chap_inbound_username", GoMap.get req.Secrets "node.session.auth.username"),
          ("security_chap_inbound_secret", GoMap.get req.Secrets "node.session.auth.password"),
          ("security_method", "CHAP")]) ∧
      (GoMap.get req.VolumeContext "useCHAP" = "mutual_chap" → creds =
        [("security_chap_inbound_username", GoMap.get req.Secrets "node.session.auth.username"),
          ("security_chap_inbound_secret", GoMap.get req.Secrets "node.session.auth.password"),
          ("security_method", "MUTUAL_CHAP"),
          ("security_chap_outbound_username",
            GoMap.get req.Secrets "node.session.auth.username_in"),
          ("security_chap_outbound_secret",
            GoMap.get req.Secrets "node.session.auth.password_in")]) := by
  have hall : Emits (PassesCreds (GoMap.get req.VolumeContext "useCHAP") req.Secrets)
      (NodeStageVolume h req) := by
    simp only [NodeStageVolume]
    repeat' (first
      | exact emits_pure _
      | exact emits_stageChap _ _ _ _ _
      | exact emits_mono (emits_getInitiatorName _) (fun _ hx _ _ hy => by rw [hx] at hy; cases hy)
      | refine emits_recoverZero _ ?_
      | refine emits_bind ?_ (fun _ => ?_)
      | refine emits_call _ _ _ (fun _ _ _ hy => by cases hy)
      | split)
  exact hall s e he hostID creds hc

/-! ## Results of runs -/

/-- A run without calls returns its value. -/
theorem yields_pure {σ α : Type} {R : α → Prop} {B : Event → Prop} (a : α) (hR : R a) :
    Yields R B (pure a : M σ α) := by
  intro s
  simpa [pure_eq, M.pure] using hR

/-- Sequencing: the second part runs on a value of the first. -/
theorem yields_bind {σ α β : Type} {R1 : α → Prop} {R : β → Prop} {B : Event → Prop}
    {m : M σ α} {f : α → M σ β} (hm : Yields R1 B m) (hf : ∀ a, R1 a → Yields R B (f a)) :
    Yields R B (m >>= f) := by
  intro s
  have h1 := hm s
  rw [bind_eq]
  unfold M.bind
  cases hms : m s with
  | mk r s1 e1 =>
    rw [hms] at h1
    cases r with
    | ret a =>
      have h2 := hf a h1 s1
      simp only at h2 ⊢
      cases hfs : (f a s1).res with
      | ret b =>
        rw [hfs] at h2
        exact h2
      | panic v fr =>
        rw [hfs] at h2
        obtain ⟨e, he, hb⟩ := h2
        exact ⟨e, List.mem_append_right _ he, hb⟩
    | panic v fr => exact h1

/-- A call of the host returns, or it is a call that panicked. -/
theorem yields_call {σ : Type} {B : Event → Prop} (h : Host σ) (step : Step) (c : Call)
    (hB : ∀ v, B ⟨step, c, .panicked v⟩) : Yields (fun _ => True) B (call h step c) := by
  intro s
  unfold call
  cases hh : h c s with
  | mk en s1 =>
    cases en with
    | returned r => trivial
    | panicked v => exact ⟨_, List.mem_singleton.mpr rfl, hB v⟩

/-- A function with a deferred recover returns. -/
theorem yields_recoverZero {σ α : Type} {B : Event → Prop} (z : α) (m : M σ α) :
    Yields (fun _ => True) B (recoverZero z m) := by
  intro s
  obtain ⟨a, ha⟩ := recoverZero_ret z m s
  rw [ha]
  trivial

/-- The calls of a function with a deferred recover are those of its body. -/
theorem recoverZero_evs {σ α : Type} (z : α) (m : M σ α) (s : Sys σ) :
    (recoverZero z m s).evs = (m s).evs := by
  unfold recoverZero
  cases hms : m s with
  | mk r s1 e1 => cases r <;> rfl

/-- A function with a deferred recover returns what its body returns. -/
theorem recoverZero_res {σ α : Type} (z : α) (m : M σ α) (s : Sys σ) (a : α)
    (ha : (m s).res = .ret a) : (recoverZero z m s).res = .ret a := by
  unfold recoverZero
  cases hms : m s with
  | mk r s1 e1 =>
    rw [hms] at ha
    simp only at ha
    subst ha
    rfl

/-- Sequencing after a part whose value does not matter. -/
theorem yields_seq {σ α β : Type} {R : β → Prop} {B : Event → Prop} {m : M σ α}
    {f : α → M σ β} (hm : Yields (fun _ => True) B m) (hf : ∀ a, Yields R B (f a)) :
    Yields R B (m >>= f) :=
  yields_bind hm (fun a _ => hf a)

/-- A handler with a deferred recover whose body yields `R`, in a run without a call with
`B`, returns a value with `R`. -/
theorem recoverZero_yields {σ α : Type} {R : α → Prop} {B : Event → Prop} (z : α) (m : M σ α)
    (s : Sys σ) (hy : Yields R B m) (hnp : ∀ e ∈ (recoverZero z m s).evs, ¬B e) :
    ∃ a, (recoverZero z m s).res = .ret a ∧ R a := by
  have h1 := hy s
  rw [recoverZero_evs] at hnp
  cases hms : (m s).res with
  | ret a =>
    rw [hms] at h1
    exact ⟨a, recoverZero_res z m s a hms, h1⟩
  | panic v fr =>
    rw [hms] at h1
    obtain ⟨e, he, hb⟩ := h1
    exact absurd hb (hnp e he)

/-- A handler with a deferred recover whose body yields an `Internal` error, in a run without
a call with `B`, returns an `Internal` error. -/
theorem recoverZero_internal {σ α : Type} (B : Event → Prop)
    (m : M σ (Option α × Option GoError)) (s : Sys σ)
    (hy : Yields (fun a => ∃ msg, a = (none, some (.status .Internal msg))) B m)
    (hnp : ∀ e ∈ (recoverZero (none, none) m s).evs, ¬B e) :
    ∃ msg, (recoverZero (none, none) m s).res = .ret (none, some (.status .Internal msg)) := by
  obtain ⟨a, ha, msg, rfl⟩ := recoverZero_yields (none, none) m s hy hnp
  exact ⟨msg, ha⟩

/-! ## Staging without the credentials, or without a host -/

/-- Without the credentials of its mode, the credential part of `NodeStageVolume` returns the
error, and calls nothing. -/
theorem stageChap_missing {σ : Type} (h : Host σ) (hostID : Int)
    (hostSecurity useChap : String) (secrets : GoMap)
    (hmiss : (useChap = "chap" ∧ (GoMap.get secrets "node.session.auth.username" = "" ∨
        GoMap.get secrets "node.session.auth.password" = "")) ∨
      (useChap = "mutual_chap" ∧ (GoMap.get secrets "node.session.auth.username" = "" ∨
        GoMap.get secrets "node.session.auth.password" = "" ∨
        GoMap.get secrets "node.session.auth.username_in" = "" ∨
        GoMap.get secrets "node.session.auth.password_in" = ""))) :
    stageChap h hostID hostSecurity useChap secrets
      = pure (none, some (.status .Internal "iscsi: Mutual chap credentials not provided")) := by
  unfold stageChap
  rcases hmiss with ⟨rfl, hm⟩ | ⟨rfl, hm⟩
  · have hc : ¬(GoMap.get secrets "node.session.auth.username" ≠ "" ∧
        GoMap.get secrets "node.session.auth.password" ≠ "") := by
      rcases hm with hm | hm <;> simp [hm]
    simp only [if_neg hc]
    simp
  · by_cases hc : GoMap.get secrets "node.session.auth.username" ≠ "" ∧
        GoMap.get secrets "node.session.auth.password" ≠ ""
    · have hin : GoMap.get secrets "node.session.auth.username_in" = "" ∨
          GoMap.get secrets "node.session.auth.password_in" = "" := by
        rcases hm with hm | hm | hm | hm
        · exact absurd hm hc.1
        · exact absurd hm hc.2
        · exact Or.inl hm
        · exact Or.inr hm
      simp only [if_pos hc]
      rcases hin with hin | hin <;> simp [hin]
    · simp only [if_neg hc]
      simp

/-- Missing credentials fail the stage, apart from a panic of the host: for every
`NodeStageVolume` request in which the security method of the array, lower-cased, differs from
the requested `useCHAP`, if `useCHAP` is `chap` and `node.session.auth.username` or
`node.session.auth.password` is missing or empty, or `useCHAP` is `mutual_chap` and any of the
four `node.session.auth` values is missing or empty, then `AddChapSecurityForHost` is never
called, and in every run in which neither `helper.CheckMultipath` nor `AddPortForHost` panics
the call returns an `Internal` error, whatever the host id and the initiator name are. -/
theorem stage_missing_credentials {σ : Type} (h : Host σ) (req : NodeStageVolumeRequest)
    (s : Sys σ)
    (hdiff : strToLower (GoMap.get req.PublishContext "securityMethod")
      ≠ GoMap.get req.VolumeContext "useCHAP")
    (hmiss : (GoMap.get req.VolumeContext "useCHAP" = "chap" ∧
        (GoMap.get req.Secrets "node.session.auth.username" = "" ∨
          GoMap.get req.Secrets "node.session.auth.password" = "")) ∨
      (GoMap.get req.VolumeContext "useCHAP" = "mutual_chap" ∧
        (GoMap.get req.Secrets "node.session.auth.username" = "" ∨
          GoMap.get req.Secrets "node.session.auth.password" = "" ∨
          GoMap.get req.Secrets "node.session.auth.username_in" = "" ∨
          GoMap.get req.Secrets "node.session.auth.password_in" = ""))) :
    (∀ e ∈ (NodeStageVolume h req s).evs, isAddChap e.call = false) ∧
      ((∀ e ∈ (NodeStageVolume h req s).evs,
          e.call = .checkMultipath ∨ isAddPort e.call = true → panicked e = false) →
        ∃ msg, (NodeStageVolume h req s).res = .ret (none, some (.status .Internal msg))) := by
  refine ⟨?_, fun hnp => ?_⟩
  · have hall : Emits (fun e => isAddChap e.call = false) (NodeStageVolume h req) := by
      simp only [NodeStageVolume]
      repeat' (first
        | exact emits_pure _
        | (rw [stageChap_missing _ _ _ _ _ hmiss]
           exact emits_pure _)
        | exact emits_mono (emits_getInitiatorName _) (fun _ hx => by rw [hx]; rfl)
        | refine emits_recoverZero _ ?_
        | refine emits_bind ?_ (fun _ => ?_)
        | exact emits_call _ _ _ (fun _ => rfl)
        | split)
    exact hall s
  · simp only [NodeStageVolume] at hnp ⊢
    refine recoverZero_internal
      (fun e => (e.call = .checkMultipath ∨ isAddPort e.call = true) ∧ panicked e = true) _ s ?_
      (fun e he hb => by simpa [hb.2] using hnp e he hb.1)
    repeat' (first
      | exact yields_pure _ trivial
      | exact yields_pure _ ⟨_, rfl⟩
      | (rw [stageChap_missing _ _ _ _ _ hmiss]
         exact yields_pure _ ⟨_, rfl⟩)
      | exact yields_recoverZero _ _
      | exact yields_call _ _ _ (fun _ => ⟨Or.inl rfl, rfl⟩)
      | exact yields_call _ _ _ (fun _ => ⟨Or.inr rfl, rfl⟩)
      | (rename_i hx
         exact absurd (Or.inl hdiff) hx)
      | refine yields_seq ?_ (fun _ => ?_)
      | split)

/-- The request for CHAP without credentials, on the example host, is an instance. -/
theorem stage_missing_credentials_witness :
    strToLower (GoMap.get bareChapStageReq.PublishContext "securityMethod")
        ≠ GoMap.get bareChapStageReq.VolumeContext "useCHAP" ∧
      (NodeStageVolume demoHost bareChapStageReq demoSys).res = .ret (none,
        some (.status .Internal "iscsi: Mutual chap credentials not provided")) ∧
      ∀ e ∈ (NodeStageVolume demoHost bareChapStageReq demoSys).evs, isAddChap e.call = false :=
  ⟨by decide, by decide,
    (stage_missing_credentials demoHost bareChapStageReq demoSys (by decide)
      (Or.inl ⟨by decide, Or.inl (by decide)⟩)).1⟩

/-- An invalid host id fails the stage, apart from a panic of the host: for every
`NodeStageVolume` request whose publish-context `hostID` does not parse as an integer, or
parses to an integer less than or equal to 0, the only call made is `helper.CheckMultipath`,
so the array client is called neither for `AddPortForHost` nor for `AddChapSecurityForHost`;
and in every run in which `helper.CheckMultipath` does not panic the call returns an error,
with the code `Internal`. -/
theorem stage_invalid_host {σ : Type} (h : Host σ) (req : NodeStageVolumeRequest) (s : Sys σ)
    (hbad : ∀ n, atoi (GoMap.get req.PublishContext "hostID") = .ok n → n ≤ 0) :
    (∀ e ∈ (NodeStageVolume h req s).evs,
        e.call = .checkMultipath ∧ isAddPort e.call = false ∧ isAddChap e.call = false) ∧
      ((∀ e ∈ (NodeStageVolume h req s).evs, panicked e = false) →
        ∃ msg, (NodeStageVolume h req s).res = .ret (none, some (.status .Internal msg))) := by
  refine ⟨?_, fun hnp => ?_⟩
  · have hall : Emits (fun e => e.call = .checkMultipath ∧ isAddPort e.call = false ∧
        isAddChap e.call = false) (NodeStageVolume h req) := by
      simp only [NodeStageVolume]
      repeat' (first
        | exact emits_pure _
        | refine emits_recoverZero _ ?_
        | exact emits_call _ _ .checkMultipath (fun _ => ⟨rfl, rfl, rfl⟩)
        | (rename_i hx hy
           exact absurd (hbad _ hx) (by omega))
        | refine emits_bind ?_ (fun _ => ?_)
        | split)
    exact hall s
  · simp only [NodeStageVolume] at hnp ⊢
    refine recoverZero_internal (fun e => panicked e = true) _ s ?_
      (fun e he hb => by simpa [hb] using hnp e he)
    repeat' (first
      | exact yields_pure _ trivial
      | exact yields_pure _ ⟨_, rfl⟩
      | exact yields_call _ _ .checkMultipath (fun _ => rfl)
      | (rename_i hx hy
         exact absurd (hbad _ hx) (by omega))
      | refine yields_seq ?_ (fun _ => ?_)
      | split)

/-- The host id `one`, on the example host, is an instance. -/
theorem stage_invalid_host_witness :
    (∀ n, atoi (GoMap.get badHostStageReq.PublishContext "hostID") = .ok n → n ≤ 0) ∧
      (NodeStageVolume demoHost badHostStageReq demoSys).res = .ret (none,
        some (.status .Internal ("hostID string 'one' is not valid host ID: "
          ++ "strconv.Atoi: parsing \"one\": invalid syntax"))) ∧
      ∀ e ∈ (NodeStageVolume demoHost badHostStageReq demoSys).evs,
        e.call = .checkMultipath ∧ isAddPort e.call = false ∧ isAddChap e.call = false :=
  ⟨fun _ hn => Except.noConfusion hn, by decide,
    (stage_invalid_host demoHost badHostStageReq demoSys
      (fun _ hn => Except.noConfusion hn)).1⟩

/-- C14: the stage request of host 1 that asks for CHAP and brings no credentials, while the
array holds the host with the security method `NONE`. On the example host `NodeStageVolume`
returns the `Internal` error of the missing credentials and never calls
`AddChapSecurityForHost`; on a host whose array client panics in `AddPortForHost`, with the
same host id and the same readable initiator name, it calls `AddPortForHost`, never calls
`AddChapSecurityForHost`, and returns a nil response and a nil error, not an `Internal` error:
the deferred call recovers the panic, but the results of the handler are unnamed. -/
theorem stage_missing_credentials_panic :
    strToLower (GoMap.get bareChapStageReq.PublishContext "securityMethod")
        ≠ GoMap.get bareChapStageReq.VolumeContext "useCHAP" ∧
      GoMap.get bareChapStageReq.VolumeContext "useCHAP" = "chap" ∧
      GoMap.get bareChapStageReq.Secrets "node.session.auth.username" = "" ∧
      atoi (GoMap.get bareChapStageReq.PublishContext "hostID") = .ok 1 ∧
      (NodeStageVolume demoHost bareChapStageReq demoSys).res = .ret (none,
        some (.status .Internal "iscsi: Mutual chap credentials not provided")) ∧
      (NodeStageVolume (hostWith isAddPort (.panicked "nil pointer")) bareChapStageReq
          demoSys).res = .ret (none, none) ∧
      (∃ e ∈ (NodeStageVolume (hostWith isAddPort (.panicked "nil pointer")) bareChapStageReq
          demoSys).evs, isAddPort e.call = true ∧ panicked e = true) ∧
      (∀ e ∈ (NodeStageVolume (hostWith isAddPort (.panicked "nil pointer")) bareChapStageReq
          demoSys).evs, isAddChap e.call = false) := by
  refine ⟨by decide, by decide, by decide, rfl, by decide, by decide, by decide, by decide⟩

/-- C15: the stage request whose host id is `one`. On the example host `NodeStageVolume`
returns the `Internal` error of the host id; on a host whose `helper.CheckMultipath` panics
the only call made is `helper.CheckMultipath`, so no array-client call is made, but the handler
returns a nil response and a nil error, not an error: the deferred call recovers the panic,
but the results of the handler are unnamed. -/
theorem stage_invalid_host_panic :
    (∀ n, atoi (GoMap.get badHostStageReq.PublishContext "hostID") = .ok n → n ≤ 0) ∧
      (NodeStageVolume demoHost badHostStageReq demoSys).res = .ret (none,
        some (.status .Internal ("hostID string 'one' is not valid host ID: "
          ++ "strconv.Atoi: parsing \"one\": invalid syntax"))) ∧
      (NodeStageVolume (hostWith isCheckMultipath (.panicked "nil pointer")) badHostStageReq
          demoSys).res = .ret (none, none) ∧
      (∀ e ∈ (NodeStageVolume (hostWith isCheckMultipath (.panicked "nil pointer"))
          badHostStageReq demoSys).evs,
        e.call = .checkMultipath ∧ panicked e = true ∧ isAddPort e.call = false ∧
          isAddChap e.call = false) :=
  ⟨fun _ hn => Except.noConfusion hn, by decide, by decide, by decide⟩

/-- Witness of C13: the request for CHAP with both credentials, on the example host; the
requests without CHAP and with mutual CHAP pass their maps as well. -/
theorem stage_chap_credentials_witness :
    (⟨.other, .addChapSecurityForHost 1 [("security_method", "NONE")],
        .returned ⟨"", [], false, none⟩⟩ : Event)
        ∈ (NodeStageVolume demoHost noneStageReq demoSys).evs ∧
      (⟨.other, .addChapSecurityForHost 1 [("security_chap_inbound_username", "u"),
          ("security_chap_inbound_secret", "p"), ("security_method", "MUTUAL_CHAP"),
          ("security_chap_outbound_username", "v"), ("security_chap_outbound_secret", "q")],
        .returned ⟨"", [], false, none⟩⟩ : Event)
        ∈ (NodeStageVolume demoHost mutualStageReq demoSys).evs ∧
      (⟨.other, .addChapSecurityForHost 1 [("security_chap_inbound_username", "u"),
          ("security_chap_inbound_secret", "p"), ("security_method", "CHAP")],
        .returned ⟨"", [], false, none⟩⟩ : Event)
        ∈ (NodeStageVolume demoHost chapStageReq demoSys).evs ∧
      (GoMap.get chapStageReq.VolumeContext "useCHAP" = "chap" →
        ([("security_chap_inbound_username", "u"), ("security_chap_inbound_secret", "p"),
          ("security_method", "CHAP")] : GoMap) =
        [("security_chap_inbound_username",
            GoMap.get chapStageReq.Secrets "node.session.auth.username"),
          ("security_chap_inbound_secret",
            GoMap.get chapStageReq.Secrets "node.session.auth.password"),
          ("security_method", "CHAP")]) :=
  ⟨by decide, by decide, by decide, (stage_chap_credentials demoHost chapStageReq demoSys
    ⟨.other, .addChapSecurityForHost 1 [("security_chap_inbound_username", "u"),
      ("security_chap_inbound_secret", "p"), ("security_method", "CHAP")],
      .returned ⟨"", [], false, none⟩⟩ (by decide) 1 _ rfl).2.1⟩

/-! ## Capabilities of a volume -/

/-- The loop of `validateCapabilities` fails exactly on a capability without an access mode or
when both kinds of capability are seen, before or in the list. -/
theorem capabilitiesLoop_error (caps : List (Option VolumeCapability)) :
    ∀ isBlock isFile : Bool, capabilitiesLoop caps isBlock isFile ≠ none ↔
      ((∃ c ∈ caps, GetAccessMode c = none) ∨
        ((isBlock = true ∨ ∃ c ∈ caps, hasBlock c = true) ∧
          (isFile = true ∨ ∃ c ∈ caps, hasMount c = true))) := by
  induction caps with
  | nil =>
    intro isBlock isFile
    cases isBlock <;> cases isFile <;> simp [capabilitiesLoop]
  | cons c rest ih =>
    intro isBlock isFile
    unfold capabilitiesLoop
    cases hm : GetAccessMode c with
    | none => simp [hm]
    | some mode =>
      simp only [ih, List.mem_cons, exists_eq_or_imp, hm]
      cases hb : hasBlock c <;> cases hf : hasMount c <;> cases isBlock <;> cases isFile <;> simp

/-- C22: `validateCapabilities` returns an error exactly when the capability list is nil, or
some capability in it has no access mode, or the list holds both a block capability and a
mount (file) capability; for every other list it returns nil. -/
theorem validateCapabilities_error (capabilities : Option (List (Option VolumeCapability))) :
    validateCapabilities capabilities ≠ none ↔
      (capabilities = none ∨
        ∃ caps, capabilities = some caps ∧
          ((∃ c ∈ caps, GetAccessMode c = none) ∨
            ((∃ c ∈ caps, hasBlock c = true) ∧ ∃ c ∈ caps, hasMount c = true))) := by
  cases capabilities with
  | none => simp [validateCapabilities]
  | some caps =>
    simp only [validateCapabilities, capabilitiesLoop_error]
    simp

/-! ## The directory branch of the unpublish clean-up -/

/-- C21: for every target path whose host-view mount directory is a directory that is not
empty, `cleanupOldMountDirectory` returns an error and removes nothing: it makes no call of
`os.Remove`, and the file system is afterwards as it was before, so the mount directory, the
sibling `vol_data.json` and the parent `csi-*` directory are all left in place. -/
theorem cleanupOldMountDirectory_not_empty {σ : Type} (targetHostPath : String) (s : Sys σ)
    (hdir : FS.lookup s.fs (pathClean targetHostPath) = some .dir)
    (hfull : (s.fs.any fun e => under (pathClean targetHostPath) e.1) = true) :
    (cleanupOldMountDirectory targetHostPath s).res = .ret (some (.plain
        ("Error: mount/ directory at targetHostPath '" ++ targetHostPath
          ++ "' is not empty and may contain volume data"))) ∧
      (cleanupOldMountDirectory targetHostPath s).sys.fs = s.fs ∧
      ∀ e ∈ (cleanupOldMountDirectory targetHostPath s).evs, isRemove e.call = false := by
  simp [cleanupOldMountDirectory, IsDirEmpty, bind_eq, pure_eq, M.bind, M.pure, fsCall, osOpen,
    hdir, hfull, isRemove]

/-- Witness of C21: the mount directory that still holds a file. -/
theorem cleanupOldMountDirectory_not_empty_witness :
    FS.lookup usedMountSys.fs (pathClean "/host/pods/csi-1/mount") = some .dir ∧
      (cleanupOldMountDirectory "/host/pods/csi-1/mount" usedMountSys).sys.fs
        = usedMountSys.fs ∧
      FS.lookup (cleanupOldMountDirectory "/host/pods/csi-1/mount" usedMountSys).sys.fs
        "/host/pods/csi-1/vol_data.json" = some (.file none) :=
  ⟨by decide,
    (cleanupOldMountDirectory_not_empty "/host/pods/csi-1/mount" usedMountSys (by decide)
      (by decide)).2.1, by decide⟩

/-! ## What the sidecar holds -/

/-- C23: what `createISCSIConfigFile` does depends only on the disk's `Portals`, `Iqn`,
`Iface`, `InitiatorName`, `VolName` and `MpathDevice`: for two disks that agree on these six
fields it makes the same calls, writes the same content to the same file and returns the same
result, whatever their CHAP secret, LUN, CHAP flags and block flag are. -/
theorem createISCSIConfigFile_fields {σ : Type} (d1 d2 : iscsiDisk) (mnt : String)
    (hPortals : d1.Portals = d2.Portals) (hIqn : d1.Iqn = d2.Iqn) (hIface : d1.Iface = d2.Iface)
    (hInitiator : d1.InitiatorName = d2.InitiatorName) (hVol : d1.VolName = d2.VolName)
    (hMpath : d1.MpathDevice = d2.MpathDevice) :
    (createISCSIConfigFile d1 mnt : M σ (Option GoError)) = createISCSIConfigFile d2 mnt := by
  have henc : encodeDisk d1 = encodeDisk d2 := by
    simp [encodeDisk, hPortals, hIqn, hIface, hInitiator, hVol, hMpath]
  unfold createISCSIConfigFile
  rw [henc, hVol]

/-- Witness of C23: the example disk with and without CHAP credentials. -/
theorem createISCSIConfigFile_fields_witness :
    demoDisk.secret ≠ [("node.session.auth.password", "p")] ∧
      FS.lookup (createISCSIConfigFile { demoDisk with
          secret := [("node.session.auth.password", "p")], chap_session := true, lun := "7" }
        "/stage" demoSys).sys.fs "/host/stage/93642189.json" = some (.file (some
          [("Portals", .strs ["172.31.32.145:3260", "172.31.32.146:3260"]),
            ("Iqn", .str "iqn.2009-11.com.infinidat:storage:infinibox-sn-1521"),
            ("Iface", .str "172.31.32.145:3260"),
            ("InitiatorName", .str "iqn.1994-05.com.redhat:462c9b4cda1"),
            ("VolName", .str "93642189"), ("MpathDevice", .str "/dev/dm-8")])) ∧
      (createISCSIConfigFile { demoDisk with
          secret := [("node.session.auth.password", "p")], chap_session := true, lun := "7" }
        "/stage" : M Unit (Option GoError)) = createISCSIConfigFile demoDisk "/stage" :=
  ⟨by decide, by decide,
    createISCSIConfigFile_fields _ demoDisk "/stage" rfl rfl rfl rfl rfl rfl⟩

/-! ## The size within the capacity range -/

/-- The claim C24 fails for a request of one and a half gibibytes without a limit: the size
returned is 1 GiB, less than the required size. -/
theorem verifyVolumeSize_range_counterexample :
    ¬ ∀ (c : CapacityRange) (size : Int), verifyVolumeSize (some c) = (size, none) →
      c.RequiredBytes ≤ size ∧ (c.LimitBytes ≠ 0 → size ≤ c.LimitBytes) := by
  intro h
  exact absurd (h ⟨1610612736, 0⟩ 1073741824 (by decide)).1 (by decide)

/-- C24 (amended): whenever `verifyVolumeSize` succeeds, the size it returns is
`RequiredBytes` rounded down to a whole number of gibibytes, or 1 GiB when that is 0: a whole
number of gibibytes, at least 1 GiB, that is more than `RequiredBytes` less 1 GiB; if
`LimitBytes` is non-zero it is at most `LimitBytes`; and it is at least `RequiredBytes` when
that is a multiple of 1 GiB or at most 1 GiB. -/
theorem verifyVolumeSize_range (c : CapacityRange) (size : Int)
    (hr : isInt64 c.RequiredBytes) (hok : verifyVolumeSize (some c) = (size, none)) :
    size = (if c.RequiredBytes / 1073741824 = 0 then 1073741824
        else c.RequiredBytes / 1073741824 * 1073741824) ∧
      size % 1073741824 = 0 ∧ 1073741824 ≤ size ∧ c.RequiredBytes < size + 1073741824 ∧
      (c.LimitBytes ≠ 0 → size ≤ c.LimitBytes) ∧
      (c.RequiredBytes % 1073741824 = 0 ∨ c.RequiredBytes ≤ 1073741824 →
        c.RequiredBytes ≤ size) := by
  have hw : wrap64 (1 * bytesofGiB) = 1073741824 := by decide
  have hr2 : c.RequiredBytes < 2 ^ 63 := hr.2
  unfold verifyVolumeSize at hok
  simp only [GetRequiredBytes, GetLimitBytes] at hok
  by_cases hneg : c.RequiredBytes < 0 ∨ c.LimitBytes < 0
  · rw [if_pos hneg] at hok
    simp at hok
  rw [if_neg hneg] at hok
  have key : ∃ g : Int, 1 ≤ g ∧ g * 1073741824 < 2 ^ 63 ∧
      c.RequiredBytes < g * 1073741824 + 1073741824 ∧
      (c.RequiredBytes % 1073741824 = 0 ∨ c.RequiredBytes ≤ 1073741824 →
        c.RequiredBytes ≤ g * 1073741824) ∧
      g * 1073741824 = (if c.RequiredBytes / 1073741824 = 0 then 1073741824
        else c.RequiredBytes / 1073741824 * 1073741824) ∧
      (if Int.tdiv (if c.RequiredBytes = 0 then MinVolumeSize else c.RequiredBytes)
          bytesofGiB = 0 then 1
        else Int.tdiv (if c.RequiredBytes = 0 then MinVolumeSize else c.RequiredBytes)
          bytesofGiB) = g := by
    by_cases hz : c.RequiredBytes = 0
    · refine ⟨1, by decide, by decide, by omega, fun _ => by omega, ?_, ?_⟩
      · rw [if_pos (by omega)]
        rfl
      · rw [if_pos hz]
        decide
    · rw [if_neg hz, tdiv_bytesofGiB _ (by omega)]
      by_cases hd : c.RequiredBytes / 1073741824 = 0
      · exact ⟨1, by decide, by decide, by omega, fun _ => by omega,
          by rw [if_pos hd]; rfl, if_pos hd⟩
      · exact ⟨c.RequiredBytes / 1073741824, by omega, by omega, by omega,
          fun _ => by omega, by rw [if_neg hd], if_neg hd⟩
  obtain ⟨g, hg1, hg2, hg3, hg4, hg5, hg⟩ := key
  rw [hg, wrap64_GiB g (by omega) hg2] at hok
  by_cases hlim : c.LimitBytes ≠ 0 ∧ g * 1073741824 > c.LimitBytes
  · rw [if_pos hlim] at hok
    simp at hok
  · rw [if_neg hlim] at hok
    simp only [Prod.mk.injEq, and_true] at hok
    subst hok
    refine ⟨hg5, by omega, by omega, hg3, fun hl => by omega, hg4⟩

/-- Witness of C24: a request of one and a half gibibytes without a limit. -/
theorem verifyVolumeSize_range_witness :
    verifyVolumeSize (some ⟨1610612736, 0⟩) = (1073741824, none) ∧
      (1073741824 : Int) = (if (1610612736 : Int) / 1073741824 = 0 then 1073741824
        else (1610612736 : Int) / 1073741824 * 1073741824) :=
  ⟨by decide,
    (verifyVolumeSize_range ⟨1610612736, 0⟩ 1073741824 (by decide) (by decide)).1⟩

/-! ## Go maps -/

/-- A key that no entry has is not found. -/
theorem get?_none_of_any (m : GoMap) (k : String) (h : (m.any fun e => e.1 = k) = false) :
    GoMap.get? m k = none := by
  induction m with
  | nil => rfl
  | cons e m ih =>
    simp only [List.any_cons, Bool.or_eq_false_iff, decide_eq_false_iff_not] at h
    simp only [GoMap.get?, List.find?_cons, h.1, decide_False]
    exact ih h.2

/-- After the assignment `m[k] = v` the key `k` maps to `v`. -/
theorem get?_set_self (m : GoMap) (k v : String) : GoMap.get? (GoMap.set m k v) k = some v := by
  unfold GoMap.set
  split
  · rename_i h
    induction m with
    | nil => simp at h
    | cons e m ih =>
      by_cases he : e.1 = k
      · simp [GoMap.get?, List.find?_cons, he]
      · simp only [List.any_cons, he, decide_False, Bool.false_or] at h
        simpa [GoMap.get?, List.find?_cons, he] using ih h
  · rename_i h
    simp only [Bool.not_eq_true] at h
    induction m with
    | nil => simp [GoMap.get?]
    | cons e m ih =>
      simp only [List.any_cons, Bool.or_eq_false_iff, decide_eq_false_iff_not] at h
      simpa [GoMap.get?, List.find?_cons, h.1] using ih h.2

/-- Replacing the entries of the key `k` leaves every other key as it is. -/
theorem get?_map_other (m : GoMap) (k k2 v : String) (hk : k2 ≠ k) :
    GoMap.get? (m.map fun e => if e.1 = k then (k, v) else e) k2 = GoMap.get? m k2 := by
  induction m with
  | nil => rfl
  | cons e m ih =>
    unfold GoMap.get? at ih ⊢
    by_cases he : e.1 = k
    · have he2 : ¬e.1 = k2 := fun hx => hk (hx.symm.trans he)
      simp only [List.map_cons, if_pos he, List.find?_cons, hk.symm, he2, decide_False]
      exact ih
    · by_cases he2 : e.1 = k2
      · simp only [List.map_cons, if_neg he]
        simp only [List.find?_cons, he2, decide_True]
      · simp only [List.map_cons, if_neg he]
        simp only [List.find?_cons, he2, decide_False]
        exact ih

/-- Adding an entry of the key `k` at the end leaves every other key as it is. -/
theorem get?_append_other (m : GoMap) (k k2 v : String) (hk : k2 ≠ k) :
    GoMap.get? (m ++ [(k, v)]) k2 = GoMap.get? m k2 := by
  induction m with
  | nil => simp [GoMap.get?, List.find?_cons, hk.symm]
  | cons e m ih =>
    unfold GoMap.get? at ih ⊢
    by_cases he2 : e.1 = k2
    · simp only [List.cons_append, List.find?_cons, he2, decide_True]
    · simp only [List.cons_append, List.find?_cons, he2, decide_False]
      exact ih

/-- The assignment `m[k] = v` leaves every other key as it is. -/
theorem get?_set_other (m : GoMap) (k k2 v : String) (hk : k2 ≠ k) :
    GoMap.get? (GoMap.set m k v) k2 = GoMap.get? m k2 := by
  unfold GoMap.set
  split
  · exact get?_map_other m k k2 v hk
  · exact get?_append_other m k k2 v hk

/-- The value `m[k]` of a key that is found. -/
theorem get_of_get? (m : GoMap) (k v : String) (h : GoMap.get? m k = some v) :
    GoMap.get m k = v := by
  simp [GoMap.get, h]

/-! ## The secrets of a CHAP session -/

/-- A map in which a key is found is not empty. -/
theorem isEmpty_of_get? (m : GoMap) (k v : String) (h : GoMap.get? m k = some v) :
    m.isEmpty = false := by
  cases m with
  | nil => simp [GoMap.get?] at h
  | cons e m => rfl

/-- For `chap` and `mutual_chap`, a successful `parseSessionSecret` found both inbound keys
and copied their values. -/
theorem parseSessionSecret_inbound (useChap : String) (secrets : GoMap)
    (hmode : useChap = "chap" ∨ useChap = "mutual_chap")
    (hok : (parseSessionSecret useChap secrets).2 = none) :
    (∃ v, GoMap.get? (parseSessionSecret useChap secrets).1 "node.session.auth.username"
          = some v ∧ GoMap.get? secrets "node.session.auth.username" = some v) ∧
      ∃ v, GoMap.get? (parseSessionSecret useChap secrets).1 "node.session.auth.password"
          = some v ∧ GoMap.get? secrets "node.session.auth.password" = some v := by
  by_cases hemp : secrets.isEmpty = true
  · have hnil : secrets = [] := List.isEmpty_iff.mp hemp
    subst hnil
    rcases hmode with h1 | h1 <;> subst h1 <;> simp [parseSessionSecret] at hok
  · revert hok
    cases hU : GoMap.get? secrets "node.session.auth.username" <;>
      cases hP : GoMap.get? secrets "node.session.auth.password" <;>
      cases hUI : GoMap.get? secrets "node.session.auth.username_in" <;>
      cases hPI : GoMap.get? secrets "node.session.auth.password_in" <;>
      rcases hmode with h1 | h1 <;> subst h1 <;>
      simp [parseSessionSecret, takeSecret, hemp, hU, hP, hUI, hPI, GoMap.get,
        get?_set_self, get?_set_other]

/-- C25: `parseSessionSecret(useChap, secrets)` returns an error exactly when `useChap` is
`chap` and `secrets` lacks the key `node.session.auth.username` or
`node.session.auth.password`, or `useChap` is `mutual_chap` and `secrets` lacks one of the four
keys `node.session.auth.username`, `.password`, `.username_in`, `.password_in`; and on success
every key the mode requires maps to the value it has in `secrets`. -/
theorem parseSessionSecret_keys (useChap : String) (secrets : GoMap) :
    ((parseSessionSecret useChap secrets).2 ≠ none ↔
        (useChap = "chap" ∧ (GoMap.get? secrets "node.session.auth.username" = none ∨
          GoMap.get? secrets "node.session.auth.password" = none)) ∨
        (useChap = "mutual_chap" ∧ (GoMap.get? secrets "node.session.auth.username" = none ∨
          GoMap.get? secrets "node.session.auth.password" = none ∨
          GoMap.get? secrets "node.session.auth.username_in" = none ∨
          GoMap.get? secrets "node.session.auth.password_in" = none))) ∧
      ((parseSessionSecret useChap secrets).2 = none →
        (useChap = "chap" ∨ useChap = "mutual_chap" →
          GoMap.get? (parseSessionSecret useChap secrets).1 "node.session.auth.username"
              = GoMap.get? secrets "node.session.auth.username" ∧
            GoMap.get? (parseSessionSecret useChap secrets).1 "node.session.auth.password"
              = GoMap.get? secrets "node.session.auth.password") ∧
        (useChap = "mutual_chap" →
          GoMap.get? (parseSessionSecret useChap secrets).1 "node.session.auth.username_in"
              = GoMap.get? secrets "node.session.auth.username_in" ∧
            GoMap.get? (parseSessionSecret useChap secrets).1 "node.session.auth.password_in"
              = GoMap.get? secrets "node.session.auth.password_in")) := by
  by_cases hemp : secrets.isEmpty = true
  · have hnil : secrets = [] := List.isEmpty_iff.mp hemp
    subst hnil
    by_cases h1 : useChap = "chap"
    · subst h1
      simp [parseSessionSecret, GoMap.get?]
    · by_cases h2 : useChap = "mutual_chap"
      · subst h2
        simp [parseSessionSecret, GoMap.get?]
      · simp [parseSessionSecret, h1, h2]
  · cases hU : GoMap.get? secrets "node.session.auth.username" <;>
      cases hP : GoMap.get? secrets "node.session.auth.password" <;>
      cases hUI : GoMap.get? secrets "node.session.auth.username_in" <;>
      cases hPI : GoMap.get? secrets "node.session.auth.password_in" <;>
      by_cases h1 : useChap = "chap" <;>
      by_cases h2 : useChap = "mutual_chap" <;>
      simp [parseSessionSecret, takeSecret, h1, h2, hemp, hU, hP, hUI, hPI, GoMap.get,
        get?_set_self, get?_set_other]

/-! ## The disk of a publish request: secrets and portals -/

/-- What a disk returned by `getISCSIDisk` holds: the portals, the CHAP flag and the secrets,
and that the secrets were parsed without an error. -/
theorem getISCSIDisk_some {σ : Type} (h : Host σ) (req : NodePublishVolumeRequest) (s : Sys σ)
    (d : iscsiDisk) (hd : (getISCSIDisk h req s).res = .ret (some d, none)) :
    d.Portals = (strSplit (GoMap.get req.VolumeContext "portals") ",").map portalMounter ∧
      d.chap_session = decide (GoMap.get req.VolumeContext "useCHAP" ≠ "none") ∧
      (GoMap.get req.VolumeContext "useCHAP" ≠ "none" →
        (parseSessionSecret (GoMap.get req.VolumeContext "useCHAP") req.Secrets).2 = none ∧
        d.secret = (parseSessionSecret (GoMap.get req.VolumeContext "useCHAP") req.Secrets).1) := by
  obtain ⟨name, vol, hres, -, -⟩ := getISCSIDisk_run h req s
  rw [hres] at hd
  split_ifs at hd with h1 h2 h3 h4
  · simp at hd
  · simp at hd
  · simp at hd
  · cases hp : (parseSessionSecret (GoMap.get req.VolumeContext "useCHAP") req.Secrets).2 with
    | some e =>
      rw [hp] at hd
      simp at hd
    | none =>
      rw [hp] at hd
      simp only [Res.ret.injEq, Prod.mk.injEq, Option.some.injEq, and_true] at hd
      rw [← hd]
      exact ⟨rfl, rfl, fun _ => ⟨rfl, rfl⟩⟩
  · simp only [Res.ret.injEq, Prod.mk.injEq, Option.some.injEq, and_true] at hd
    rw [← hd]
    refine ⟨rfl, rfl, fun hne => ?_⟩
    simp [hne] at h4

/-- The claim C26 fails for a request without a `useCHAP` entry: the disk has
`chap_session = true` and an empty secret map. -/
theorem getISCSIDisk_secret_counterexample :
    GoMap.get? noChapKeyReq.VolumeContext "useCHAP" = none ∧
      (getISCSIDisk demoHost noChapKeyReq publishSys).res
        = .ret (some ⟨["10.0.0.1:3260"], "iqn.x", "0", "default", false, true, [], "iqn.host",
          "93", false, ""⟩, none) ∧
      GoMap.get? ([] : GoMap) "node.session.auth.username" = none := by
  refine ⟨?_, ?_, ?_⟩ <;> decide

/-- C26 (amended): every disk that `getISCSIDisk` returns without error for a request whose
`useCHAP` is `chap` or `mutual_chap` has `chap_session = true` and carries a secret map that
holds the keys `node.session.auth.username` and `node.session.auth.password`, with the values
of the request's secrets; for every other value of `useCHAP` but `none`, an absent entry
included, the disk has `chap_session = true` and an empty secret map. -/
theorem getISCSIDisk_secret {σ : Type} (h : Host σ) (req : NodePublishVolumeRequest)
    (s : Sys σ) (d : iscsiDisk) (hd : (getISCSIDisk h req s).res = .ret (some d, none)) :
    (GoMap.get req.VolumeContext "useCHAP" = "chap" ∨
        GoMap.get req.VolumeContext "useCHAP" = "mutual_chap" →
      d.chap_session = true ∧
        (∃ v, GoMap.get? d.secret "node.session.auth.username" = some v ∧
          GoMap.get? req.Secrets "node.session.auth.username" = some v) ∧
        ∃ v, GoMap.get? d.secret "node.session.auth.password" = some v ∧
          GoMap.get? req.Secrets "node.session.auth.password" = some v) ∧
      (GoMap.get req.VolumeContext "useCHAP" ≠ "none" →
        GoMap.get req.VolumeContext "useCHAP" ≠ "chap" →
        GoMap.get req.VolumeContext "useCHAP" ≠ "mutual_chap" →
        d.chap_session = true ∧ d.secret = []) := by
  obtain ⟨-, hflag, hsec⟩ := getISCSIDisk_some h req s d hd
  refine ⟨fun hmode => ?_, fun h0 h1 h2 => ?_⟩
  · have hne : GoMap.get req.VolumeContext "useCHAP" ≠ "none" := by
      rcases hmode with hm | hm <;> rw [hm] <;> decide
    obtain ⟨hok, hd2⟩ := hsec hne
    obtain ⟨⟨u, hu1, hu2⟩, ⟨p, hp1, hp2⟩⟩ := parseSessionSecret_inbound _ _ hmode hok
    rw [← hd2] at hu1 hp1
    exact ⟨by simp [hflag, hne], ⟨u, hu1, hu2⟩, ⟨p, hp1, hp2⟩⟩
  · refine ⟨by simp [hflag, h0], ?_⟩
    rw [(hsec h0).2]
    simp [parseSessionSecret, h1, h2]

/-- Witness of C26: the request with `mutual_chap` and all four credentials. -/
theorem getISCSIDisk_secret_witness :
    (getISCSIDisk demoHost fullMutualReq publishSys).res = .ret (some mutualDisk, none) ∧
      (mutualDisk.chap_session = true ∧
        (∃ v, GoMap.get? mutualDisk.secret "node.session.auth.username" = some v ∧
          GoMap.get? fullMutualReq.Secrets "node.session.auth.username" = some v) ∧
        ∃ v, GoMap.get? mutualDisk.secret "node.session.auth.password" = some v ∧
          GoMap.get? fullMutualReq.Secrets "node.session.auth.password" = some v) :=
  ⟨by decide, (getISCSIDisk_secret demoHost fullMutualReq publishSys mutualDisk (by decide)).1
    (Or.inr (by decide))⟩

/-! ## The portals of a disk -/

/-- A portal passed through `portalMounter` holds a colon. -/
theorem portalMounter_colon (p : String) : ':' ∈ (portalMounter p).data := by
  have hc := containsChars_single ':' p.data
  unfold portalMounter strContains
  by_cases hp : ':' ∈ p.data
  · rw [if_neg (by simpa using hc.mpr hp)]
    exact hp
  · rw [if_pos (by simpa using fun hx => hp (hc.mp hx))]
    simp

/-- C29: every disk that `getISCSIDisk` returns without error has a non-empty `Portals` list
in which every entry holds `:`, so the index expression `Portals[0]` of `AttachDisk` is in
range: it yields the first portal and does not panic. -/
theorem getISCSIDisk_portals_nonempty {σ : Type} (h : Host σ) (req : NodePublishVolumeRequest)
    (s : Sys σ) (d : iscsiDisk) (hd : (getISCSIDisk h req s).res = .ret (some d, none)) :
    d.Portals ≠ [] ∧ (∀ p ∈ d.Portals, ':' ∈ p.data) ∧
      ∃ p rest, d.Portals = p :: rest ∧ (index d.Portals 0 : M σ String) = pure p := by
  obtain ⟨hportals, -, -⟩ := getISCSIDisk_some h req s d hd
  have hne := strSplit_ne_nil (GoMap.get req.VolumeContext "portals") "," (by decide)
  rw [hportals]
  cases hsp : strSplit (GoMap.get req.VolumeContext "portals") "," with
  | nil => exact absurd hsp hne
  | cons x xs =>
    refine ⟨by simp, ?_, portalMounter x, xs.map portalMounter, rfl, ?_⟩
    · intro p hp
      obtain ⟨q, -, rfl⟩ := List.mem_map.mp hp
      exact portalMounter_colon q
    · simp [index, pure_eq]

/-- Witness of C29: the request with two portals, on the example host. -/
theorem getISCSIDisk_portals_nonempty_witness :
    (getISCSIDisk demoHost twoPortalsReq publishSys).res
        = .ret (some ⟨["10.0.0.1:3260", "10.0.0.2:3260"], "iqn.x", "0", "default", false, false,
          [], "iqn.host", "93", false, ""⟩, none) ∧
      (["10.0.0.1:3260", "10.0.0.2:3260"] : List String) ≠ [] :=
  ⟨by decide, (getISCSIDisk_portals_nonempty demoHost twoPortalsReq publishSys
    ⟨["10.0.0.1:3260", "10.0.0.2:3260"], "iqn.x", "0", "default", false, false, [], "iqn.host",
      "93", false, ""⟩ (by decide)).1⟩

/-! ## The rescan without a SCSI host -/

/-- C30: when the session listing succeeds and names no SCSI host, `rescanDeviceMap` returns
a nil error although no scan, no wait and no multipath wait has been made: the index
expression `hosts[0]` panics, the deferred call recovers the panic, and the result of the
function is unnamed. The listing is the only call of the run. -/
theorem rescanDeviceMap_no_hosts {σ : Type} (h : Host σ) (volumeId lun : String) (s : Sys σ)
    (r : Reply) (s1 : Sys σ) (hlist : h (.command "iscsiadm" hostsQuery) s = (.returned r, s1))
    (herr : r.err = none) (hnone : strFields r.out = []) :
    (rescanDeviceMap h volumeId lun s).res = .ret none ∧
      (rescanDeviceMap h volumeId lun s).evs
        = [⟨.rescan, .command "iscsiadm" hostsQuery, .returned r⟩] := by
  simp [rescanDeviceMap, recoverZero, command, call, bind_eq, pure_eq, M.bind, M.pure, hlist,
    herr, hnone, scanHosts, waitHosts, index, goPanic]

/-- Witness of C30: the host on which the session listing prints nothing. -/
theorem rescanDeviceMap_no_hosts_witness :
    noSessionHost (.command "iscsiadm" hostsQuery) publishSys
        = (.returned ⟨"", [], false, none⟩, publishSys) ∧
      (rescanDeviceMap noSessionHost "93" "0" publishSys).res = .ret none ∧
      ∀ e ∈ (rescanDeviceMap noSessionHost "93" "0" publishSys).evs,
        e.call = .command "iscsiadm" hostsQuery :=
  ⟨rfl, (rescanDeviceMap_no_hosts noSessionHost "93" "0" publishSys ⟨"", [], false, none⟩
    publishSys rfl rfl (by decide)).1, by decide⟩

/-! ## The transport name of an iface -/

/-- Matching the elements at the start of a text splits off characters that fit them. -/
theorem matchPrefix_iff (pat : List ReElem) : ∀ (cs rest : List Char),
    matchPrefix pat cs = some rest ↔
      ∃ m, cs = m ++ rest ∧ List.Forall₂ (fun p c => ReElem.fits p c = true) pat m := by
  induction pat with
  | nil =>
    intro cs rest
    simp only [matchPrefix, Option.some.injEq]
    constructor
    · intro hx
      exact ⟨[], by simp [hx], List.Forall₂.nil⟩
    · rintro ⟨m, hm, hf⟩
      cases hf
      simpa using hm
  | cons p ps ih =>
    intro cs rest
    cases cs with
    | nil =>
      simp only [matchPrefix]
      constructor
      · intro hx
        cases hx
      · rintro ⟨m, hm, hf⟩
        cases hf with
        | cons _ _ => simp at hm
    | cons c cs =>
      simp only [matchPrefix]
      by_cases hfit : ReElem.fits p c = true
      · rw [if_pos hfit, ih]
        constructor
        · rintro ⟨m, rfl, hf⟩
          exact ⟨c :: m, rfl, List.Forall₂.cons hfit hf⟩
        · rintro ⟨m, hm, hf⟩
          cases hf with
          | cons h1 h2 =>
            simp only [List.cons_append, List.cons.injEq] at hm
            exact ⟨_, hm.2, h2⟩
      · rw [if_neg hfit]
        constructor
        · intro hx
          cases hx
        · rintro ⟨m, hm, hf⟩
          cases hf with
          | cons h1 h2 =>
            simp only [List.cons_append, List.cons.injEq] at hm
            rw [← hm.1] at h1
            exact absurd h1 hfit

/-- A text with a newline is the characters before the first newline, the newline and a
rest. -/
theorem takeWhile_newline (r : List Char) (hr : r.contains '\n' = true) :
    ∃ rest, r = (r.takeWhile fun c => c ≠ '\n') ++ '\n' :: rest ∧
      '\n' ∉ r.takeWhile fun c => c ≠ '\n' := by
  induction r with
  | nil => simp at hr
  | cons c cs ih =>
    by_cases hc : c = '\n'
    · subst hc
      exact ⟨cs, by simp [List.takeWhile], by simp [List.takeWhile]⟩
    · have hcs : cs.contains '\n' = true := by
        simp only [List.contains_cons, Bool.or_eq_true, beq_iff_eq] at hr
        rcases hr with hr | hr
        · exact absurd hr.symm hc
        · exact hr
      obtain ⟨rest, h1, h2⟩ := ih hcs
      refine ⟨rest, ?_, ?_⟩
      · simp only [List.takeWhile, hc, ne_eq, not_false_eq_true, decide_True, List.cons_append]
        rw [← h1]
      · simp only [List.takeWhile, hc, ne_eq, not_false_eq_true, decide_True, List.mem_cons,
          not_or]
        exact ⟨fun hx => hc hx.symm, h2⟩

/-- The characters before the first newline of a text that starts with a line. -/
theorem takeWhile_line (cap rest : List Char) (hcap : '\n' ∉ cap) :
    (cap ++ '\n' :: rest).takeWhile (fun c => c ≠ '\n') = cap := by
  induction cap with
  | nil => simp [List.takeWhile]
  | cons c cs ih =>
    simp only [List.mem_cons, not_or] at hcap
    have hc : c ≠ '\n' := fun hx => hcap.1 hx.symm
    simp only [List.cons_append, List.takeWhile, hc, ne_eq, not_false_eq_true, decide_True,
      List.cons.injEq, true_and]
    exact ih hcap.2

/-- The submatch at the start of a text is what the expression matches there. -/
theorem submatchAt_iff (pat : List ReElem) (cs cap : List Char) :
    submatchAt pat cs = some cap ↔ MatchesAt pat cs 0 cap := by
  unfold submatchAt MatchesAt
  simp only [List.drop_zero]
  constructor
  · intro hs
    cases hmp : matchPrefix pat cs with
    | none => simp [hmp] at hs
    | some r =>
      rw [hmp] at hs
      by_cases hr : r.contains '\n' = true
      · simp only [hr, if_true, Option.some.injEq] at hs
        obtain ⟨m, hm, hf⟩ := (matchPrefix_iff pat cs r).mp hmp
        obtain ⟨rest, h1, h2⟩ := takeWhile_newline r hr
        rw [hs] at h1 h2
        exact ⟨m, rest, by rw [hm, h1, List.append_assoc], hf, h2⟩
      · simp only [hr] at hs
        simp at hs
  · rintro ⟨m, rest, hcs, hf, hcap⟩
    have hmp : matchPrefix pat cs = some (cap ++ '\n' :: rest) :=
      (matchPrefix_iff pat cs _).mpr ⟨m, by rw [hcs, List.append_assoc], hf⟩
    rw [hmp]
    have hin : (cap ++ '\n' :: rest).contains '\n' = true := by simp
    simp only []
    rw [if_pos hin, takeWhile_line cap rest hcap]

/-- The leftmost match decides the submatch. -/
theorem findSubmatch_first (pat : List ReElem) : ∀ (cs : List Char) (i : Nat) (cap : List Char),
    submatchAt pat (cs.drop i) = some cap → (∀ j < i, submatchAt pat (cs.drop j) = none) →
    findSubmatch pat cs = some cap := by
  intro cs
  induction cs with
  | nil =>
    intro i cap h1 _
    simpa [findSubmatch] using h1
  | cons c cs ih =>
    intro i cap h1 h2
    cases i with
    | zero =>
      simp only [List.drop_zero] at h1
      simp [findSubmatch, h1]
    | succ k =>
      have h0 := h2 0 (Nat.succ_pos k)
      simp only [List.drop_zero] at h0
      simp only [findSubmatch, h0]
      exact ih k cap (by simpa using h1) (fun j hj => by simpa using h2 (j + 1) (by omega))

/-- Without a match there is no submatch. -/
theorem findSubmatch_none (pat : List ReElem) : ∀ (cs : List Char),
    (∀ i, submatchAt pat (cs.drop i) = none) → findSubmatch pat cs = none := by
  intro cs
  induction cs with
  | nil =>
    intro h
    simpa [findSubmatch] using h 0
  | cons c cs ih =>
    intro h
    have h0 := h 0
    simp only [List.drop_zero] at h0
    simp only [findSubmatch, h0]
    exact ih (fun i => by simpa using h (i + 1))

/-- A match at a position is a match at the start of the text from there on. -/
theorem matchesAt_drop (pat : List ReElem) (cs : List Char) (i : Nat) (cap : List Char) :
    MatchesAt pat cs i cap ↔ MatchesAt pat (cs.drop i) 0 cap := by
  simp [MatchesAt]

/-- The claim C28 fails for an output whose last line is the transport setting without a
newline behind it: the elements of `iface.transport_name = ` match and `tcp` follows up to the
end of the text, but the expression of the source ends in a newline, so it does not match and
the function returns the empty string. -/
theorem extractTransportName_counterexample :
    matchPrefix transportPattern "iface.transport_name = tcp".data = some "tcp".data ∧
      extractTransportName "iface.transport_name = tcp" = "" ∧
      extractTransportName "iface.transport_name = tcp\n" = "tcp" := by
  refine ⟨?_, ?_, ?_⟩ <;> decide

/-- C28 (amended): for every iface-show output in which the expression
`iface.transport_name = (.*)\n` matches, newline included, `extractTransportName` returns
`tcp` when the leftmost match captures `<empty>` and the captured text otherwise; for an output
in which the expression does not match it returns the empty string. -/
theorem extractTransportName_match (out : String) :
    (∀ i cap, MatchesAt transportPattern out.data i cap →
        (∀ j < i, ∀ cap2, ¬MatchesAt transportPattern out.data j cap2) →
        extractTransportName out = if String.mk cap = "<empty>" then "tcp" else String.mk cap) ∧
      ((∀ i cap, ¬MatchesAt transportPattern out.data i cap) → extractTransportName out = "") := by
  refine ⟨fun i cap hm hfirst => ?_, fun hno => ?_⟩
  · have h1 : submatchAt transportPattern (out.data.drop i) = some cap :=
      (submatchAt_iff _ _ _).mpr ((matchesAt_drop _ _ _ _).mp hm)
    have h2 : ∀ j < i, submatchAt transportPattern (out.data.drop j) = none := by
      intro j hj
      cases hs : submatchAt transportPattern (out.data.drop j) with
      | none => rfl
      | some cap2 =>
        exact absurd ((matchesAt_drop _ _ _ _).mpr ((submatchAt_iff _ _ _).mp hs))
          (hfirst j hj cap2)
    have h3 := findSubmatch_first transportPattern out.data i cap h1 h2
    simp [extractTransportName, transportSubmatch, h3]
  · have h2 : ∀ i, submatchAt transportPattern (out.data.drop i) = none := by
      intro i
      cases hs : submatchAt transportPattern (out.data.drop i) with
      | none => rfl
      | some cap2 =>
        exact absurd ((matchesAt_drop _ _ _ _).mpr ((submatchAt_iff _ _ _).mp hs)) (hno i cap2)
    have h3 := findSubmatch_none transportPattern out.data h2
    simp [extractTransportName, transportSubmatch, h3]

/-- Witness of C28: an output whose transport setting is `<empty>`. -/
theorem extractTransportName_match_witness :
    MatchesAt transportPattern "iface.transport_name = <empty>\n".data 0 "<empty>".data ∧
      extractTransportName "iface.transport_name = <empty>\n"
        = if String.mk "<empty>".data = "<empty>" then "tcp" else String.mk "<empty>".data :=
  ⟨(submatchAt_iff _ _ _).mp (by decide),
    (extractTransportName_match "iface.transport_name = <empty>\n").1 0 "<empty>".data
      ((submatchAt_iff _ _ _).mp (by decide)) (fun j hj => absurd hj (Nat.not_lt_zero j))⟩

/-! ## The settings of an iface listing -/

/-- The last setting of a key in a listing with one more line in front. -/
theorem lastSetting_cons (line : String) (rest : List String) (key : String) :
    lastSetting (line :: rest) key =
      match lastSetting rest key with
      | some v => some v
      | none =>
        if ifaceLine line = true then
          match settingOf line with
          | some (k, v) => if k = key then some v else none
          | none => none
        else none := by
  unfold lastSetting
  by_cases hl : ifaceLine line = true
  · simp only [List.filter_cons, hl, if_true]
    cases hs : settingOf line with
    | none =>
      simp only [List.filterMap_cons, hs]
      cases ((List.filterMap settingOf (List.filter ifaceLine rest)).reverse.find?
        fun kv => kv.1 = key) <;> rfl
    | some kv =>
      simp only [List.filterMap_cons, hs, List.reverse_cons, List.find?_append]
      cases ((List.filterMap settingOf (List.filter ifaceLine rest)).reverse.find?
        fun kv => kv.1 = key) with
      | some x => rfl
      | none =>
        by_cases hk : kv.1 = key
        · simp [List.find?_cons, hk]
        · simp [List.find?_cons, hk]
  · have hf : ifaceLine line = false := by simpa using hl
    simp only [List.filter_cons, hf, Bool.false_eq_true, if_false]
    generalize ((List.filterMap settingOf (List.filter ifaceLine rest)).reverse.find?
      fun kv => kv.1 = key) = found
    cases found <;> rfl

/-- The loop of `parseIscsiadmShow` skips the lines that are not `iface.` lines or hold
`<empty>`. -/
theorem parseLines_skip (line : String) (rest : List String) (params : GoMap)
    (hl : ifaceLine line = false) : parseLines (line :: rest) params = parseLines rest params := by
  have hc : (!strHasPrefix line "iface." || strContains line "<empty>") = true := by
    unfold ifaceLine at hl
    cases h1 : strHasPrefix line "iface." <;> cases h2 : strContains line "<empty>" <;>
      simp [h1, h2] at hl ⊢
  rw [parseLines, if_pos hc]

/-- The loop of `parseIscsiadmShow` on an `iface.` line without `<empty>`. -/
theorem parseLines_iface (line : String) (rest : List String) (params : GoMap)
    (hl : ifaceLine line = true) :
    parseLines (line :: rest) params =
      match settingOf line with
      | none => (none, some (.plain ("iscsi: Invalid iface setting: "
          ++ sliceText (strFields line))))
      | some (k, v) =>
        if k = "iface.iscsi_ifacename" then parseLines rest params
        else parseLines rest (GoMap.set params k v) := by
  have hc : ¬(!strHasPrefix line "iface." || strContains line "<empty>") = true := by
    unfold ifaceLine at hl
    cases h1 : strHasPrefix line "iface." <;> cases h2 : strContains line "<empty>" <;>
      simp [h1, h2] at hl ⊢
  rw [parseLines, if_neg hc]
  unfold settingOf
  rcases hf : strFields line with _ | ⟨a, _ | ⟨b, _ | ⟨c, _ | ⟨d, t⟩⟩⟩⟩
  · rfl
  · rfl
  · rfl
  · by_cases hb : b = "="
    · simp [hb]
    · simp [hb]
  · rfl

/-- The loop of `parseIscsiadmShow` fails exactly on an `iface.` line without `<empty>` that is
not a setting, and otherwise returns the map with the last settings of the lines put on top
of `params`. -/
theorem parseLines_spec (lines : List String) : ∀ params : GoMap,
    ((parseLines lines params).2 ≠ none ↔
        ∃ line ∈ lines, ifaceLine line = true ∧ settingOf line = none) ∧
      ((parseLines lines params).2 = none →
        ∃ m, parseLines lines params = (some m, none) ∧
          ∀ key, GoMap.get? m key =
            if key = "iface.iscsi_ifacename" then GoMap.get? params key
            else
              match lastSetting lines key with
              | some v => some v
              | none => GoMap.get? params key) := by
  induction lines with
  | nil =>
    intro params
    simp [parseLines, lastSetting]
  | cons line rest ih =>
    intro params
    by_cases hl : ifaceLine line = true
    · rw [parseLines_iface line rest params hl]
      cases hs : settingOf line with
      | none =>
        simp only [ne_eq, not_false_eq_true, true_iff, reduceCtorEq, false_implies, and_true]
        exact ⟨line, List.mem_cons_self _ _, hl, hs⟩
      | some kv =>
        obtain ⟨k, v⟩ := kv
        simp only []
        by_cases hk : k = "iface.iscsi_ifacename"
        · rw [if_pos hk]
          obtain ⟨h1, h2⟩ := ih params
          refine ⟨?_, fun hok => ?_⟩
          · rw [h1]
            simp [hs]
          · obtain ⟨m, hm, hget⟩ := h2 hok
            refine ⟨m, hm, fun key => ?_⟩
            rw [hget key, lastSetting_cons]
            by_cases hkey : key = "iface.iscsi_ifacename"
            · simp [hkey]
            · have hne : ¬k = key := fun hx => hkey (hx.symm.trans hk)
              cases lastSetting rest key <;> simp [hkey, hl, hs, hne]
        · rw [if_neg hk]
          obtain ⟨h1, h2⟩ := ih (GoMap.set params k v)
          refine ⟨?_, fun hok => ?_⟩
          · rw [h1]
            simp [hs]
          · obtain ⟨m, hm, hget⟩ := h2 hok
            refine ⟨m, hm, fun key => ?_⟩
            rw [hget key, lastSetting_cons]
            by_cases hkey : key = "iface.iscsi_ifacename"
            · have hne : key ≠ k := fun hx => hk (hx.symm.trans hkey)
              simp [hkey, get?_set_other _ _ _ _ (hkey ▸ hne)]
            · by_cases hkk : k = key
              · subst hkk
                cases lastSetting rest k <;> simp [hkey, hl, hs, get?_set_self]
              · have hne : key ≠ k := fun hx => hkk hx.symm
                cases lastSetting rest key <;>
                  simp [hkey, hl, hs, hkk, get?_set_other _ _ _ _ hne]
    · have hf : ifaceLine line = false := by simpa using hl
      rw [parseLines_skip line rest params hf]
      obtain ⟨h1, h2⟩ := ih params
      refine ⟨?_, fun hok => ?_⟩
      · rw [h1]
        simp [hf]
      · obtain ⟨m, hm, hget⟩ := h2 hok
        refine ⟨m, hm, fun key => ?_⟩
        rw [hget key, lastSetting_cons]
        cases lastSetting rest key <;> simp [hf]

/-- C27: `parseIscsiadmShow` fails exactly when some line of the output that starts with
`iface.` and does not contain `<empty>` is not of the three white-space-separated fields key,
`=`, value; and when it succeeds, the map it returns holds for every key other than
`iface.iscsi_ifacename` the value of the last such line that sets the key, holds nothing for a
key that no such line sets, and never holds `iface.iscsi_ifacename`. -/
theorem parseIscsiadmShow_settings (output : String) :
    ((parseIscsiadmShow output).2 ≠ none ↔
        ∃ line ∈ strSplit output "\n", ifaceLine line = true ∧ settingOf line = none) ∧
      ((parseIscsiadmShow output).2 = none →
        ∃ params, parseIscsiadmShow output = (some params, none) ∧
          ∀ key, GoMap.get? params key =
            if key = "iface.iscsi_ifacename" then none
            else lastSetting (strSplit output "\n") key) := by
  obtain ⟨h1, h2⟩ := parseLines_spec (strSplit output "\n") []
  refine ⟨h1, fun hok => ?_⟩
  obtain ⟨m, hm, hget⟩ := h2 hok
  refine ⟨m, hm, fun key => ?_⟩
  rw [hget key]
  by_cases hkey : key = "iface.iscsi_ifacename"
  · simp [hkey, GoMap.get?]
  · simp only [if_neg hkey]
    cases lastSetting (strSplit output "\n") key <;> rfl

/-- Witness of C27: a listing with a repeated key, an `<empty>` value and the iface name. -/
theorem parseIscsiadmShow_settings_witness :
    parseIscsiadmShow ("# BEGIN RECORD\niface.iscsi_ifacename = default\n"
        ++ "iface.transport_name = tcp\niface.hwaddress = <empty>\n"
        ++ "iface.transport_name = iser\n# END RECORD\n")
        = (some [("iface.transport_name", "iser")], none) ∧
      (parseIscsiadmShow "iface.transport_name tcp\n").2
        = some (.plain "iscsi: Invalid iface setting: [iface.transport_name tcp]") ∧
      ((parseIscsiadmShow "iface.transport_name tcp\n").2 ≠ none ↔
        ∃ line ∈ strSplit "iface.transport_name tcp\n" "\n",
          ifaceLine line = true ∧ settingOf line = none) :=
  ⟨by decide, by decide, (parseIscsiadmShow_settings "iface.transport_name tcp\n").1⟩

end Infinibox
